import Mathlib

/-!
# dreampics_frontend: job state machine and warm-instance pool

A shallow embedding of the `job` package (`state.go`, `task.go`, `instance.go`,
`poolinstance.go`, `status.go`, `randstr.go`, `tls.go`) and of `storage.WriteFile` and
`storage.HandleUpload`.

Conventions of the embedding:
* `time.Time` is an `Int` counting nanoseconds; `t.After(u)` is `u < t`.
* `[]byte` is a `List Nat`; `nil` and the empty slice are both `[]`.
* A `*datastore.Key` of kind `PoolInstance` or `Job` is its string id.
* A `[]*datastore.Key` that may be `nil` is an `Option (List String)`.
* Everything the code obtains from outside the package (clock, random sources,
  crypto and JSON libraries, the cloud provider, HTTP, object storage, datastore
  failures) is read from an `Env` record of oracles.
* `State.process` runs inside a datastore transaction; it returns the writes it
  issued as a `StepResult`, and `commit` applies them to a `Datastore`.
* Loops that the source does not bound (`processJob`, `ShrinkPool`) take a fuel argument
  and report when it ran out.
-/

namespace Dreampics

/-! ## Basic types -/

/-- Go `error` values: `datastore.ErrNoSuchEntity` or any other error. -/
inductive Error where
  | noSuchEntity
  | other (msg : String)
  deriving DecidableEq, Repr

/-- Nanoseconds, as in `time.Time` instants and `time.Duration`. -/
abbrev Time := Int

def Second : Int := 1000000000

def Minute : Int := 60 * Second

def Hour : Int := 60 * Minute

/-- The instant held by a zero `time.Time` (January 1, year 1, UTC) relative to the Unix epoch. -/
def zeroTime : Time := -62135596800 * Second

/-- `type Status int` of status.go. -/
abbrev Status := Int

def StatusNew : Status := 0

def StatusMustLaunchInstance : Status := 1

def StatusLaunchingInstance : Status := 2

def StatusHaveInstance : Status := 3

def StatusFinishedWithInstance : Status := 4

def StatusDone : Status := 5

def StatusFailed : Status := 6

/-- `Status.OutputReady` of status.go. -/
def Status.OutputReady (status : Status) : Bool :=
  if status = StatusFinishedWithInstance then true
  else if status = StatusDone then true
  else false

/-- `Status.Description` of status.go. A Go `case` without statements leaves the `switch`
(there is no implicit fall-through), so `switched` is `none` there and the function goes on
to its final `return`. -/
def Status.Description (status : Status) : String :=
  let switched : Option String :=
    if status = StatusNew then some "Looking for free dream server..."
    else if status = StatusMustLaunchInstance then none
    else if status = StatusLaunchingInstance then some "Launching dream server..."
    else if status = StatusHaveInstance then some "Dreaming..."
    else if status = StatusFinishedWithInstance then none
    else if status = StatusDone then some "Finished."
    else if status = StatusFailed then some "Failed to process image."
    else none
  match switched with
  | some description => description
  | none => "Status is unknown."

/-- `type Task int` of task.go. -/
inductive Task where
  | TaskNone
  | TaskHaltProcessing
  | TaskGetPoolInstances
  | TaskCheckLiveness
  | TaskDream
  deriving DecidableEq, Repr

/-- `Instance` of instance.go. -/
structure Instance where
  ID : String
  AuthCode : String
  Certificate : List Nat
  PrivateKey : List Nat
  LaunchTime : Time
  IP : String
  deriving DecidableEq, Repr

/-- The zero value of `Instance`. -/
def Instance.zero : Instance :=
  { ID := "", AuthCode := "", Certificate := [], PrivateKey := [], LaunchTime := zeroTime, IP := "" }

/-- `PoolInstance` of poolinstance.go. -/
structure PoolInstance where
  Instance : Dreampics.Instance
  PoolAddTime : Time
  deriving DecidableEq, Repr

/-- The zero value of `PoolInstance` (`var poolInstance PoolInstance`). -/
def PoolInstance.zero : PoolInstance :=
  { Instance := Instance.zero, PoolAddTime := zeroTime }

/-- `State` of state.go: the persisted job record. -/
structure State where
  ID : String
  Status : Dreampics.Status
  InputData : String
  OutputData : String
  Instance : Dreampics.Instance
  deriving DecidableEq, Repr

/-- `JobLog` of state.go. -/
structure JobLog where
  NewStatus : Status
  PrevStatus : Status
  Time : Dreampics.Time
  deriving DecidableEq, Repr

/-- `taskState` of task.go: the in-memory scratchpad of one `processJob` invocation. -/
structure taskState where
  PoolInstances : Option (List String)
  PoolInstancesRetrievedBefore : Bool
  LivenessChecked : Bool
  LivenessCheckSuccess : Bool
  LivenessCheckPublicIP : String
  DreamDone : Bool
  DreamOutputData : String
  deriving DecidableEq, Repr

/-- The zero value `&taskState{}` with which `processJob` starts. -/
def taskState.zero : taskState :=
  { PoolInstances := none, PoolInstancesRetrievedBefore := false, LivenessChecked := false,
    LivenessCheckSuccess := false, LivenessCheckPublicIP := "", DreamDone := false,
    DreamOutputData := "" }

/-- What an `*http.Response` carries that the package reads. -/
structure HttpResponse where
  StatusCode : Nat
  Status : String
  /-- Value of `resp.Request.URL.Host`: host and port of the request that obtained the
  response. `net/http` sets `resp.Request` to the last request the client sent, so after a
  redirect that the client followed it is the host of the redirect target, not of the URL
  handed to `client.Get`. -/
  RequestHost : String
  Body : Except Error (List Nat)

/-- The value of a struct field handed to `json.Marshal`: a Go `string` or a `[]byte`. -/
inductive JsonField where
  | str (value : String)
  | bytes (value : List Nat)
  deriving DecidableEq, Repr

/-- The world outside the package, as seen during one transaction or one task. -/
structure Env where
  /-- Value of `time.Now()`. -/
  now : Time
  /-- The raw value behind the k-th `rand.Intn` call; `rand.Intn(n)` is this value modulo `n`. -/
  randIntn : Nat → Nat
  /-- The k-th byte that `crypto/rand.Read` writes into a buffer (taken modulo 256). -/
  randByte : Nat → Nat
  /-- Failure, if any, of `crypto/rand.Read`. -/
  randReadFault : Option Error
  /-- Outcome of `rsa.GenerateKey(rand.Reader, bits)`: an abstract key handle. -/
  rsaGenerateKey : Nat → Except Error Nat
  /-- Outcome of `rand.Int(rand.Reader, limit)`. -/
  randInt : Nat → Except Error Nat
  /-- Outcome of `x509.CreateCertificate` for serial, key, notBefore, notAfter: DER bytes. -/
  createCertificate : Nat → Nat → Time → Time → Except Error (List Nat)
  /-- Result of `x509.MarshalPKCS1PrivateKey`. -/
  marshalPKCS1PrivateKey : Nat → List Nat
  /-- Result of `pem.EncodeToMemory` for a block type and bytes. -/
  pemEncode : String → List Nat → List Nat
  /-- Result of `json.Marshal` on a struct, given as its fields in order, each with the key
  of its `json` tag. -/
  jsonMarshal : List (String × JsonField) → Except Error (List Nat)
  /-- Configuration values read at start-up. -/
  dreamServerAmi : String
  dreamServerInstanceType : String
  awsSecurityGroup : String
  gcsBucket : String
  /-- Outcome of `RunInstances` for a client token and user data: the first instance id. -/
  runInstances : String → String → Except Error String
  /-- Outcome of the k-th `DescribeInstances` for an id: per reservation, the first
  instance's public address if any. -/
  describeInstances : Nat → String → Except Error (List (Option String))
  /-- Whether `AppendCertsFromPEM` accepts the certificate. -/
  appendCertsFromPEM : List Nat → Bool
  /-- Outcome of the k-th `client.Get` on a URL. -/
  httpGet : Nat → String → Except Error HttpResponse
  /-- Outcome of `client.Post` on a URL with a multipart file field. -/
  httpPost : String → String → List Nat → Except Error HttpResponse
  /-- Outcome of `storage.ReadFile`. -/
  readFile : String → Except Error (List Nat)
  /-- Failure, if any, of writing an object to the bucket. -/
  gcsWriteFault : String → List Nat → Option Error
  /-- Failure, if any, of the k-th `datastore.Get` of a PoolInstance inside a transaction. -/
  getFault : Nat → Option Error
  /-- Failure, if any, of `datastore.Get` on the job row. -/
  getJobFault : Option Error
  /-- Failure, if any, of `datastore.Delete`. -/
  deleteFault : Option Error
  /-- Failure, if any, of `datastore.PutMulti`. -/
  putFault : Option Error
  /-- Outcome of the projection query of `getCandidatePoolInstances`: key ids and add times. -/
  queryNewest : Except Error (List (String × Time))

/-! ## randstr.go -/

/-- Alphabet of `base64.URLEncoding`. -/
def urlAlphabet : List Char :=
  "ABCDEFGHIJKLMNOPQRSTUVWXYZabcdefghijklmnopqrstuvwxyz0123456789-_".toList

/-- Alphabet of `base64.StdEncoding`. -/
def stdAlphabet : List Char :=
  "ABCDEFGHIJKLMNOPQRSTUVWXYZabcdefghijklmnopqrstuvwxyz0123456789+/".toList

/-- The character for a 6-bit value. -/
def base64Char (alphabet : List Char) (v : Nat) : Char :=
  alphabet.getD (v % 64) 'A'

/-- Padded base64 `EncodeToString` over the given alphabet. -/
def encodeBase64 (alphabet : List Char) : List Nat → List Char
  | [] => []
  | [a] => [base64Char alphabet (a / 4), base64Char alphabet ((a % 4) * 16), '=', '=']
  | [a, b] =>
    [base64Char alphabet (a / 4), base64Char alphabet ((a % 4) * 16 + b / 16),
      base64Char alphabet ((b % 16) * 4), '=']
  | a :: b :: d :: rest =>
    [base64Char alphabet (a / 4), base64Char alphabet ((a % 4) * 16 + b / 16),
      base64Char alphabet ((b % 16) * 4 + d / 64), base64Char alphabet (d % 64)]
      ++ encodeBase64 alphabet rest

/-- `generateRandStr` of randstr.go. -/
def generateRandStr (env : Env) (length : Nat) : Except Error String :=
  match env.randReadFault with
  | some e => .error e
  | none =>
    let randBytes := (List.range length).map (fun k => env.randByte k % 256)
    .ok (String.mk ((encodeBase64 urlAlphabet randBytes).take length))

/-! ## tls.go -/

/-- `generateCert` of tls.go: certificate and private key, both PEM encoded. -/
def generateCert (env : Env) : Except Error (List Nat × List Nat) :=
  match env.rsaGenerateKey 2048 with
  | .error e => .error e
  | .ok priv =>
    let notBefore := env.now
    let notAfter := notBefore + Hour * 24 * 365
    match env.randInt (2 ^ 128) with
    | .error e => .error e
    | .ok serialNumber =>
      match env.createCertificate serialNumber priv notBefore notAfter with
      | .error e => .error e
      | .ok derBytes =>
        .ok (env.pemEncode "CERTIFICATE" derBytes,
          env.pemEncode "RSA PRIVATE KEY" (env.marshalPKCS1PrivateKey priv))

/-! ## instance.go -/

/-- The fields of `ec2.RunInstancesInput` that `Instance.launch` sets. -/
structure RunInstancesInput where
  ClientToken : String
  ImageID : String
  InstanceType : String
  MinCount : Nat
  MaxCount : Nat
  UserData : String
  SecurityGroups : List String
  deriving DecidableEq, Repr

/-- The anonymous `userData` struct of `Instance.launch` with its `json` tags. -/
def userDataFields (i : Instance) : List (String × JsonField) :=
  [("auth_code", JsonField.str i.AuthCode),
   ("ssl_certificate", JsonField.bytes i.Certificate),
   ("ssl_private_key", JsonField.bytes i.PrivateKey)]

/-- The first half of `Instance.launch`: the parameters of its `RunInstances` request. -/
def Instance.launchParams (env : Env) (i : Instance) (clientToken : String) :
    Except Error RunInstancesInput :=
  match env.jsonMarshal (userDataFields i) with
  | .error e => .error e
  | .ok userDataJson =>
    let userDataStr := String.mk (encodeBase64 stdAlphabet userDataJson)
    .ok { ClientToken := clientToken
          ImageID := env.dreamServerAmi
          InstanceType := env.dreamServerInstanceType
          MinCount := 1
          MaxCount := 1
          UserData := userDataStr
          SecurityGroups := [env.awsSecurityGroup] }

/-- `Instance.launch`: on success the instance with `ID`, `LaunchTime` set and `PrivateKey`
cleared. The provider is asked once, with the parameters of `launchParams`. -/
def Instance.launch (env : Env) (i : Instance) (clientToken : String) : Except Error Instance :=
  match i.launchParams env clientToken with
  | .error e => .error e
  | .ok params =>
    match env.runInstances params.ClientToken params.UserData with
    | .error e => .error e
    | .ok instanceID => .ok { i with ID := instanceID, LaunchTime := env.now, PrivateKey := [] }

/-- `Instance.toPoolInstance`. -/
def Instance.toPoolInstance (env : Env) (i : Instance) : PoolInstance :=
  { Instance := i, PoolAddTime := env.now }

/-- `Instance.publicIP`, for the k-th request of a task. -/
def Instance.publicIP (env : Env) (k : Nat) (i : Instance) : Except Error String :=
  if i.IP ≠ "" then .ok i.IP
  else
    match env.describeInstances k i.ID with
    | .error e => .error e
    | .ok [] => .error (.other "No such instance ID found on AWS; terminated or still starting?")
    | .ok (none :: _) => .error (.other "No public IP found for instance; still starting up?")
    | .ok (some ip :: _) => .ok ip

/-- `Instance.httpClient`: fails when the certificate cannot be added to the pool. -/
def Instance.httpClient (env : Env) (i : Instance) : Except Error Unit :=
  if env.appendCertsFromPEM i.Certificate then .ok ()
  else .error (.other "Could not add certificate to pool.")

/-- `Instance.get`, for the k-th request of a task. -/
def Instance.get (env : Env) (k : Nat) (i : Instance) (pathAndQuery : String) :
    Except Error HttpResponse :=
  match i.publicIP env k with
  | .error e => .error e
  | .ok ip =>
    match i.httpClient env with
    | .error e => .error e
    | .ok _ => env.httpGet k ("https://" ++ ip ++ ":8080/" ++ pathAndQuery)

/-- `Instance.postFile`. -/
def Instance.postFile (env : Env) (i : Instance) (pathAndQuery filename : String)
    (file : List Nat) : Except Error HttpResponse :=
  match i.publicIP env 0 with
  | .error e => .error e
  | .ok ip =>
    match i.httpClient env with
    | .error e => .error e
    | .ok _ => env.httpPost ("https://" ++ ip ++ ":8080/" ++ pathAndQuery) filename file

/-! ## storage/file.go -/

/-- `storage.WriteFile`. -/
def WriteFile (env : Env) (filename : String) (data : List Nat) : Except Error String :=
  match env.gcsWriteFault filename data with
  | some e => .error e
  | none => .ok ("/gs/" ++ env.gcsBucket ++ "/" ++ filename)

/-! ## poolinstance.go: candidate selection -/

/-- The scan `for i, v := range instances` of `getCandidatePoolInstances`: index of the first
result whose add time lies before `minAddTime`, or the number of results. -/
def candidateCount (minAddTime : Time) : List (String × Time) → Nat
  | [] => 0
  | v :: rest => if v.2 < minAddTime then 0 else candidateCount minAddTime rest + 1

/-- `getCandidatePoolInstances` of poolinstance.go, returning the Go pair `(keys, err)`;
`none` is the nil slice. -/
def getCandidatePoolInstances (env : Env) (retry : Bool) : Option (List String) × Option Error :=
  match env.queryNewest with
  | .error e => (none, some e)
  | .ok [] => (some [], none)
  | .ok (first :: rest) =>
    let maxTimeDifference := if retry then 5 * Second * 5 else 5 * Second
    let minAddTime := first.2 - maxTimeDifference
    let count := candidateCount minAddTime (first :: rest)
    (some (((first :: rest).take count).map (fun r => r.1)), none)

/-! ## state.go: the transactional half -/

/-- An entity handed to `datastore.PutMulti`, with what identifies its key. -/
inductive Entity where
  | jobLog (parent : String) (log : JobLog)
  | poolInstance (key : String) (p : PoolInstance)
  | job (key : String) (s : State)
  deriving DecidableEq, Repr

/-- What one call of `State.process` returns and does: the task, the job record as mutated,
the PoolInstance keys it deleted, its `PutMulti` batch in order, and the instance ids for
which it called `terminateInstanceDelay.Call`. -/
structure StepResult where
  task : Task
  state : State
  deletes : List String
  puts : List Entity
  calls : List String
  deriving DecidableEq, Repr

/-- `State.changeStatus`: append a JobLog row to the pending batch and set the status. -/
def State.changeStatus (env : Env) (s : State) (newStatus : Dreampics.Status)
    (puts : List Entity) :
    State × List Entity :=
  let log : JobLog := { NewStatus := newStatus, PrevStatus := s.Status, Time := env.now }
  ({ s with Status := newStatus }, puts ++ [Entity.jobLog s.ID log])

/-- `datastore.Get` of a PoolInstance row inside the transaction (k-th such read). -/
def getPoolInstance (env : Env) (pool : String → Option PoolInstance) (k : Nat) (key : String) :
    Except Error PoolInstance :=
  match env.getFault k with
  | some e => .error e
  | none =>
    match pool key with
    | none => .error Error.noSuchEntity
    | some p => .ok p

/-- The loop `for i := 0; i < 5; i++` of the NEW case, from iteration `i` with `fuel` iterations
left: the final value of `poolInstance` and the keys deleted. -/
def acquireLoop (env : Env) (pool : String → Option PoolInstance) (keys : List String) :
    Nat → Nat → PoolInstance → Except Error (PoolInstance × List String)
  | 0, _, poolInstance => .ok (poolInstance, [])
  | fuel + 1, i, poolInstance =>
    let instanceKey := keys.getD (env.randIntn i % keys.length) ""
    match getPoolInstance env pool i instanceKey with
    | .error e =>
      if e = Error.noSuchEntity then acquireLoop env pool keys fuel (i + 1) poolInstance
      else .error e
    | .ok got =>
      match env.deleteFault with
      | some e => .error e
      | none => .ok (got, [instanceKey])

/-- The tail of `State.process`: append the job to the batch and `PutMulti`. -/
def State.putAll (env : Env) (s : State) (deletes : List String) (puts : List Entity)
    (calls : List String) : Except Error StepResult :=
  match env.putFault with
  | some e => .error e
  | none =>
    .ok { task := Task.TaskNone, state := s, deletes := deletes,
          puts := puts ++ [Entity.job s.ID s], calls := calls }

/-- A return of `State.process` before any write. -/
def State.yield (s : State) (task : Task) : Except Error StepResult :=
  .ok { task := task, state := s, deletes := [], puts := [], calls := [] }

/-- `State.process` of state.go, over the transaction's view `pool` of the PoolInstance rows. -/
def State.process (env : Env) (pool : String → Option PoolInstance) (s : State)
    (ts : taskState) : Except Error StepResult :=
  if s.Status = StatusDone ∨ s.Status = StatusFailed then
    s.yield Task.TaskHaltProcessing
  else if s.Status = StatusNew then
    match ts.PoolInstances with
    | none => s.yield Task.TaskGetPoolInstances
    | some keys =>
      if keys.length = 0 then
        match generateCert env with
        | .error e => .error e
        | .ok (cert, privKey) =>
          match generateRandStr env 64 with
          | .error e => .error e
          | .ok authCode =>
            let s1 : State := { s with Instance :=
              { s.Instance with Certificate := cert, PrivateKey := privKey, AuthCode := authCode } }
            let (s2, puts) := s1.changeStatus env StatusMustLaunchInstance []
            s2.putAll env [] puts []
      else
        match acquireLoop env pool keys 5 0 PoolInstance.zero with
        | .error e => .error e
        | .ok (poolInstance, deletes) =>
          let s1 : State := { s with Instance := poolInstance.Instance }
          let (s2, puts) := s1.changeStatus env StatusHaveInstance []
          s2.putAll env deletes puts []
  else if s.Status = StatusMustLaunchInstance then
    match s.Instance.launch env s.ID with
    | .error e => .error e
    | .ok inst =>
      let s1 : State := { s with Instance := inst }
      let (s2, puts) := s1.changeStatus env StatusLaunchingInstance []
      s2.putAll env [] puts []
  else if s.Status = StatusLaunchingInstance then
    if !ts.LivenessChecked then s.yield Task.TaskCheckLiveness
    else if !ts.LivenessCheckSuccess then
      let (s2, puts) := s.changeStatus env StatusFailed []
      s2.putAll env [] puts [s.Instance.ID]
    else
      let s1 : State := { s with Instance := { s.Instance with IP := ts.LivenessCheckPublicIP } }
      let (s2, puts) := s1.changeStatus env StatusHaveInstance []
      s2.putAll env [] puts []
  else if s.Status = StatusHaveInstance then
    if !ts.DreamDone then s.yield Task.TaskDream
    else
      let s1 : State := { s with OutputData := ts.DreamOutputData }
      let (s2, puts) := s1.changeStatus env StatusFinishedWithInstance []
      s2.putAll env [] puts []
  else if s.Status = StatusFinishedWithInstance then
    let poolInstance := s.Instance.toPoolInstance env
    let puts0 := [Entity.poolInstance poolInstance.Instance.ID poolInstance]
    let (s2, puts) := s.changeStatus env StatusDone puts0
    s2.putAll env [] puts []
  else
    s.putAll env [] [] []

/-! ## The datastore and the driver loop -/

/-- The persistent rows: Job rows and PoolInstance rows by key id, the JobLog rows with
their parent job in commit order, and the pending `terminateInstance` calls. -/
structure Datastore where
  jobs : String → Option State
  pool : String → Option PoolInstance
  logs : List (String × JobLog)
  queue : List String

/-- Write one entity of a `PutMulti` batch. -/
def Datastore.put (db : Datastore) : Entity → Datastore
  | Entity.jobLog parent log => { db with logs := db.logs ++ [(parent, log)] }
  | Entity.poolInstance key p =>
    { db with pool := fun k => if k = key then some p else db.pool k }
  | Entity.job key s => { db with jobs := fun k => if k = key then some s else db.jobs k }

/-- Effect of `datastore.Delete` on a PoolInstance key. -/
def Datastore.delete (db : Datastore) (key : String) : Datastore :=
  { db with pool := fun k => if k = key then none else db.pool k }

/-- Commit of the transaction around a successful `State.process`. -/
def Datastore.commit (db : Datastore) (r : StepResult) : Datastore :=
  let db1 := r.deletes.foldl Datastore.delete db
  let db2 := r.puts.foldl Datastore.put db1
  { db2 with queue := db2.queue ++ r.calls }

/-- The transaction of `processJob`: read the job row, run `State.process`, commit. -/
def processJobTxn (env : Env) (db : Datastore) (jobID : String) (ts : taskState) :
    Except Error (StepResult × Datastore) :=
  match env.getJobFault with
  | some e => .error e
  | none =>
    match db.jobs jobID with
    | none => .error Error.noSuchEntity
    | some state =>
      match state.process env db.pool ts with
      | .error e => .error e
      | .ok r => .ok (r, db.commit r)

/-! ## task.go: the non-transactional half -/

/-- `strings.Split(host, ":")[0]`: the part of the host before its first colon. -/
def hostWithoutPort (host : String) : String :=
  String.mk (host.toList.takeWhile (fun c => c ≠ ':'))

/-- The loop `for i := 0; i < 6; i++` of the liveness task from iteration `i` with `fuel`
iterations left: the scratchpad afterwards and the number of probes issued. -/
def livenessLoop (env : Env) (s : State) : Nat → Nat → taskState → taskState × Nat
  | 0, _, ts => (ts, 0)
  | fuel + 1, i, ts =>
    match s.Instance.get env i "dream" with
    | .ok resp =>
      ({ ts with LivenessChecked := true, LivenessCheckSuccess := true,
                 LivenessCheckPublicIP := hostWithoutPort resp.RequestHost }, 1)
    | .error _ =>
      let r := livenessLoop env s fuel (i + 1) ts
      (r.1, r.2 + 1)

/-- `State.doTask` of task.go: the scratchpad as left by the task and the returned error. -/
def State.doTask (env : Env) (s : State) (task : Task) (ts : taskState) :
    taskState × Option Error :=
  match task with
  | Task.TaskGetPoolInstances =>
    let r := getCandidatePoolInstances env ts.PoolInstancesRetrievedBefore
    let ts1 : taskState := { ts with PoolInstances := r.1 }
    match r.2 with
    | some e => (ts1, some e)
    | none => ({ ts1 with PoolInstancesRetrievedBefore := true }, none)
  | Task.TaskCheckLiveness =>
    let ts1 := (livenessLoop env s 6 0 ts).1
    if !ts1.LivenessCheckSuccess then
      if s.Instance.LaunchTime < env.now + (-30) * Minute then
        ({ ts1 with LivenessChecked := true }, none)
      else (ts1, some (Error.other "Gave up liveness checks, try again later."))
    else (ts1, none)
  | Task.TaskDream =>
    match env.readFile s.InputData with
    | .error e => (ts, some e)
    | .ok inputData =>
      match s.Instance.postFile env ("dream?auth_code=" ++ s.Instance.AuthCode) "image"
          inputData with
      | .error e => (ts, some e)
      | .ok resp =>
        if resp.StatusCode ≠ 200 then
          (ts, some (Error.other ("Processing job failed: " ++ resp.Status)))
        else
          match resp.Body with
          | .error e => (ts, some e)
          | .ok resultData =>
            let outputName := "job/" ++ s.ID ++ "/output"
            match WriteFile env outputName resultData with
            | .error e => (ts, some e)
            | .ok outputDataPath =>
              ({ ts with DreamDone := true, DreamOutputData := outputDataPath }, none)
  | _ => (ts, none)

/-- Outcome of one `processJob` invocation: the returned error, the datastore and scratchpad
at return, the number of transactions run, the tasks handed to `doTask`, in order, and the
scratchpad handed to `doTask` with each of them. -/
structure JobRun where
  err : Option Error
  db : Datastore
  ts : taskState
  transactions : Nat
  tasks : List Task
  scratchpads : List taskState

/-- `processJob` of state.go from its `i`-th iteration, each iteration seeing the
environment `env i`; `none` when `fuel` iterations did not reach a return. -/
def processJob (env : Nat → Env) (jobID : String) :
    Nat → Nat → taskState → Datastore → Option JobRun
  | 0, _, _, _ => none
  | fuel + 1, i, ts, db =>
    match processJobTxn (env i) db jobID ts with
    | .error e =>
      some { err := some e, db := db, ts := ts, transactions := 1, tasks := [],
             scratchpads := [] }
    | .ok (r, db1) =>
      match r.state.doTask (env i) r.task ts with
      | (ts1, some e) =>
        some { err := some e, db := db1, ts := ts1, transactions := 1, tasks := [r.task],
               scratchpads := [ts] }
      | (ts1, none) =>
        if r.task = Task.TaskHaltProcessing then
          some { err := none, db := db1, ts := ts1, transactions := 1, tasks := [r.task],
                 scratchpads := [ts] }
        else
          (processJob env jobID fuel (i + 1) ts1 db1).map
            (fun run => { run with transactions := run.transactions + 1,
                                   tasks := r.task :: run.tasks,
                                   scratchpads := ts :: run.scratchpads })

/-- What the GET_POOL_INSTANCES case of `State.doTask` makes of the pair that
`getCandidatePoolInstances` returned. -/
def applyCandidates (ts : taskState) (r : Option (List String) × Option Error) :
    taskState × Option Error :=
  match r.2 with
  | some e => ({ ts with PoolInstances := r.1 }, some e)
  | none => ({ ts with PoolInstances := r.1, PoolInstancesRetrievedBefore := true }, none)

/-! ## poolinstance.go: the shrinker -/

/-- Writes of one per-candidate transaction of `ShrinkPool`. -/
structure ShrinkResult where
  deletes : List String
  calls : List String
  deriving DecidableEq, Repr

/-- The function run in the per-candidate transaction of `ShrinkPool`; `maxPoolAddTime` was
computed before the batch, `env.now` is the clock read inside the transaction. -/
def shrinkCandidate (env : Env) (maxPoolAddTime : Time) (pool : String → Option PoolInstance)
    (candidateKey : String) : Except Error ShrinkResult :=
  match getPoolInstance env pool 0 candidateKey with
  | .error e =>
    if e = Error.noSuchEntity then .ok { deletes := [], calls := [] } else .error e
  | .ok p =>
    if maxPoolAddTime < p.PoolAddTime then .ok { deletes := [], calls := [] }
    else
      let maxLaunchTime := env.now + -(Minute * 50)
      if maxLaunchTime < p.Instance.LaunchTime then .ok { deletes := [], calls := [] }
      else
        match env.deleteFault with
        | some e => .error e
        | none => .ok { deletes := [candidateKey], calls := [p.Instance.ID] }

/-- The per-candidate transaction `_ = datastore.RunInTransaction(...)`: committed on success,
rolled back (and the error dropped) on failure. -/
def shrinkTxn (env : Env) (maxPoolAddTime : Time) (db : Datastore) (candidateKey : String) :
    Datastore :=
  match shrinkCandidate env maxPoolAddTime db.pool candidateKey with
  | .error _ => db
  | .ok r =>
    let db1 := r.deletes.foldl Datastore.delete db
    { db1 with queue := db1.queue ++ r.calls }

/-- The loop `for _, candidateKey := range candidateKeys` of `ShrinkPool`, the k-th
transaction seeing the environment `env k`. -/
def shrinkBatch (env : Nat → Env) (maxPoolAddTime : Time) :
    Nat → Datastore → List String → Datastore
  | _, db, [] => db
  | k, db, candidateKey :: rest =>
    shrinkBatch env maxPoolAddTime (k + 1) (shrinkTxn (env k) maxPoolAddTime db candidateKey) rest

/-! ## poolinstance.go: the sweep of `ShrinkPool` -/

/-- The PoolInstance rows in the order of the index on `PoolAddTime` that the query of
`ShrinkPool` walks, each with its key id. -/
abbrev PoolTable := List (String × PoolInstance)

/-- `datastore.Get` on the table. -/
def PoolTable.lookup (table : PoolTable) (key : String) : Option PoolInstance :=
  (table.find? (fun row => row.1 = key)).map (fun row => row.2)

/-- `datastore.Delete` on the table. -/
def PoolTable.delete (table : PoolTable) (key : String) : PoolTable :=
  table.filter (fun row => row.1 ≠ key)

/-- A `*datastore.Query` on the kind PoolInstance: its filter bound, its start cursor (a
position in the index) and whether it is keys-only. -/
structure Query where
  kind : String
  filterBefore : Option Time
  start : Option Nat
  keysOnly : Bool
  deriving DecidableEq, Repr

/-- `datastore.NewQuery`. -/
def NewQuery (kind : String) : Query :=
  { kind := kind, filterBefore := none, start := none, keysOnly := false }

/-- `q.Filter("PoolAddTime <", t)`: a derived query; `q` is unchanged. -/
def Query.Filter (q : Query) (t : Time) : Query :=
  { q with filterBefore := some t }

/-- `q.Start(cursor)`: a derived query; `q` is unchanged. -/
def Query.Start (q : Query) (cursor : Nat) : Query :=
  { q with start := some cursor }

/-- `q.KeysOnly()`: a derived query; `q` is unchanged. -/
def Query.KeysOnly (q : Query) : Query :=
  { q with keysOnly := true }

/-- The keys that iterating `q.Run(c)` to its end yields. -/
def Query.run (q : Query) (table : PoolTable) : List String :=
  let matching := table.filter (fun row =>
    match q.filterBefore with
    | none => true
    | some t => decide (row.2.PoolAddTime < t))
  let fromStart :=
    match q.start with
    | none => matching
    | some cursor => matching.drop cursor
  fromStart.map (fun row => row.1)

/-- The rows and the pending `terminateInstance` calls that a sweep works on. -/
structure SweepStore where
  table : PoolTable
  queue : List String
  deriving DecidableEq, Repr

/-- The value that the per-candidate closure leaves in the `err` variable of `ShrinkPool`,
which it assigns at its `datastore.Get` and its `datastore.Delete`. -/
def shrinkCapturedErr (env : Env) (maxPoolAddTime : Time) (pool : String → Option PoolInstance)
    (candidateKey : String) : Option Error :=
  match getPoolInstance env pool 0 candidateKey with
  | .error e => some e
  | .ok p =>
    if maxPoolAddTime < p.PoolAddTime then none
    else if env.now + -(Minute * 50) < p.Instance.LaunchTime then none
    else env.deleteFault

/-- One per-candidate transaction on the table: the store afterwards and the `err` variable
of `ShrinkPool` afterwards. -/
def shrinkTxnTable (env : Env) (maxPoolAddTime : Time) (st : SweepStore) (candidateKey : String) :
    SweepStore × Option Error :=
  let st1 : SweepStore :=
    match shrinkCandidate env maxPoolAddTime st.table.lookup candidateKey with
    | .error _ => st
    | .ok r =>
      { table := r.deletes.foldl PoolTable.delete st.table, queue := st.queue ++ r.calls }
  (st1, shrinkCapturedErr env maxPoolAddTime st.table.lookup candidateKey)

/-- The loop `for _, candidateKey := range candidateKeys` on the table, threading `err`. -/
def shrinkBatchTable (env : Nat → Env) (maxPoolAddTime : Time) :
    Nat → SweepStore → Option Error → List String → SweepStore × Option Error
  | _, st, err, [] => (st, err)
  | k, st, _, candidateKey :: rest =>
    let out := shrinkTxnTable (env k) maxPoolAddTime st candidateKey
    shrinkBatchTable env maxPoolAddTime (k + 1) out.1 out.2 rest

/-- Outcome of a sweep: what `ShrinkPool` returned (`none` while it has not returned within
the fuel), the store, and the candidate keys of each batch, in order. -/
structure SweepRun where
  returned : Option (Option Error)
  store : SweepStore
  batches : List (List String)
  deriving DecidableEq, Repr

/-- `ShrinkPool` of poolinstance.go from its `b`-th batch, with the values of its variables
`cursor` and `err`; batch `b` reads the clock of `batchEnv b`, its query fails as
`queryFault b` says, and its k-th transaction sees `txnEnv b k`. -/
def ShrinkPool (batchEnv : Nat → Env) (txnEnv : Nat → Nat → Env)
    (queryFault : Nat → Option Error) :
    Nat → Nat → Option Nat → Option Error → SweepStore → SweepRun
  | 0, _, _, _, st => { returned := none, store := st, batches := [] }
  | fuel + 1, b, cursor, err, st =>
    let maxPoolAddTime := (batchEnv b).now + -(Minute * 15)
    let q := NewQuery "PoolInstance"
    let q := q.Filter maxPoolAddTime
    let _derived := cursor.map (fun c => q.Start c)
    let q := q.KeysOnly
    match err with
    | some e => { returned := some (some e), store := st, batches := [] }
    | none =>
      match queryFault b with
      | some e => { returned := some (some e), store := st, batches := [] }
      | none =>
        let results := q.run st.table
        let candidateKeys := results.take 1000
        let out := shrinkBatchTable (txnEnv b) maxPoolAddTime 0 st none candidateKeys
        if 1000 ≤ results.length then
          let rest := ShrinkPool batchEnv txnEnv queryFault fuel (b + 1) (some 1000) out.2 out.1
          { rest with batches := candidateKeys :: rest.batches }
        else { returned := some none, store := out.1, batches := [candidateKeys] }

/-! ## storage/upload.go -/

/-- What `blobstore.ParseUpload` returns: per form field the object names of its uploaded
blobs (the Go map, in the order in which `range` visits it) and the other form values. -/
structure ParsedUpload where
  blobs : List (String × List String)
  other : List (String × List String)
  deriving DecidableEq, Repr

/-- The world outside `HandleUpload`. -/
structure UploadEnv where
  /-- Outcome of `blobstore.ParseUpload`. -/
  parseUpload : Except Error ParsedUpload
  /-- Failure, if any, of `getGcsContext`. -/
  gcsContextFault : Option Error
  /-- Failure, if any, of `storage.DeleteObject` on an object name. -/
  deleteObject : String → Option Error

/-- The three results of `HandleUpload` (`none` is the nil `url.Values`) and the object names
on which it called `storage.DeleteObject`, in order. -/
structure UploadResult where
  storageName : String
  other : Option (List (String × List String))
  err : Option Error
  deleteAttempts : List String
  deriving DecidableEq, Repr

/-- The `deleteList` of `HandleUpload`: every blob but the first one of the field `file`. -/
def junkList (blobs : List (String × List String)) : List String :=
  blobs.flatMap (fun entry =>
    (entry.2.enum.filter (fun file => entry.1 ≠ "file" ∨ file.1 ≠ 0)).map (fun file => file.2))

/-- The map lookup `blobs[field]`: the nil slice when the field is absent. -/
def blobsOf (blobs : List (String × List String)) (field : String) : List String :=
  match blobs.find? (fun entry => entry.1 = field) with
  | some entry => entry.2
  | none => []

/-- The loop `for _, junk := range deleteList` of `HandleUpload`, threading the `err` of its
block: `if newErr := storage.DeleteObject(...); err != nil { err = newErr }`. -/
def deleteLoop (deleteObject : String → Option Error) : List String → Option Error → Option Error
  | [], err => err
  | junk :: rest, err =>
    let newErr := deleteObject junk
    match err with
    | some _ => deleteLoop deleteObject rest newErr
    | none => deleteLoop deleteObject rest err

/-- The end of `HandleUpload`, after the delete block: `err` is the function's own result
variable, which the block's `ctx, err :=` shadowed. -/
def uploadFinish (parsed : ParsedUpload) (err : Option Error) (attempts : List String) :
    UploadResult :=
  match err with
  | some e => { storageName := "", other := none, err := some e, deleteAttempts := attempts }
  | none =>
    match blobsOf parsed.blobs "file" with
    | [] =>
      { storageName := "", other := none, err := some (Error.other "No file uploaded."),
        deleteAttempts := attempts }
    | first :: _ =>
      { storageName := first, other := some parsed.other, err := none,
        deleteAttempts := attempts }

/-- `HandleUpload` of storage/upload.go. -/
def HandleUpload (env : UploadEnv) : UploadResult :=
  match env.parseUpload with
  | .error e => { storageName := "", other := none, err := some e, deleteAttempts := [] }
  | .ok parsed =>
    let err : Option Error := none
    let deleteList := junkList parsed.blobs
    if deleteList.length > 0 then
      match env.gcsContextFault with
      | some e => { storageName := "", other := none, err := some e, deleteAttempts := [] }
      | none =>
        let _blockErr := deleteLoop env.deleteObject deleteList none
        uploadFinish parsed err deleteList
    else uploadFinish parsed err []

/-! ## The paths through `State.process` -/

/-- The result of a path of `State.process` that changes the status: `s1` is the job record
with the fields the path assigned, `extraPuts` what the path queued before `changeStatus`. -/
def transition (env : Env) (s s1 : State) (newStatus : Status) (deletes : List String)
    (extraPuts : List Entity) (calls : List String) : StepResult :=
  { task := Task.TaskNone
    state := { s1 with Status := newStatus }
    deletes := deletes
    puts := extraPuts ++
      [Entity.jobLog s.ID { NewStatus := newStatus, PrevStatus := s.Status, Time := env.now },
       Entity.job s.ID { s1 with Status := newStatus }]
    calls := calls }

/-- The successful paths through `State.process`, one constructor per path of the source. -/
inductive StepShape (env : Env) (pool : String → Option PoolInstance) (s : State)
    (ts : taskState) : StepResult → Prop
  | halt (h : s.Status = StatusDone ∨ s.Status = StatusFailed) :
    StepShape env pool s ts
      { task := Task.TaskHaltProcessing, state := s, deletes := [], puts := [], calls := [] }
  | getPool (h : s.Status = StatusNew) (hk : ts.PoolInstances = none) :
    StepShape env pool s ts
      { task := Task.TaskGetPoolInstances, state := s, deletes := [], puts := [], calls := [] }
  | mustLaunch (h : s.Status = StatusNew) (hk : ts.PoolInstances = some [])
      (cert privKey : List Nat) (authCode : String)
      (hc : generateCert env = .ok (cert, privKey))
      (ha : generateRandStr env 64 = .ok authCode) :
    StepShape env pool s ts
      (transition env s
        { s with Instance :=
          { s.Instance with Certificate := cert, PrivateKey := privKey, AuthCode := authCode } }
        StatusMustLaunchInstance [] [] [])
  | adopt (h : s.Status = StatusNew) (keys : List String) (hk : ts.PoolInstances = some keys)
      (key : String) (hmem : key ∈ keys) (p : PoolInstance) (hp : pool key = some p) :
    StepShape env pool s ts
      (transition env s { s with Instance := p.Instance } StatusHaveInstance [key] [] [])
  | allMiss (h : s.Status = StatusNew) (keys : List String) (hk : ts.PoolInstances = some keys)
      (hne : keys ≠ []) :
    StepShape env pool s ts
      (transition env s { s with Instance := Instance.zero } StatusHaveInstance [] [] [])
  | launch (h : s.Status = StatusMustLaunchInstance) (userData instanceID : String)
      (hr : env.runInstances s.ID userData = .ok instanceID) :
    StepShape env pool s ts
      (transition env s
        { s with Instance :=
          { s.Instance with ID := instanceID, LaunchTime := env.now, PrivateKey := [] } }
        StatusLaunchingInstance [] [] [])
  | checkLiveness (h : s.Status = StatusLaunchingInstance) (hc : ts.LivenessChecked = false) :
    StepShape env pool s ts
      { task := Task.TaskCheckLiveness, state := s, deletes := [], puts := [], calls := [] }
  | failed (h : s.Status = StatusLaunchingInstance) (hc : ts.LivenessChecked = true)
      (hl : ts.LivenessCheckSuccess = false) :
    StepShape env pool s ts (transition env s s StatusFailed [] [] [s.Instance.ID])
  | live (h : s.Status = StatusLaunchingInstance) (hc : ts.LivenessChecked = true)
      (hl : ts.LivenessCheckSuccess = true) :
    StepShape env pool s ts
      (transition env s { s with Instance := { s.Instance with IP := ts.LivenessCheckPublicIP } }
        StatusHaveInstance [] [] [])
  | dream (h : s.Status = StatusHaveInstance) (hd : ts.DreamDone = false) :
    StepShape env pool s ts
      { task := Task.TaskDream, state := s, deletes := [], puts := [], calls := [] }
  | finished (h : s.Status = StatusHaveInstance) (hd : ts.DreamDone = true) :
    StepShape env pool s ts
      (transition env s { s with OutputData := ts.DreamOutputData } StatusFinishedWithInstance
        [] [] [])
  | done (h : s.Status = StatusFinishedWithInstance) :
    StepShape env pool s ts
      (transition env s s StatusDone []
        [Entity.poolInstance s.Instance.ID { Instance := s.Instance, PoolAddTime := env.now }] [])
  | unknown (h0 : s.Status ≠ StatusNew) (h1 : s.Status ≠ StatusMustLaunchInstance)
      (h2 : s.Status ≠ StatusLaunchingInstance) (h3 : s.Status ≠ StatusHaveInstance)
      (h4 : s.Status ≠ StatusFinishedWithInstance) (h5 : s.Status ≠ StatusDone)
      (h6 : s.Status ≠ StatusFailed) :
    StepShape env pool s ts
      { task := Task.TaskNone, state := s, deletes := [], puts := [Entity.job s.ID s],
        calls := [] }

/-- `Create` of state.go: the new job id and the datastore after its transaction. The error
of `datastore.Put` is dropped by the source, so a failed put leaves the datastore as it was
and `Create` still returns the id. (The `processJob` call it schedules is not part of the
rows modelled here.) -/
def Create (env : Env) (db : Datastore) (inputData : String) :
    Except Error (String × Datastore) :=
  match generateRandStr env 64 with
  | .error e => .error e
  | .ok id =>
    let state : State :=
      { ID := id, Status := StatusNew, InputData := inputData, OutputData := "",
        Instance := Instance.zero }
    match env.putFault with
    | some _ => .ok (id, db)
    | none => .ok (id, db.put (Entity.job state.ID state))

/-- The scratchpads that `processJob` can hold: the zero value, and what a successful
`State.doTask` makes of such a scratchpad. -/
inductive ScratchReachable : taskState → Prop
  | zero : ScratchReachable taskState.zero
  | task (env : Env) (s : State) (task : Task) (ts ts1 : taskState)
      (h : ScratchReachable ts) (hd : s.doTask env task ts = (ts1, none)) :
    ScratchReachable ts1

/-! ## Sequences of steps on one job and its JobLog rows -/

/-- The JobLog row carried by an entity of a `PutMulti` batch, if it is one. -/
def Entity.asJobLog : Entity → Option JobLog
  | Entity.jobLog _ log => some log
  | _ => none

/-- The PoolInstance row carried by an entity of a `PutMulti` batch, if it is one. -/
def Entity.asPoolInstance : Entity → Option (String × PoolInstance)
  | Entity.poolInstance key p => some (key, p)
  | _ => none

/-- The Job row carried by an entity of a `PutMulti` batch, if it is one. -/
def Entity.asJob : Entity → Option (String × State)
  | Entity.job key s => some (key, s)
  | _ => none

/-- The edges of the state graph, as the specification lists them. -/
def stateGraphEdge (a b : Status) : Bool :=
  (a = StatusNew && b = StatusMustLaunchInstance) ||
  (a = StatusNew && b = StatusHaveInstance) ||
  (a = StatusMustLaunchInstance && b = StatusLaunchingInstance) ||
  (a = StatusLaunchingInstance && b = StatusHaveInstance) ||
  (a = StatusLaunchingInstance && b = StatusFailed) ||
  (a = StatusHaveInstance && b = StatusFinishedWithInstance) ||
  (a = StatusFinishedWithInstance && b = StatusDone)

/-- What one transaction of the driver sees besides the job row. -/
structure StepInput where
  env : Env
  pool : String → Option PoolInstance
  ts : taskState

/-- A sequence of `State.process` transactions on one job: a failed transaction is rolled
back, a successful one persists the job record; returns the final record and the JobLog
rows written, in order. -/
def runSteps : State → List StepInput → State × List JobLog
  | s, [] => (s, [])
  | s, x :: rest =>
    match s.process x.env x.pool x.ts with
    | .error _ => runSteps s rest
    | .ok r =>
      let out := runSteps r.state rest
      (out.1, r.puts.filterMap Entity.asJobLog ++ out.2)

/-- A list of JobLog rows is a path of the state graph starting at `start`: the first row
leaves `start`, every row is an edge, and each row leaves the status the previous one
entered. -/
def logPath : Status → List JobLog → Prop
  | _, [] => True
  | start, l :: rest =>
    l.PrevStatus = start ∧ stateGraphEdge l.PrevStatus l.NewStatus = true ∧
      logPath l.NewStatus rest

/-! ## Predicates on the datastore -/

/-- No PoolInstance row and no job that is not DONE reference the same instance id. A job
references an instance once its `Instance.ID` is set: the empty id means
"this instance isn't launched yet" (instance.go). -/
def NoSharedInstance (db : Datastore) : Prop :=
  ∀ (key : String) (p : PoolInstance) (jid : String) (j : State),
    db.pool key = some p → db.jobs jid = some j → j.Status ≠ StatusDone →
    j.Instance.ID ≠ "" → p.Instance.ID ≠ j.Instance.ID

/-- Some PoolInstance row or some Job row carries the instance id. -/
def Datastore.holdsID (db : Datastore) (id : String) : Prop :=
  (∃ k p, db.pool k = some p ∧ p.Instance.ID = id) ∨
  (∃ jid j, db.jobs jid = some j ∧ j.Instance.ID = id)

/-- The job has not issued its launch request yet. -/
def unlaunched (st : Status) : Prop :=
  st = StatusNew ∨ st = StatusMustLaunchInstance

/-- The inductive invariant behind `NoSharedInstance`, for a provider that answers the client
token `t` with the instance id `provider t`:
rows are stored under their own ids, no pool row shares an id with a live job, no two live
jobs share an id, and the id the provider will give to a job that has not launched yet is
held by no row. -/
structure StoreInv (provider : String → String) (db : Datastore) : Prop where
  poolKey : ∀ k p, db.pool k = some p → p.Instance.ID = k
  jobKey : ∀ jid j, db.jobs jid = some j → j.ID = jid
  noShared : NoSharedInstance db
  exclusive : ∀ j1 j2 a b, db.jobs j1 = some a → db.jobs j2 = some b → j1 ≠ j2 →
    a.Status ≠ StatusDone → b.Status ≠ StatusDone → a.Instance.ID ≠ "" →
    a.Instance.ID ≠ b.Instance.ID
  fresh : ∀ jid b, db.jobs jid = some b → unlaunched b.Status → provider jid ≠ "" →
    ¬ db.holdsID (provider jid)

/-- The statuses after the launch request: LAUNCHING, HAVE_INSTANCE, FINISHED_WITH_INSTANCE,
DONE and FAILED. -/
def pastLaunch (st : Status) : Prop :=
  st = StatusLaunchingInstance ∨ st = StatusHaveInstance ∨ st = StatusFinishedWithInstance ∨
    st = StatusDone ∨ st = StatusFailed

/-- Every PoolInstance row has an empty private key, and so has every Job row whose status
is LAUNCHING, HAVE_INSTANCE, FINISHED_WITH_INSTANCE, DONE or FAILED. -/
def KeysCleared (db : Datastore) : Prop :=
  (∀ k p, db.pool k = some p → p.Instance.PrivateKey = []) ∧
  (∀ jid j, db.jobs jid = some j → pastLaunch j.Status → j.Instance.PrivateKey = [])

/-- A non-empty private key is stored only in a Job row whose status is MUST_LAUNCH. -/
def KeyOnlyInMustLaunch (db : Datastore) : Prop :=
  (∀ k p, db.pool k = some p → p.Instance.PrivateKey = []) ∧
  (∀ jid j, db.jobs jid = some j → j.Instance.PrivateKey ≠ [] →
    j.Status = StatusMustLaunchInstance)

/-- The job's output reference is set exactly when its status is FINISHED_WITH_INSTANCE or
DONE. -/
def OutputMatchesStatus (s : State) : Prop :=
  s.OutputData ≠ "" ↔ (s.Status = StatusFinishedWithInstance ∨ s.Status = StatusDone)

/-- The window of the candidate selection as the specification gives it: 5 s, or 25 s on
retry. -/
def windowDelta (retry : Bool) : Int :=
  if retry then 25 * Second else 5 * Second

/-- The URL-safe base64 characters as the specification lists them: A–Z, a–z, 0–9, `-`
and `_` (so not the padding character `=`). -/
def isUrlSafeChar (c : Char) : Bool :=
  ('A' ≤ c && c ≤ 'Z') || ('a' ≤ c && c ≤ 'z') || ('0' ≤ c && c ≤ '9') || c = '-' || c = '_'

/-! ## Concrete environments and rows used in examples -/

/-- An environment in which every outside call succeeds with fixed values. -/
def calmEnv : Env :=
  { now := 0
    randIntn := fun _ => 0
    randByte := fun _ => 0
    randReadFault := none
    rsaGenerateKey := fun _ => .ok 7
    randInt := fun _ => .ok 1
    createCertificate := fun _ _ _ _ => .ok [48]
    marshalPKCS1PrivateKey := fun _ => [49]
    pemEncode := fun _ b => 45 :: b
    jsonMarshal := fun _ => .ok [123, 125]
    dreamServerAmi := "ami"
    dreamServerInstanceType := "g2"
    awsSecurityGroup := "sg"
    gcsBucket := "bucket"
    runInstances := fun token _ => .ok token
    describeInstances := fun _ _ => .ok [some "10.0.0.1"]
    appendCertsFromPEM := fun _ => true
    httpGet := fun _ _ =>
      .ok { StatusCode := 200, Status := "200 OK", RequestHost := "10.0.0.1:8080", Body := .ok [] }
    httpPost := fun _ _ _ =>
      .ok { StatusCode := 200, Status := "200 OK", RequestHost := "10.0.0.1:8080", Body := .ok [1] }
    readFile := fun _ => .ok [0]
    gcsWriteFault := fun _ _ => none
    getFault := fun _ => none
    getJobFault := none
    deleteFault := none
    putFault := none
    queryNewest := .ok [] }

/-- A job record with the given id and status and otherwise zero fields. -/
def jobAt (id : String) (status : Status) : State :=
  { ID := id, Status := status, InputData := "", OutputData := "", Instance := Instance.zero }

/-- The step taking job `j` from FINISHED_WITH_INSTANCE to DONE in `calmEnv`. -/
def finishedToDone : StepResult :=
  transition calmEnv (jobAt "j" StatusFinishedWithInstance)
    (jobAt "j" StatusFinishedWithInstance) StatusDone []
    [Entity.poolInstance "" { Instance := Instance.zero, PoolAddTime := 0 }] []

/-- A warm pool row for instance `i1`. -/
def warmRow : PoolInstance :=
  { Instance := { Instance.zero with ID := "i1" }, PoolAddTime := 0 }

/-- A datastore with the NEW job `j1` and the pool row `i1`. -/
def warmStore : Datastore :=
  { jobs := fun k => if k = "j1" then some (jobAt "j1" StatusNew) else none
    pool := fun k => if k = "i1" then some warmRow else none
    logs := []
    queue := [] }

/-- The scratchpad after the candidate query returned the key `i1`. -/
def warmScratch : taskState :=
  { taskState.zero with PoolInstances := some ["i1"] }

/-- The step in which job `j1` adopts the pool row `i1`. -/
def adoptStep : StepResult :=
  transition calmEnv (jobAt "j1" StatusNew)
    { jobAt "j1" StatusNew with Instance := warmRow.Instance } StatusHaveInstance ["i1"] [] []

/-- The scratchpad after the candidate query found the pool empty. -/
def emptyPoolScratch : taskState :=
  ((jobAt "j" StatusNew).doTask calmEnv Task.TaskGetPoolInstances taskState.zero).1

/-- An environment like `calmEnv` whose clock reads 100 minutes. -/
def lateEnv : Env :=
  { calmEnv with now := 100 * Minute }

/-- The PoolInstance row of instance `i5` with the given add and launch times. -/
def poolRow (poolAddTime launchTime : Time) : PoolInstance :=
  { Instance := { Instance.zero with ID := "i5", LaunchTime := launchTime },
    PoolAddTime := poolAddTime }

/-- A datastore whose pool holds one row under `i5` with the given add and launch times. -/
def poolOf (poolAddTime launchTime : Time) : Datastore :=
  { jobs := fun _ => none
    pool := fun k => if k = "i5" then some (poolRow poolAddTime launchTime) else none
    logs := []
    queue := [] }

/-- Three query results, newest first: added at 10 s, 7 s and 1 s. -/
def recentQuery : List (String × Time) :=
  [("a", 10 * Second), ("b", 7 * Second), ("c", 1 * Second)]

/-- An environment like `calmEnv` whose candidate query returns `recentQuery`. -/
def queryEnv : Env :=
  { calmEnv with queryNewest := .ok recentQuery }

/-- An environment like `calmEnv` in which every request to the worker fails and the clock
reads 100 minutes. -/
def deadWorkerEnv : Env :=
  { calmEnv with now := 100 * Minute, httpGet := fun _ _ => .error (Error.other "timeout") }

/-- An upload of the wanted file and one stray blob, whose deletion fails. -/
def strayUpload : UploadEnv :=
  { parseUpload := .ok { blobs := [("file", ["upload/f0"]), ("extra", ["upload/j0"])],
                         other := [] }
    gcsContextFault := none
    deleteObject := fun _ => some (Error.other "delete failed") }

/-- The pool row of instance number `i`, added at 70 minutes and launched at 60 minutes. -/
def idleRow (i : Nat) : PoolInstance :=
  { Instance := { Instance.zero with ID := toString i, LaunchTime := 60 * Minute },
    PoolAddTime := 70 * Minute }

/-- A table of 1000 such rows. -/
def crowdedTable : PoolTable :=
  (List.range 1000).map (fun i => (toString i, idleRow i))

/-- A pool of 1000 such rows, with nothing enqueued. -/
def crowdedStore : SweepStore :=
  { table := crowdedTable, queue := [] }

/-- The datastore holding nothing. -/
def Datastore.empty : Datastore :=
  { jobs := fun _ => none, pool := fun _ => none, logs := [], queue := [] }

/-- The job id `generateRandStr` makes from the zero bytes that `calmEnv` supplies. -/
def createdID : String :=
  String.mk (List.replicate 64 'A')

/-- The datastore after `Create` saved a job with input `in` in the empty datastore. -/
def createdStore : Datastore :=
  Datastore.empty.put (Entity.job createdID
    { ID := createdID, Status := StatusNew, InputData := "in", OutputData := "",
      Instance := Instance.zero })

/-- The job row `Create` saves for the input `in` in `calmEnv`. -/
def createdJob : State :=
  { ID := createdID, Status := StatusNew, InputData := "in", OutputData := "",
    Instance := Instance.zero }

/-- The MUST_LAUNCH job that the NEW step makes of `createdJob` in `calmEnv` with an empty
candidate list: it holds the generated auth code, certificate and private key. -/
def keyedJob : State :=
  { ID := createdID, Status := StatusMustLaunchInstance, InputData := "in", OutputData := "",
    Instance := { Instance.zero with AuthCode := createdID, Certificate := [45, 48],
                                     PrivateKey := [45, 49] } }

/-- The step in which `createdJob` generates its credentials. -/
def keyStep : StepResult :=
  transition calmEnv createdJob keyedJob StatusMustLaunchInstance [] [] []

/-- A datastore whose only row is `keyedJob`. -/
def keyedStore : Datastore :=
  { jobs := fun k => if k = createdID then some keyedJob else none
    pool := fun _ => none
    logs := []
    queue := [] }

/-- The step in which `keyedJob` issues its launch request in `calmEnv`, whose provider
answers a client token with the token as instance id. -/
def launchStep : StepResult :=
  transition calmEnv keyedJob
    { keyedJob with Instance :=
        { keyedJob.Instance with ID := createdID, LaunchTime := 0, PrivateKey := [] } }
    StatusLaunchingInstance [] [] []

/-- The cold start of `createdJob` in `calmEnv`: one `processJob` invocation of nine
transactions. -/
def coldRun : Option JobRun :=
  processJob (fun _ => calmEnv) createdID 9 0 taskState.zero createdStore

/-- The transactions of `coldRun` as the job row sees them: the scratchpad of each, in
`calmEnv`, none of them finding a PoolInstance row. -/
def coldInputs : List StepInput :=
  match coldRun with
  | none => []
  | some run =>
    run.scratchpads.map (fun ts => { env := calmEnv, pool := (fun _ => none), ts := ts })

/-- An example of how `json.Marshal` renders one field of a struct whose strings need no
escaping: the name and the value in double quotes, a `[]byte` value as its standard
base64. -/
def renderField : String × JsonField → String
  | (name, JsonField.str value) => "\x22" ++ name ++ "\x22:\x22" ++ value ++ "\x22"
  | (name, JsonField.bytes value) =>
    "\x22" ++ name ++ "\x22:\x22" ++ String.mk (encodeBase64 stdAlphabet value) ++ "\x22"

/-- The bytes of the JSON object that `json.Marshal` makes of such a struct. -/
def plainJson (fields : List (String × JsonField)) : List Nat :=
  ("\x7b" ++ ",".intercalate (fields.map renderField) ++ "\x7d").toList.map Char.toNat

/-- An environment like `calmEnv` whose `json.Marshal` is `plainJson`. -/
def marshalEnv : Env :=
  { calmEnv with jsonMarshal := fun fields => .ok (plainJson fields) }

/-- An environment like `marshalEnv` whose provider refuses every launch request. -/
def refusingEnv : Env :=
  { marshalEnv with runInstances := fun _ _ => .error (Error.other "RequestLimitExceeded") }

/-- A MUST_LAUNCH job `j` holding the auth code `code`, the certificate bytes 1, 2 and the
private-key byte 3. -/
def credJob : State :=
  { ID := "j", Status := StatusMustLaunchInstance, InputData := "in", OutputData := "",
    Instance := { Instance.zero with AuthCode := "code", Certificate := [1, 2],
                                     PrivateKey := [3] } }

/-- The job `credJob` with the private-key byte 4 instead of 3. -/
def otherKeyJob : State :=
  { credJob with Instance := { credJob.Instance with PrivateKey := [4] } }

/-- A LAUNCHING job `j` whose instance `i` was launched at time 0 and has no cached IP. -/
def launchedJob : State :=
  { jobAt "j" StatusLaunchingInstance with
    Instance := { Instance.zero with ID := "i", LaunchTime := 0 } }

/-- An environment like `calmEnv` whose worker at 10.0.0.1 answers the probe with a redirect
to 203.0.113.9, which the HTTP client follows: the response is the one to the second
request. -/
def redirectEnv : Env :=
  { calmEnv with
    httpGet := fun _ url =>
      if url = "https://10.0.0.1:8080/dream" then
        .ok { StatusCode := 200, Status := "200 OK", RequestHost := "203.0.113.9:8080",
              Body := .ok [] }
      else .error (Error.other "no route to host") }

/-- An environment like `calmEnv` whose worker refuses the first two probes of a task. -/
def slowWorkerEnv : Env :=
  { calmEnv with
    httpGet := fun k _ =>
      if k < 2 then .error (Error.other "connection refused")
      else .ok { StatusCode := 200, Status := "200 OK", RequestHost := "10.0.0.1:8080",
                 Body := .ok [] } }

/-- An environment like `deadWorkerEnv` whose clock reads 10 minutes. -/
def youngDeadEnv : Env :=
  { deadWorkerEnv with now := 10 * Minute }

/-! ## Helper lemmas -/

/-- When every read of the acquisition loop misses, the loop leaves `poolInstance` as it was
and deletes nothing. -/
theorem acquireLoop_all_miss (env : Env) (pool : String → Option PoolInstance)
    (keys : List String) (fuel : Nat) :
    ∀ (i : Nat) (p : PoolInstance),
      (∀ j, i ≤ j → j < i + fuel →
        getPoolInstance env pool j (keys.getD (env.randIntn j % keys.length) "")
          = .error Error.noSuchEntity) →
      acquireLoop env pool keys fuel i p = .ok (p, []) := by
  induction fuel with
  | zero => intro i p _; rfl
  | succ n ih =>
    intro i p h
    have h0 := h i (Nat.le_refl i) (by omega)
    have hrest := ih (i + 1) p (fun j h1 h2 => h j (by omega) (by omega))
    simp only [acquireLoop, h0, if_true, hrest]

/-- The commit of a result without writes leaves the datastore as it was. -/
theorem commit_nothing (db : Datastore) (task : Task) (s : State) :
    db.commit { task := task, state := s, deletes := [], puts := [], calls := [] } = db := by
  cases db
  simp [Datastore.commit]

/-- A key picked from a non-empty candidate list is one of the candidates. -/
theorem pick_mem (keys : List String) (n : Nat) (hne : keys ≠ []) :
    keys.getD (n % keys.length) "" ∈ keys := by
  have hpos : 0 < keys.length := List.length_pos.mpr hne
  have hlt : n % keys.length < keys.length := Nat.mod_lt _ hpos
  rw [List.getD_eq_getElem _ _ hlt]
  exact List.getElem_mem _

/-- A successful acquisition loop either found nothing and left `poolInstance` as it was, or
read one row under a candidate key and deleted exactly that key. -/
theorem acquireLoop_ok (env : Env) (pool : String → Option PoolInstance) (keys : List String)
    (hne : keys ≠ []) (fuel : Nat) :
    ∀ (i : Nat) (p0 p : PoolInstance) (dels : List String),
      acquireLoop env pool keys fuel i p0 = .ok (p, dels) →
      (p = p0 ∧ dels = []) ∨ (∃ key, key ∈ keys ∧ pool key = some p ∧ dels = [key]) := by
  induction fuel with
  | zero =>
    intro i p0 p dels h
    simp only [acquireLoop, Except.ok.injEq, Prod.mk.injEq] at h
    exact Or.inl ⟨h.1.symm, h.2.symm⟩
  | succ n ih =>
    intro i p0 p dels h
    simp only [acquireLoop] at h
    cases hget : getPoolInstance env pool i (keys.getD (env.randIntn i % keys.length) "") with
    | error e =>
      rw [hget] at h
      by_cases he : e = Error.noSuchEntity
      · simp only [he, if_true] at h
        exact ih (i + 1) p0 p dels h
      · simp [he] at h
    | ok got =>
      rw [hget] at h
      cases hdel : env.deleteFault with
      | some e => simp [hdel] at h
      | none =>
        simp only [hdel, Except.ok.injEq, Prod.mk.injEq] at h
        refine Or.inr ⟨_, pick_mem keys (env.randIntn i) hne, ?_, h.2.symm⟩
        unfold getPoolInstance at hget
        cases hf : env.getFault i with
        | some e => simp [hf] at hget
        | none =>
          cases hpk : pool (keys.getD (env.randIntn i % keys.length) "") with
          | none =>
            simp only [hf, hpk] at hget
            cases hget
          | some row =>
            simp only [hf, hpk, Except.ok.injEq] at hget
            rw [← h.1, ← hget]

/-- Every successful call of `State.process` took one of the paths of `StepShape`. -/
theorem process_ok_shape (env : Env) (pool : String → Option PoolInstance) (s : State)
    (ts : taskState) (r : StepResult) (h : s.process env pool ts = .ok r) :
    StepShape env pool s ts r := by
  unfold State.process at h
  by_cases hT : s.Status = StatusDone ∨ s.Status = StatusFailed
  · simp only [hT, if_true, State.yield, Except.ok.injEq] at h
    subst h
    exact StepShape.halt hT
  simp only [hT, if_false] at h
  have h5 : s.Status ≠ StatusDone := fun e => hT (Or.inl e)
  have h6 : s.Status ≠ StatusFailed := fun e => hT (Or.inr e)
  by_cases hN : s.Status = StatusNew
  · simp only [hN, if_true] at h
    cases hk : ts.PoolInstances with
    | none =>
      simp only [hk, State.yield, Except.ok.injEq] at h
      subst h
      exact StepShape.getPool hN hk
    | some keys =>
      simp only [hk] at h
      by_cases hlen : keys.length = 0
      · have hnil : keys = [] := List.length_eq_zero.mp hlen
        simp only [hlen, if_true] at h
        cases hc : generateCert env with
        | error e => simp [hc] at h
        | ok cp =>
          obtain ⟨cert, privKey⟩ := cp
          simp only [hc] at h
          cases ha : generateRandStr env 64 with
          | error e => simp [ha] at h
          | ok authCode =>
            simp only [ha, State.changeStatus, State.putAll] at h
            cases hput : env.putFault with
            | some e => simp [hput] at h
            | none =>
              simp only [hput, Except.ok.injEq] at h
              subst h
              subst hnil
              have := @StepShape.mustLaunch env pool s ts hN hk cert privKey authCode hc ha
              simpa [transition, hN] using this
      · have hne : keys ≠ [] := fun e => hlen (by simp [e])
        simp only [hlen, if_false] at h
        cases hl : acquireLoop env pool keys 5 0 PoolInstance.zero with
        | error e => simp [hl] at h
        | ok pd =>
          obtain ⟨p, dels⟩ := pd
          simp only [hl, State.changeStatus, State.putAll] at h
          cases hput : env.putFault with
          | some e => simp [hput] at h
          | none =>
            simp only [hput, Except.ok.injEq] at h
            subst h
            rcases acquireLoop_ok env pool keys hne 5 0 PoolInstance.zero p dels hl with
              ⟨hp, hd⟩ | ⟨key, hmem, hp, hd⟩
            · subst hp
              subst hd
              have := @StepShape.allMiss env pool s ts hN keys hk hne
              simpa [transition, hN, PoolInstance.zero] using this
            · subst hd
              have := @StepShape.adopt env pool s ts hN keys hk key hmem p hp
              simpa [transition, hN] using this
  simp only [hN, if_false] at h
  by_cases hM : s.Status = StatusMustLaunchInstance
  · simp only [hM, if_true] at h
    unfold Instance.launch Instance.launchParams at h
    cases hj : env.jsonMarshal (userDataFields s.Instance) with
    | error e => simp [hj] at h
    | ok userDataJson =>
      simp only [hj] at h
      cases hr : env.runInstances s.ID (String.mk (encodeBase64 stdAlphabet userDataJson)) with
      | error e => simp [hr] at h
      | ok instanceID =>
        simp only [hr, State.changeStatus, State.putAll] at h
        cases hput : env.putFault with
        | some e => simp [hput] at h
        | none =>
          simp only [hput, Except.ok.injEq] at h
          subst h
          have := @StepShape.launch env pool s ts hM _ instanceID hr
          simpa [transition, hM] using this
  simp only [hM, if_false] at h
  by_cases hL : s.Status = StatusLaunchingInstance
  · simp only [hL, if_true] at h
    cases hc : ts.LivenessChecked with
    | false =>
      simp only [hc, Bool.not_false, if_true, State.yield, Except.ok.injEq] at h
      subst h
      exact StepShape.checkLiveness hL hc
    | true =>
      cases hs : ts.LivenessCheckSuccess with
      | false =>
        simp [hc, hs, State.changeStatus, State.putAll] at h
        cases hput : env.putFault with
        | some e => simp [hput] at h
        | none =>
          simp only [hput, Except.ok.injEq] at h
          subst h
          have := @StepShape.failed env pool s ts hL hc hs
          simpa [transition, hL] using this
      | true =>
        simp [hc, hs, State.changeStatus, State.putAll] at h
        cases hput : env.putFault with
        | some e => simp [hput] at h
        | none =>
          simp only [hput, Except.ok.injEq] at h
          subst h
          have := @StepShape.live env pool s ts hL hc hs
          simpa [transition, hL] using this
  simp only [hL, if_false] at h
  by_cases hH : s.Status = StatusHaveInstance
  · simp only [hH, if_true] at h
    cases hd : ts.DreamDone with
    | false =>
      simp only [hd, Bool.not_false, if_true, State.yield, Except.ok.injEq] at h
      subst h
      exact StepShape.dream hH hd
    | true =>
      simp [hd, State.changeStatus, State.putAll] at h
      cases hput : env.putFault with
      | some e => simp [hput] at h
      | none =>
        simp only [hput, Except.ok.injEq] at h
        subst h
        have := @StepShape.finished env pool s ts hH hd
        simpa [transition, hH] using this
  simp only [hH, if_false] at h
  by_cases hF : s.Status = StatusFinishedWithInstance
  · simp only [hF, if_true, State.changeStatus, State.putAll, Instance.toPoolInstance] at h
    cases hput : env.putFault with
    | some e => simp [hput] at h
    | none =>
      simp only [hput, Except.ok.injEq] at h
      subst h
      have := @StepShape.done env pool s ts hF
      simpa [transition, hF] using this
  simp only [hF, if_false, State.putAll] at h
  cases hput : env.putFault with
  | some e => simp [hput] at h
  | none =>
    simp only [hput, Except.ok.injEq] at h
    subst h
    exact StepShape.unknown hN hM hL hH hF h5 h6

/-! ## C1: the acquisition loop when every pick misses -/

/-- C1 (as the code behaves): for a NEW job whose scratchpad holds a non-empty candidate
list, when all 5 random picks find their PoolInstance row gone and the final `PutMulti`
succeeds, `State.process` does not fall through to the launch path: it binds the zero
`Instance` to the job, sets the status to HAVE_INSTANCE (not MUST_LAUNCH), deletes no row
and stores no certificate, private key or authCode. -/
theorem process_new_all_picks_miss (env : Env) (pool : String → Option PoolInstance)
    (s : State) (ts : taskState) (keys : List String)
    (hs : s.Status = StatusNew) (hk : ts.PoolInstances = some keys) (hne : keys ≠ [])
    (hmiss : ∀ j, j < 5 →
      getPoolInstance env pool j (keys.getD (env.randIntn j % keys.length) "")
        = .error Error.noSuchEntity)
    (hput : env.putFault = none) :
    ∃ r, s.process env pool ts = .ok r ∧
      r.task = Task.TaskNone ∧
      r.state.Status = StatusHaveInstance ∧
      r.state.Status ≠ StatusMustLaunchInstance ∧
      r.state.Instance = Instance.zero ∧
      r.deletes = [] ∧
      r.puts = [Entity.jobLog s.ID
                  { NewStatus := StatusHaveInstance, PrevStatus := StatusNew, Time := env.now },
                Entity.job s.ID r.state] := by
  have hloop := acquireLoop_all_miss env pool keys 5 0 PoolInstance.zero
    (fun j _ h2 => hmiss j (by omega))
  have hlen : keys.length ≠ 0 := by
    intro h
    exact hne (List.length_eq_zero.mp h)
  simp [State.process, hs, hk, hlen, hloop, State.changeStatus, State.putAll, hput,
    StatusNew, StatusDone, StatusFailed, StatusHaveInstance, StatusMustLaunchInstance]
  rfl

/-- C1 at a concrete input: job `j` in NEW, candidate list `["k"]`, no PoolInstance row. -/
theorem process_new_all_picks_miss_witness :
    ∃ r, (jobAt "j" StatusNew).process calmEnv (fun _ => none)
        { taskState.zero with PoolInstances := some ["k"] } = .ok r ∧
      r.task = Task.TaskNone ∧
      r.state.Status = StatusHaveInstance ∧
      r.state.Status ≠ StatusMustLaunchInstance ∧
      r.state.Instance = Instance.zero ∧
      r.deletes = [] ∧
      r.puts = [Entity.jobLog (jobAt "j" StatusNew).ID
                  { NewStatus := StatusHaveInstance, PrevStatus := StatusNew,
                    Time := calmEnv.now },
                Entity.job (jobAt "j" StatusNew).ID r.state] :=
  process_new_all_picks_miss calmEnv (fun _ => none) (jobAt "j" StatusNew)
    { taskState.zero with PoolInstances := some ["k"] } ["k"] rfl rfl (by simp)
    (fun _ _ => rfl) rfl

/-! ## C2: terminal jobs -/

/-- C2: for a job whose status is DONE or FAILED and any scratchpad, `State.process` returns
HALT without error, with no put, no delete, no enqueued call and the job record unchanged;
and `processJob` on a datastore holding such a job returns after one transaction, with the
datastore and scratchpad unchanged, having handed only HALT (which `doTask` ignores) to
`doTask`. -/
theorem terminal_job_halts (env : Env) (pool : String → Option PoolInstance) (s : State)
    (ts : taskState) (h : s.Status = StatusDone ∨ s.Status = StatusFailed) :
    s.process env pool ts
        = .ok { task := Task.TaskHaltProcessing, state := s, deletes := [], puts := [],
                calls := [] } ∧
      s.doTask env Task.TaskHaltProcessing ts = (ts, none) ∧
      ∀ (envs : Nat → Env) (db : Datastore) (jobID : String) (fuel i : Nat),
        db.jobs jobID = some s → (envs i).getJobFault = none →
        ∃ run, processJob envs jobID (fuel + 1) i ts db = some run ∧
          run.err = none ∧ run.db = db ∧ run.ts = ts ∧ run.transactions = 1 ∧
          run.tasks = [Task.TaskHaltProcessing] := by
  have hp : ∀ (e : Env) (pl : String → Option PoolInstance), s.process e pl ts
      = .ok { task := Task.TaskHaltProcessing, state := s, deletes := [], puts := [],
              calls := [] } := by
    intro e pl
    simp [State.process, h, State.yield]
  refine ⟨hp env pool, rfl, ?_⟩
  intro envs db jobID fuel i hjob hfault
  simp [processJob, processJobTxn, hfault, hjob, hp, State.doTask, commit_nothing]

/-- C2 at a concrete input: a DONE job `j` in an otherwise empty datastore. -/
theorem terminal_job_halts_witness :
    (jobAt "j" StatusDone).process calmEnv (fun _ => none) taskState.zero
        = .ok { task := Task.TaskHaltProcessing, state := jobAt "j" StatusDone, deletes := [],
                puts := [], calls := [] } ∧
      (jobAt "j" StatusDone).doTask calmEnv Task.TaskHaltProcessing taskState.zero
        = (taskState.zero, none) ∧
      ∀ (envs : Nat → Env) (db : Datastore) (jobID : String) (fuel i : Nat),
        db.jobs jobID = some (jobAt "j" StatusDone) → (envs i).getJobFault = none →
        ∃ run, processJob envs jobID (fuel + 1) i taskState.zero db = some run ∧
          run.err = none ∧ run.db = db ∧ run.ts = taskState.zero ∧ run.transactions = 1 ∧
          run.tasks = [Task.TaskHaltProcessing] :=
  terminal_job_halts calmEnv (fun _ => none) (jobAt "j" StatusDone) taskState.zero
    (Or.inl rfl)

/-! ## C4: status changes and JobLog rows -/

/-- A successful step leaves the status and writes no JobLog row, or follows an edge and
writes exactly that JobLog row together with the job. -/
theorem step_log_cases (env : Env) (pool : String → Option PoolInstance) (s : State)
    (ts : taskState) (r : StepResult) (h : s.process env pool ts = .ok r) :
    (r.state.Status = s.Status ∧ r.puts.filterMap Entity.asJobLog = []) ∨
    (stateGraphEdge s.Status r.state.Status = true ∧
      r.puts.filterMap Entity.asJobLog
        = [{ NewStatus := r.state.Status, PrevStatus := s.Status, Time := env.now }] ∧
      Entity.job s.ID r.state ∈ r.puts) := by
  have hshape := process_ok_shape env pool s ts r h
  cases hshape with
  | halt _ => left; simp
  | getPool _ _ => left; simp
  | checkLiveness _ _ => left; simp
  | dream _ _ => left; simp
  | unknown => left; simp [Entity.asJobLog]
  | mustLaunch hs => right; simp [transition, hs, Entity.asJobLog, stateGraphEdge]
  | adopt hs => right; simp [transition, hs, Entity.asJobLog, stateGraphEdge]
  | allMiss hs => right; simp [transition, hs, Entity.asJobLog, stateGraphEdge]
  | launch hs => right; simp [transition, hs, Entity.asJobLog, stateGraphEdge]
  | failed hs => right; simp [transition, hs, Entity.asJobLog, stateGraphEdge]
  | live hs => right; simp [transition, hs, Entity.asJobLog, stateGraphEdge]
  | finished hs => right; simp [transition, hs, Entity.asJobLog, stateGraphEdge]
  | done hs => right; simp [transition, hs, Entity.asJobLog, stateGraphEdge]

/-- The JobLog rows written by a sequence of steps form a path from the job's status. -/
theorem runSteps_logPath (inputs : List StepInput) :
    ∀ s : State, logPath s.Status (runSteps s inputs).2 := by
  induction inputs with
  | nil => intro s; simp [runSteps, logPath]
  | cons x rest ih =>
    intro s
    simp only [runSteps]
    cases hp : s.process x.env x.pool x.ts with
    | error e => exact ih s
    | ok r =>
      simp only
      rcases step_log_cases x.env x.pool s x.ts r hp with ⟨hst, hlog⟩ | ⟨hedge, hlog, _⟩
      · rw [hlog, List.nil_append, ← hst]
        exact ih r.state
      · rw [hlog]
        exact ⟨rfl, hedge, ih r.state⟩

/-- C4: a successful `State.process` step either leaves the status unchanged and writes no
JobLog row, or changes the status along one of the seven edges of the state graph and writes,
in the same `PutMulti` batch as the updated job, exactly one JobLog row whose PrevStatus is
the old status and whose NewStatus is the new one; hence the JobLog rows written by any
sequence of steps on a job form a path of the state graph in which each row's PrevStatus is
the preceding row's NewStatus. -/
theorem joblog_rows_form_path (env : Env) (pool : String → Option PoolInstance) (s : State)
    (ts : taskState) (r : StepResult) (h : s.process env pool ts = .ok r) :
    ((r.state.Status = s.Status ∧ r.puts.filterMap Entity.asJobLog = []) ∨
      (stateGraphEdge s.Status r.state.Status = true ∧
        r.puts.filterMap Entity.asJobLog
          = [{ NewStatus := r.state.Status, PrevStatus := s.Status, Time := env.now }] ∧
        Entity.job s.ID r.state ∈ r.puts)) ∧
    ∀ (s0 : State) (inputs : List StepInput), logPath s0.Status (runSteps s0 inputs).2 :=
  ⟨step_log_cases env pool s ts r h, fun s0 inputs => runSteps_logPath inputs s0⟩

/-- C4 at a concrete input: a FINISHED_WITH_INSTANCE job moving to DONE. -/
theorem joblog_rows_form_path_witness :
    ((finishedToDone.state.Status = (jobAt "j" StatusFinishedWithInstance).Status ∧
        finishedToDone.puts.filterMap Entity.asJobLog = []) ∨
      (stateGraphEdge (jobAt "j" StatusFinishedWithInstance).Status
          finishedToDone.state.Status = true ∧
        finishedToDone.puts.filterMap Entity.asJobLog
          = [{ NewStatus := finishedToDone.state.Status,
               PrevStatus := (jobAt "j" StatusFinishedWithInstance).Status,
               Time := calmEnv.now }] ∧
        Entity.job (jobAt "j" StatusFinishedWithInstance).ID finishedToDone.state
          ∈ finishedToDone.puts)) ∧
    ∀ (s0 : State) (inputs : List StepInput), logPath s0.Status (runSteps s0 inputs).2 :=
  joblog_rows_form_path calmEnv (fun _ => none) (jobAt "j" StatusFinishedWithInstance)
    taskState.zero finishedToDone rfl

/-! ## C3: pool rows and live jobs never share an instance -/

/-- The invariant survives a write that replaces the job row under `jid` by `s'` and the
pool by `pool'`, when the new id of the job is empty, kept, taken from a pool row that is
gone afterwards, or freshly given by the provider, and every new pool row is the row of a
job that has just become DONE. -/
theorem storeInv_step (provider : String → String) (hinj : Function.Injective provider)
    (db db' : Datastore) (jid : String) (s s' : State) (pool' : String → Option PoolInstance)
    (hinv : StoreInv provider db) (hjob : db.jobs jid = some s) (hlive : s.Status ≠ StatusDone)
    (hid : s'.ID = jid)
    (hunl : unlaunched s'.Status → unlaunched s.Status)
    (hprov : s'.Instance.ID = "" ∨ s'.Instance.ID = s.Instance.ID ∨
      (∃ p, db.pool s'.Instance.ID = some p ∧ pool' s'.Instance.ID = none) ∨
      (s'.Instance.ID = provider jid ∧ unlaunched s.Status ∧ ¬ unlaunched s'.Status))
    (hpool : ∀ k p, pool' k = some p → p.Instance.ID = k ∧
      (db.pool k = some p ∨ (s'.Status = StatusDone ∧ p.Instance.ID = s.Instance.ID)))
    (hjobs' : db'.jobs = fun k => if k = jid then some s' else db.jobs k)
    (hpool' : db'.pool = pool') : StoreInv provider db' := by
  have key1 : ∀ k p, s'.Instance.ID ≠ "" → pool' k = some p → db.pool k = some p →
      p.Instance.ID ≠ s'.Instance.ID := by
    intro k p hne hp' hp heq
    rcases hprov with h | h | ⟨q, hq, hnone⟩ | ⟨he, hu, _⟩
    · exact hne h
    · exact hinv.noShared k p jid s hp hjob hlive (h ▸ hne) (heq.trans h)
    · have hk : p.Instance.ID = k := (hpool k p hp').1
      rw [← heq, hk, hp'] at hnone
      cases hnone
    · exact hinv.fresh jid s hjob hu (he ▸ hne) (Or.inl ⟨k, p, hp, heq.trans he⟩)
  have key2 : ∀ j b, db.jobs j = some b → j ≠ jid → b.Status ≠ StatusDone →
      s'.Instance.ID ≠ "" → b.Instance.ID ≠ s'.Instance.ID := by
    intro j b hb hj hbl hne heq
    rcases hprov with h | h | ⟨q, hq, _⟩ | ⟨he, hu, _⟩
    · exact hne h
    · exact hinv.exclusive jid j s b hjob hb (Ne.symm hj) hlive hbl (h ▸ hne)
        (h.symm.trans heq.symm)
    · have hqk : q.Instance.ID = s'.Instance.ID := hinv.poolKey _ q hq
      exact hinv.noShared _ q j b hq hb hbl (heq ▸ hne) (hqk.trans heq.symm)
    · exact hinv.fresh jid s hjob hu (he ▸ hne) (Or.inr ⟨j, b, hb, heq.trans he⟩)
  refine ⟨?_, ?_, ?_, ?_, ?_⟩
  · intro k p hp
    rw [hpool'] at hp
    exact (hpool k p hp).1
  · intro j b hb
    rw [hjobs'] at hb
    by_cases hj : j = jid
    · simp only [hj, if_true, Option.some.injEq] at hb
      rw [← hb, hj, hid]
    · simp only [hj, if_false] at hb
      exact hinv.jobKey j b hb
  · intro k p j b hp hb hbl hbne
    rw [hpool'] at hp
    rw [hjobs'] at hb
    by_cases hj : j = jid
    · simp only [hj, if_true, Option.some.injEq] at hb
      subst hb
      rcases (hpool k p hp).2 with hold | ⟨hdone, _⟩
      · exact key1 k p hbne hp hold
      · exact absurd hdone hbl
    · simp only [hj, if_false] at hb
      rcases (hpool k p hp).2 with hold | ⟨_, hpid⟩
      · exact hinv.noShared k p j b hold hb hbl hbne
      · intro heq
        exact hinv.exclusive j jid b s hb hjob hj hbl hlive hbne (heq.symm.trans hpid)
  · intro j1 j2 a b ha hb hne hal hbl hane
    rw [hjobs'] at ha hb
    by_cases h1 : j1 = jid
    · by_cases h2 : j2 = jid
      · exact absurd (h1.trans h2.symm) hne
      · simp only [h1, if_true, Option.some.injEq] at ha
        simp only [h2, if_false] at hb
        subst ha
        exact fun heq => key2 j2 b hb h2 hbl hane heq.symm
    · simp only [h1, if_false] at ha
      by_cases h2 : j2 = jid
      · simp only [h2, if_true, Option.some.injEq] at hb
        subst hb
        intro heq
        exact key2 j1 a ha h1 hal (heq ▸ hane) heq
      · simp only [h2, if_false] at hb
        exact hinv.exclusive j1 j2 a b ha hb hne hal hbl hane
  · intro j b hb hu hpne hheld
    rw [hjobs'] at hb
    have hf : ¬ db.holdsID (provider j) ∧ (j = jid → unlaunched s'.Status) := by
      by_cases hj : j = jid
      · simp only [hj, if_true, Option.some.injEq] at hb
        subst hb
        refine ⟨?_, fun _ => hu⟩
        rw [hj] at hpne ⊢
        exact hinv.fresh jid s hjob (hunl hu) hpne
      · simp only [hj, if_false] at hb
        exact ⟨hinv.fresh j b hb hu hpne, fun h => absurd h hj⟩
    rcases hheld with ⟨k, p, hp, hpid⟩ | ⟨j2, c, hc, hcid⟩
    · rw [hpool'] at hp
      rcases (hpool k p hp).2 with hold | ⟨_, hps⟩
      · exact hf.1 (Or.inl ⟨k, p, hold, hpid⟩)
      · exact hf.1 (Or.inr ⟨jid, s, hjob, hps.symm.trans hpid⟩)
    · rw [hjobs'] at hc
      by_cases h2 : j2 = jid
      · simp only [h2, if_true, Option.some.injEq] at hc
        subst hc
        rcases hprov with h | h | ⟨q, hq, _⟩ | ⟨he, _, hnu⟩
        · exact hpne (hcid.symm.trans h)
        · exact hf.1 (Or.inr ⟨jid, s, hjob, h.symm.trans hcid⟩)
        · exact hf.1 (Or.inl ⟨_, q, hq, (hinv.poolKey _ q hq).trans hcid⟩)
        · have hjj : jid = j := hinj (he.symm.trans hcid)
          exact hnu (hf.2 hjj.symm)
      · simp only [h2, if_false] at hc
        exact hf.1 (Or.inr ⟨j2, c, hc, hcid⟩)

/-- A successful transaction read the job row, ran `State.process` on it and committed. -/
theorem processJobTxn_ok (env : Env) (db db' : Datastore) (jid : String) (ts : taskState)
    (r : StepResult) (h : processJobTxn env db jid ts = .ok (r, db')) :
    ∃ s, db.jobs jid = some s ∧ s.process env db.pool ts = .ok r ∧ db' = db.commit r := by
  unfold processJobTxn at h
  cases hf : env.getJobFault with
  | some e => simp [hf] at h
  | none =>
    cases hj : db.jobs jid with
    | none => simp [hf, hj] at h
    | some s =>
      cases hp : s.process env db.pool ts with
      | error e => simp [hf, hj, hp] at h
      | ok r0 =>
        simp only [hf, hj, hp, Except.ok.injEq, Prod.mk.injEq] at h
        obtain ⟨h1, h2⟩ := h
        subst h1
        exact ⟨s, rfl, hp, h2.symm⟩

/-- The invariant is unaffected by what a commit does to the JobLog rows and the queue. -/
theorem storeInv_same_rows (provider : String → String) (db db' : Datastore)
    (hinv : StoreInv provider db) (hj : db'.jobs = db.jobs) (hp : db'.pool = db.pool) :
    StoreInv provider db' := by
  obtain ⟨h1, h2, h3, h4, h5⟩ := hinv
  refine ⟨?_, ?_, ?_, ?_, ?_⟩
  · rw [hp]; exact h1
  · rw [hj]; exact h2
  · unfold NoSharedInstance; rw [hj, hp]; exact h3
  · rw [hj]; exact h4
  · unfold Datastore.holdsID; rw [hj, hp]; exact h5

/-- A status other than NEW and MUST_LAUNCH is past the launch request. -/
theorem not_unlaunched (st : Status) (h0 : st ≠ StatusNew)
    (h1 : st ≠ StatusMustLaunchInstance) : ¬ unlaunched st := by
  intro hu
  rcases hu with h | h
  · exact h0 h
  · exact h1 h

/-- The committed `State.process` step preserves the inductive invariant. -/
theorem storeInv_preserved (provider : String → String) (hinj : Function.Injective provider)
    (env : Env) (henv : ∀ t u id, env.runInstances t u = .ok id → id = provider t)
    (db : Datastore) (jid : String) (s : State) (ts : taskState) (r : StepResult)
    (hinv : StoreInv provider db) (hjob : db.jobs jid = some s)
    (hproc : s.process env db.pool ts = .ok r) : StoreInv provider (db.commit r) := by
  have hsid : s.ID = jid := hinv.jobKey jid s hjob
  have hold : ∀ k p, db.pool k = some p → p.Instance.ID = k ∧
      (db.pool k = some p ∨ (r.state.Status = StatusDone ∧ p.Instance.ID = s.Instance.ID)) :=
    fun k p hp => ⟨hinv.poolKey k p hp, Or.inl hp⟩
  suffices hmain : ((db.commit r).jobs = db.jobs ∧ (db.commit r).pool = db.pool) ∨
      (s.Status ≠ StatusDone ∧ (unlaunched r.state.Status → unlaunched s.Status) ∧
        ∃ pool' : String → Option PoolInstance,
          (r.state.Instance.ID = "" ∨ r.state.Instance.ID = s.Instance.ID ∨
            (∃ p, db.pool r.state.Instance.ID = some p ∧ pool' r.state.Instance.ID = none) ∨
            (r.state.Instance.ID = provider jid ∧ unlaunched s.Status ∧
              ¬ unlaunched r.state.Status)) ∧
          (∀ k p, pool' k = some p → p.Instance.ID = k ∧
            (db.pool k = some p ∨
              (r.state.Status = StatusDone ∧ p.Instance.ID = s.Instance.ID))) ∧
          r.state.ID = s.ID ∧
          ((db.commit r).jobs = fun k => if k = s.ID then some r.state else db.jobs k) ∧
          (db.commit r).pool = pool') by
    rcases hmain with ⟨h1, h2⟩ | ⟨hl, hunl, pool', hprov, hpool, hid, hj, hp⟩
    · exact storeInv_same_rows provider db _ hinv h1 h2
    · rw [hsid] at hid hj
      exact storeInv_step provider hinj db _ jid s r.state pool' hinv hjob hl hid hunl hprov
        hpool hj hp
  have hshape := process_ok_shape env db.pool s ts r hproc
  cases hshape with
  | halt _ => exact Or.inl ⟨rfl, rfl⟩
  | getPool _ _ => exact Or.inl ⟨rfl, rfl⟩
  | checkLiveness _ _ => exact Or.inl ⟨rfl, rfl⟩
  | dream _ _ => exact Or.inl ⟨rfl, rfl⟩
  | unknown h0 h1 h2 h3 h4 h5 h6 =>
    exact Or.inr ⟨h5, id, db.pool, Or.inr (Or.inl rfl), hold, rfl, rfl, rfl⟩
  | mustLaunch hs hk cert privKey authCode hc ha =>
    exact Or.inr ⟨by rw [hs]; decide, fun _ => Or.inl hs, db.pool, Or.inr (Or.inl rfl), hold,
      rfl, rfl, rfl⟩
  | adopt hs keys hk key hmem p hp =>
    have hpk : p.Instance.ID = key := hinv.poolKey key p hp
    refine Or.inr ⟨by rw [hs]; decide, ?_, fun k => if k = key then none else db.pool k,
      ?_, ?_, rfl, rfl, rfl⟩
    · exact fun hu => absurd hu (not_unlaunched StatusHaveInstance (by decide) (by decide))
    · refine Or.inr (Or.inr (Or.inl ⟨p, ?_, ?_⟩))
      · show db.pool p.Instance.ID = some p
        rw [hpk]; exact hp
      · show (if p.Instance.ID = key then none else db.pool p.Instance.ID) = none
        simp [hpk]
    · intro k q hq
      by_cases hkk : k = key
      · simp [hkk] at hq
      · simp only [hkk, if_false] at hq
        exact ⟨hinv.poolKey k q hq, Or.inl hq⟩
  | allMiss hs keys hk hne =>
    refine Or.inr ⟨by rw [hs]; decide, ?_, db.pool, Or.inl rfl, hold, rfl, rfl, rfl⟩
    exact fun hu => absurd hu (not_unlaunched StatusHaveInstance (by decide) (by decide))
  | launch hs userData instanceID hr =>
    have hpid : instanceID = provider jid := by
      rw [← hsid]; exact henv _ _ _ hr
    refine Or.inr ⟨by rw [hs]; decide, ?_, db.pool,
      Or.inr (Or.inr (Or.inr ⟨hpid, Or.inr hs, ?_⟩)), hold, rfl, rfl, rfl⟩
    · exact fun hu => absurd hu (not_unlaunched StatusLaunchingInstance (by decide) (by decide))
    · exact fun hu => absurd hu (not_unlaunched StatusLaunchingInstance (by decide) (by decide))
  | failed hs hc hl =>
    refine Or.inr ⟨by rw [hs]; decide, ?_, db.pool, Or.inr (Or.inl rfl), hold, rfl, rfl, rfl⟩
    exact fun hu => absurd hu (not_unlaunched StatusFailed (by decide) (by decide))
  | live hs hc hl =>
    refine Or.inr ⟨by rw [hs]; decide, ?_, db.pool, Or.inr (Or.inl rfl), hold, rfl, rfl, rfl⟩
    exact fun hu => absurd hu (not_unlaunched StatusHaveInstance (by decide) (by decide))
  | finished hs hd =>
    refine Or.inr ⟨by rw [hs]; decide, ?_, db.pool, Or.inr (Or.inl rfl), hold, rfl, rfl, rfl⟩
    exact fun hu => absurd hu (not_unlaunched StatusFinishedWithInstance (by decide) (by decide))
  | done hs =>
    refine Or.inr ⟨by rw [hs]; decide, ?_,
      fun k => if k = s.Instance.ID then
          some { Instance := s.Instance, PoolAddTime := env.now } else db.pool k,
      Or.inr (Or.inl rfl), ?_, rfl, rfl, rfl⟩
    · exact fun hu => absurd hu (not_unlaunched StatusDone (by decide) (by decide))
    · intro k q hq
      by_cases hkk : k = s.Instance.ID
      · simp only [hkk, if_true, Option.some.injEq] at hq
        subst hq
        exact ⟨hkk.symm, Or.inr ⟨rfl, rfl⟩⟩
      · simp only [hkk, if_false] at hq
        exact ⟨hinv.poolKey k q hq, Or.inl hq⟩

/-- What a committed step does to the pool: a NEW job that reaches HAVE_INSTANCE either found
no row (and the pool is untouched) or read one row, deleted exactly that row and took its
Instance; and a pool row that is new or changed after the step is the row of the stepping
job, which was FINISHED_WITH_INSTANCE and is now DONE. -/
theorem step_pool_effect (env : Env) (db : Datastore) (jid : String) (s : State)
    (ts : taskState) (r : StepResult) (hsid : s.ID = jid)
    (hproc : s.process env db.pool ts = .ok r) :
    (s.Status = StatusNew → r.state.Status = StatusHaveInstance →
      (db.commit r).jobs jid = some r.state ∧
      ((r.deletes = [] ∧ r.state.Instance = Instance.zero ∧ (db.commit r).pool = db.pool) ∨
        (∃ key p, db.pool key = some p ∧ r.deletes = [key] ∧ r.state.Instance = p.Instance ∧
          (db.commit r).pool key = none ∧ ∀ k, k ≠ key → (db.commit r).pool k = db.pool k))) ∧
    (∀ k p, (db.commit r).pool k = some p → db.pool k ≠ some p →
      s.Status = StatusFinishedWithInstance ∧ r.state.Status = StatusDone ∧
      (db.commit r).jobs jid = some r.state ∧ k = s.Instance.ID ∧ p.Instance = s.Instance) := by
  have hshape := process_ok_shape env db.pool s ts r hproc
  cases hshape with
  | halt h =>
    refine ⟨fun hN _ => ?_, fun k p hp hnp => absurd hp hnp⟩
    rw [hN] at h
    rcases h with h | h <;> exact absurd h (by decide)
  | getPool hs _ =>
    refine ⟨fun hN hH => ?_, fun k p hp hnp => absurd hp hnp⟩
    have hH' : s.Status = StatusHaveInstance := hH
    rw [hN] at hH'
    exact absurd hH' (by decide)
  | checkLiveness hs _ =>
    refine ⟨fun hN _ => ?_, fun k p hp hnp => absurd hp hnp⟩
    rw [hN] at hs
    exact absurd hs (by decide)
  | dream hs _ =>
    refine ⟨fun hN _ => ?_, fun k p hp hnp => absurd hp hnp⟩
    rw [hN] at hs
    exact absurd hs (by decide)
  | unknown h0 =>
    exact ⟨fun hN _ => absurd hN h0, fun k p hp hnp => absurd hp hnp⟩
  | mustLaunch hs =>
    refine ⟨fun _ hH => ?_, fun k p hp hnp => absurd hp hnp⟩
    have hH' : StatusMustLaunchInstance = StatusHaveInstance := hH
    exact absurd hH' (by decide)
  | adopt hs keys hk key hmem p hp =>
    refine ⟨fun _ _ => ⟨?_, Or.inr ⟨key, p, hp, rfl, rfl, ?_, ?_⟩⟩, fun k q hq hnq => ?_⟩
    · show (if jid = s.ID then some _ else db.jobs jid) = some _
      exact (if_pos hsid.symm).trans rfl
    · show (if key = key then none else db.pool key) = none
      simp
    · intro k hk'
      show (if k = key then none else db.pool k) = db.pool k
      simp [hk']
    · have hq' : (if k = key then none else db.pool k) = some q := hq
      by_cases hkk : k = key
      · simp [hkk] at hq'
      · simp only [hkk, if_false] at hq'
        exact absurd hq' hnq
  | allMiss hs keys hk hne =>
    refine ⟨fun _ _ => ⟨?_, Or.inl ⟨rfl, rfl, rfl⟩⟩, fun k p hp hnp => absurd hp hnp⟩
    show (if jid = s.ID then some _ else db.jobs jid) = some _
    exact (if_pos hsid.symm).trans rfl
  | launch hs =>
    refine ⟨fun hN _ => ?_, fun k p hp hnp => absurd hp hnp⟩
    rw [hN] at hs
    exact absurd hs (by decide)
  | failed hs =>
    refine ⟨fun hN _ => ?_, fun k p hp hnp => absurd hp hnp⟩
    rw [hN] at hs
    exact absurd hs (by decide)
  | live hs =>
    refine ⟨fun hN _ => ?_, fun k p hp hnp => absurd hp hnp⟩
    rw [hN] at hs
    exact absurd hs (by decide)
  | finished hs =>
    refine ⟨fun hN _ => ?_, fun k p hp hnp => absurd hp hnp⟩
    rw [hN] at hs
    exact absurd hs (by decide)
  | done hs =>
    refine ⟨fun hN _ => ?_, fun k q hq hnq => ?_⟩
    · rw [hN] at hs
      exact absurd hs (by decide)
    · have hq' : (if k = s.Instance.ID then
          some { Instance := s.Instance, PoolAddTime := env.now } else db.pool k) = some q := hq
      by_cases hkk : k = s.Instance.ID
      · simp only [hkk, if_true, Option.some.injEq] at hq'
        refine ⟨hs, rfl, ?_, hkk, by rw [← hq']⟩
        show (if jid = s.ID then some _ else db.jobs jid) = some _
        exact (if_pos hsid.symm).trans rfl
      · simp only [hkk, if_false] at hq'
        exact absurd hq' hnq

/-- C3: for a provider that answers each client token with one instance id, distinct tokens
getting distinct ids, the committed `State.process` step preserves the invariant of the
store of Job and PoolInstance rows, so afterwards no PoolInstance row and no job that is not
DONE reference the same instance id; a NEW job that reaches HAVE_INSTANCE by adopting a pool
row deletes exactly that row in the same step and takes the row's Instance; and a
PoolInstance row that the step creates or changes is the row of the stepping job's own
instance, written in the step that takes that job from FINISHED_WITH_INSTANCE to DONE. -/
theorem pool_and_live_jobs_disjoint (provider : String → String)
    (hinj : Function.Injective provider) (env : Env)
    (henv : ∀ t u id, env.runInstances t u = .ok id → id = provider t)
    (db db' : Datastore) (jid : String) (ts : taskState) (r : StepResult)
    (hinv : StoreInv provider db) (hstep : processJobTxn env db jid ts = .ok (r, db')) :
    StoreInv provider db' ∧ NoSharedInstance db' ∧
    (∀ s, db.jobs jid = some s → s.Status = StatusNew → r.state.Status = StatusHaveInstance →
      db'.jobs jid = some r.state ∧
      ((r.deletes = [] ∧ r.state.Instance = Instance.zero ∧ db'.pool = db.pool) ∨
        (∃ key p, db.pool key = some p ∧ r.deletes = [key] ∧ r.state.Instance = p.Instance ∧
          db'.pool key = none ∧ ∀ k, k ≠ key → db'.pool k = db.pool k))) ∧
    (∀ k p, db'.pool k = some p → db.pool k ≠ some p →
      ∃ s, db.jobs jid = some s ∧ s.Status = StatusFinishedWithInstance ∧
        r.state.Status = StatusDone ∧ db'.jobs jid = some r.state ∧
        k = s.Instance.ID ∧ p.Instance = s.Instance) := by
  obtain ⟨s, hjob, hproc, hdb⟩ := processJobTxn_ok env db db' jid ts r hstep
  subst hdb
  have hsid : s.ID = jid := hinv.jobKey jid s hjob
  have hinv' := storeInv_preserved provider hinj env henv db jid s ts r hinv hjob hproc
  have heff := step_pool_effect env db jid s ts r hsid hproc
  refine ⟨hinv', hinv'.noShared, ?_, ?_⟩
  · intro s2 hjob2 hN hH
    rw [hjob] at hjob2
    cases hjob2
    exact heff.1 hN hH
  · intro k p hp hnp
    obtain ⟨h1, h2, h3, h4, h5⟩ := heff.2 k p hp hnp
    exact ⟨s, hjob, h1, h2, h3, h4, h5⟩

/-- The only Job row of `warmStore` is the NEW job `j1`. -/
theorem warmStore_jobs (jid : String) (j : State) (h : warmStore.jobs jid = some j) :
    jid = "j1" ∧ j = jobAt "j1" StatusNew := by
  by_cases hk : jid = "j1"
  · simp only [warmStore, hk, if_true, Option.some.injEq] at h
    exact ⟨hk, h.symm⟩
  · simp [warmStore, hk] at h

/-- The only PoolInstance row of `warmStore` is `warmRow` under `i1`. -/
theorem warmStore_pool (k : String) (p : PoolInstance) (h : warmStore.pool k = some p) :
    k = "i1" ∧ p = warmRow := by
  by_cases hk : k = "i1"
  · simp only [warmStore, hk, if_true, Option.some.injEq] at h
    exact ⟨hk, h.symm⟩
  · simp [warmStore, hk] at h

/-- The store with job `j1` and pool row `i1` satisfies the invariant for the provider that
answers each token with itself. -/
theorem warmStore_inv : StoreInv (fun t => t) warmStore := by
  have hjobs := warmStore_jobs
  have hpool := warmStore_pool
  refine ⟨?_, ?_, ?_, ?_, ?_⟩
  · intro k p h
    obtain ⟨h1, h2⟩ := hpool k p h
    rw [h1, h2]; rfl
  · intro jid j h
    obtain ⟨h1, h2⟩ := hjobs jid j h
    rw [h1, h2]; rfl
  · intro k p jid j _ hj _ hne
    obtain ⟨_, h2⟩ := hjobs jid j hj
    rw [h2] at hne
    exact absurd rfl hne
  · intro j1 j2 a b ha _ _ _ _ hne
    obtain ⟨_, h2⟩ := hjobs j1 a ha
    rw [h2] at hne
    exact absurd rfl hne
  · intro jid b hb _ _ hheld
    obtain ⟨h1, _⟩ := hjobs jid b hb
    rcases hheld with ⟨k, p, hp, hpid⟩ | ⟨j2, c, hc, hcid⟩
    · obtain ⟨_, h2⟩ := hpool k p hp
      rw [h2, h1] at hpid
      exact absurd hpid (by decide)
    · obtain ⟨_, h2⟩ := hjobs j2 c hc
      rw [h2, h1] at hcid
      exact absurd hcid (by decide)

/-- C3 at a concrete input: job `j1` adopting the pool row `i1`. -/
theorem pool_and_live_jobs_disjoint_witness :
    StoreInv (fun t => t) warmStore ∧
    processJobTxn calmEnv warmStore "j1" warmScratch
      = .ok (adoptStep, warmStore.commit adoptStep) ∧
    NoSharedInstance (warmStore.commit adoptStep) ∧
    (warmStore.commit adoptStep).pool "i1" = none :=
  ⟨warmStore_inv, rfl,
    (pool_and_live_jobs_disjoint (fun t => t) (fun _ _ h => h) calmEnv
      (fun _ _ _ h => (Except.ok.inj h).symm) warmStore (warmStore.commit adoptStep) "j1"
      warmScratch adoptStep warmStore_inv rfl).2.1,
    rfl⟩

/-! ## C5: the private key is stored only while the launch is pending -/

/-- Deleting PoolInstance keys adds no row and leaves the Job rows alone. -/
theorem foldl_delete_rows (dels : List String) :
    ∀ db : Datastore, (dels.foldl Datastore.delete db).jobs = db.jobs ∧
      ∀ k p, (dels.foldl Datastore.delete db).pool k = some p → db.pool k = some p := by
  induction dels with
  | nil => intro db; exact ⟨rfl, fun _ _ h => h⟩
  | cons d rest ih =>
    intro db
    obtain ⟨h1, h2⟩ := ih (db.delete d)
    refine ⟨h1, fun k p h => ?_⟩
    have h3 : (if k = d then none else db.pool k) = some p := h2 k p h
    by_cases hk : k = d
    · simp [hk] at h3
    · simpa [hk] using h3

/-- A row found after a `PutMulti` was there before or is in the batch. -/
theorem foldl_put_rows (puts : List Entity) :
    ∀ db : Datastore,
      (∀ k j, (puts.foldl Datastore.put db).jobs k = some j →
        db.jobs k = some j ∨ Entity.job k j ∈ puts) ∧
      (∀ k p, (puts.foldl Datastore.put db).pool k = some p →
        db.pool k = some p ∨ Entity.poolInstance k p ∈ puts) := by
  induction puts with
  | nil => intro db; exact ⟨fun _ _ h => Or.inl h, fun _ _ h => Or.inl h⟩
  | cons e rest ih =>
    intro db
    obtain ⟨h1, h2⟩ := ih (db.put e)
    refine ⟨fun k j h => ?_, fun k p h => ?_⟩
    · rcases h1 k j h with h3 | h3
      · cases e with
        | jobLog parent log => exact Or.inl h3
        | poolInstance key q => exact Or.inl h3
        | job key t =>
          have h4 : (if k = key then some t else db.jobs k) = some j := h3
          by_cases hk : k = key
          · simp only [hk, if_true, Option.some.injEq] at h4
            rw [hk, h4]
            exact Or.inr (List.mem_cons_self _ _)
          · simp only [hk, if_false] at h4
            exact Or.inl h4
      · exact Or.inr (List.mem_cons_of_mem _ h3)
    · rcases h2 k p h with h3 | h3
      · cases e with
        | jobLog parent log => exact Or.inl h3
        | job key t => exact Or.inl h3
        | poolInstance key q =>
          have h4 : (if k = key then some q else db.pool k) = some p := h3
          by_cases hk : k = key
          · simp only [hk, if_true, Option.some.injEq] at h4
            rw [hk, h4]
            exact Or.inr (List.mem_cons_self _ _)
          · simp only [hk, if_false] at h4
            exact Or.inl h4
      · exact Or.inr (List.mem_cons_of_mem _ h3)

/-- A row of the committed datastore was there before the step or is in its batch. -/
theorem commit_rows (db : Datastore) (r : StepResult) :
    (∀ k j, (db.commit r).jobs k = some j → db.jobs k = some j ∨ Entity.job k j ∈ r.puts) ∧
    (∀ k p, (db.commit r).pool k = some p →
      db.pool k = some p ∨ Entity.poolInstance k p ∈ r.puts) := by
  obtain ⟨hd1, hd2⟩ := foldl_delete_rows r.deletes db
  obtain ⟨hp1, hp2⟩ := foldl_put_rows r.puts (r.deletes.foldl Datastore.delete db)
  refine ⟨fun k j h => ?_, fun k p h => ?_⟩
  · rcases hp1 k j h with h3 | h3
    · rw [hd1] at h3
      exact Or.inl h3
    · exact Or.inr h3
  · rcases hp2 k p h with h3 | h3
    · exact Or.inl (hd2 k p h3)
    · exact Or.inr h3

/-- MUST_LAUNCH is not a status after the launch. -/
theorem mustLaunch_not_pastLaunch : ¬ pastLaunch StatusMustLaunchInstance := by
  unfold pastLaunch
  decide

/-- The rows written by a successful step on a job row of a datastore with cleared keys:
a PoolInstance row has an empty private key, a Job row with a status after the launch has
an empty private key, and, when the job row read obeys it too, a Job row with a non-empty
private key has status MUST_LAUNCH. -/
theorem step_written_keys (env : Env) (db : Datastore) (jid : String) (s : State)
    (ts : taskState) (r : StepResult) (hinv : KeysCleared db) (hjob : db.jobs jid = some s)
    (hproc : s.process env db.pool ts = .ok r) :
    (∀ k p, Entity.poolInstance k p ∈ r.puts → p.Instance.PrivateKey = []) ∧
    (∀ k j, Entity.job k j ∈ r.puts → pastLaunch j.Status → j.Instance.PrivateKey = []) ∧
    ((s.Instance.PrivateKey ≠ [] → s.Status = StatusMustLaunchInstance) →
      ∀ k j, Entity.job k j ∈ r.puts → j.Instance.PrivateKey ≠ [] →
        j.Status = StatusMustLaunchInstance) := by
  have hpast : pastLaunch s.Status → s.Instance.PrivateKey = [] := hinv.2 jid s hjob
  have hshape := process_ok_shape env db.pool s ts r hproc
  cases hshape with
  | halt _ => simp
  | getPool _ _ => simp
  | checkLiveness _ _ => simp
  | dream _ _ => simp
  | unknown =>
    refine ⟨by simp, ?_, ?_⟩
    · intro k j hmem hp
      simp only [List.mem_singleton, Entity.job.injEq] at hmem
      rw [hmem.2]
      rw [hmem.2] at hp
      exact hpast hp
    · intro hs k j hmem hne
      simp only [List.mem_singleton, Entity.job.injEq] at hmem
      rw [hmem.2]
      rw [hmem.2] at hne
      exact hs hne
  | mustLaunch hs hk cert privKey authCode hc ha =>
    refine ⟨by simp [transition], ?_, ?_⟩
    · intro k j hmem hp
      simp only [transition, List.nil_append, List.mem_cons, List.mem_singleton,
        Entity.job.injEq, List.not_mem_nil, or_false, false_or, reduceCtorEq] at hmem
      rw [hmem.2] at hp
      exact absurd hp mustLaunch_not_pastLaunch
    · intro _ k j hmem _
      simp only [transition, List.nil_append, List.mem_cons, List.mem_singleton,
        Entity.job.injEq, List.not_mem_nil, or_false, false_or, reduceCtorEq] at hmem
      rw [hmem.2]
  | adopt hs keys hk key hmem p hp =>
    have hkey : p.Instance.PrivateKey = [] := hinv.1 key p hp
    refine ⟨by simp [transition], ?_, ?_⟩
    · intro k j hmem _
      simp only [transition, List.nil_append, List.mem_cons, List.mem_singleton,
        Entity.job.injEq, List.not_mem_nil, or_false, false_or, reduceCtorEq] at hmem
      rw [hmem.2]
      exact hkey
    · intro _ k j hmem hne
      simp only [transition, List.nil_append, List.mem_cons, List.mem_singleton,
        Entity.job.injEq, List.not_mem_nil, or_false, false_or, reduceCtorEq] at hmem
      rw [hmem.2] at hne
      exact absurd hkey hne
  | allMiss hs keys hk hne =>
    refine ⟨by simp [transition], ?_, ?_⟩
    · intro k j hmem _
      simp only [transition, List.nil_append, List.mem_cons, List.mem_singleton,
        Entity.job.injEq, List.not_mem_nil, or_false, false_or, reduceCtorEq] at hmem
      rw [hmem.2]
      rfl
    · intro _ k j hmem hne
      simp only [transition, List.nil_append, List.mem_cons, List.mem_singleton,
        Entity.job.injEq, List.not_mem_nil, or_false, false_or, reduceCtorEq] at hmem
      rw [hmem.2] at hne
      exact absurd rfl hne
  | launch hs userData instanceID hr =>
    refine ⟨by simp [transition], ?_, ?_⟩
    · intro k j hmem _
      simp only [transition, List.nil_append, List.mem_cons, List.mem_singleton,
        Entity.job.injEq, List.not_mem_nil, or_false, false_or, reduceCtorEq] at hmem
      rw [hmem.2]
    · intro _ k j hmem hne
      simp only [transition, List.nil_append, List.mem_cons, List.mem_singleton,
        Entity.job.injEq, List.not_mem_nil, or_false, false_or, reduceCtorEq] at hmem
      rw [hmem.2] at hne
      exact absurd rfl hne
  | failed hs hc hl =>
    have hkey : s.Instance.PrivateKey = [] := hpast (Or.inl hs)
    refine ⟨by simp [transition], ?_, ?_⟩
    · intro k j hmem _
      simp only [transition, List.nil_append, List.mem_cons, List.mem_singleton,
        Entity.job.injEq, List.not_mem_nil, or_false, false_or, reduceCtorEq] at hmem
      rw [hmem.2]
      exact hkey
    · intro _ k j hmem hne
      simp only [transition, List.nil_append, List.mem_cons, List.mem_singleton,
        Entity.job.injEq, List.not_mem_nil, or_false, false_or, reduceCtorEq] at hmem
      rw [hmem.2] at hne
      exact absurd hkey hne
  | live hs hc hl =>
    have hkey : s.Instance.PrivateKey = [] := hpast (Or.inl hs)
    refine ⟨by simp [transition], ?_, ?_⟩
    · intro k j hmem _
      simp only [transition, List.nil_append, List.mem_cons, List.mem_singleton,
        Entity.job.injEq, List.not_mem_nil, or_false, false_or, reduceCtorEq] at hmem
      rw [hmem.2]
      exact hkey
    · intro _ k j hmem hne
      simp only [transition, List.nil_append, List.mem_cons, List.mem_singleton,
        Entity.job.injEq, List.not_mem_nil, or_false, false_or, reduceCtorEq] at hmem
      rw [hmem.2] at hne
      exact absurd hkey hne
  | finished hs hd =>
    have hkey : s.Instance.PrivateKey = [] := hpast (Or.inr (Or.inl hs))
    refine ⟨by simp [transition], ?_, ?_⟩
    · intro k j hmem _
      simp only [transition, List.nil_append, List.mem_cons, List.mem_singleton,
        Entity.job.injEq, List.not_mem_nil, or_false, false_or, reduceCtorEq] at hmem
      rw [hmem.2]
      exact hkey
    · intro _ k j hmem hne
      simp only [transition, List.nil_append, List.mem_cons, List.mem_singleton,
        Entity.job.injEq, List.not_mem_nil, or_false, false_or, reduceCtorEq] at hmem
      rw [hmem.2] at hne
      exact absurd hkey hne
  | done hs =>
    have hkey : s.Instance.PrivateKey = [] := hpast (Or.inr (Or.inr (Or.inl hs)))
    refine ⟨?_, ?_, ?_⟩
    · intro k p hmem
      simp only [transition, List.cons_append, List.nil_append, List.mem_cons,
        List.mem_singleton, Entity.poolInstance.injEq, List.not_mem_nil, or_false, false_or,
        reduceCtorEq] at hmem
      rw [hmem.2]
      exact hkey
    · intro k j hmem _
      simp only [transition, List.cons_append, List.nil_append, List.mem_cons,
        List.mem_singleton, Entity.job.injEq, List.not_mem_nil, or_false, false_or,
        reduceCtorEq] at hmem
      rw [hmem.2]
      exact hkey
    · intro _ k j hmem hne
      simp only [transition, List.cons_append, List.nil_append, List.mem_cons,
        List.mem_singleton, Entity.job.injEq, List.not_mem_nil, or_false, false_or,
        reduceCtorEq] at hmem
      rw [hmem.2] at hne
      exact absurd hkey hne

/-- C5: a successful `State.process` step, committed, preserves the predicate
"every PoolInstance row has an empty private key and every Job row whose status is
LAUNCHING, HAVE_INSTANCE, FINISHED_WITH_INSTANCE, DONE or FAILED has an empty private key";
the rows the step writes obey it too; and a non-empty private key is stored only in a Job
row whose status is MUST_LAUNCH: that predicate is preserved as well, and holds of every
Job row the step writes. -/
theorem private_key_cleared_after_launch (env : Env) (db db' : Datastore) (jid : String)
    (ts : taskState) (r : StepResult) (hinv : KeysCleared db)
    (hstep : processJobTxn env db jid ts = .ok (r, db')) :
    KeysCleared db' ∧
    (∀ k p, Entity.poolInstance k p ∈ r.puts → p.Instance.PrivateKey = []) ∧
    (∀ k j, Entity.job k j ∈ r.puts → pastLaunch j.Status → j.Instance.PrivateKey = []) ∧
    (KeyOnlyInMustLaunch db →
      KeyOnlyInMustLaunch db' ∧
      ∀ k j, Entity.job k j ∈ r.puts → j.Instance.PrivateKey ≠ [] →
        j.Status = StatusMustLaunchInstance) := by
  obtain ⟨s, hjob, hproc, hdb⟩ := processJobTxn_ok env db db' jid ts r hstep
  subst hdb
  obtain ⟨hw1, hw2, hw3⟩ := step_written_keys env db jid s ts r hinv hjob hproc
  obtain ⟨hc1, hc2⟩ := commit_rows db r
  have hpool' : ∀ k p, (db.commit r).pool k = some p → p.Instance.PrivateKey = [] := by
    intro k p h
    rcases hc2 k p h with h1 | h1
    · exact hinv.1 k p h1
    · exact hw1 k p h1
  refine ⟨⟨hpool', ?_⟩, hw1, hw2, ?_⟩
  · intro k j h hp
    rcases hc1 k j h with h1 | h1
    · exact hinv.2 k j h1 hp
    · exact hw2 k j h1 hp
  · intro honly
    have hw3' := hw3 (honly.2 jid s hjob)
    refine ⟨⟨hpool', ?_⟩, hw3'⟩
    intro k j h hne
    rcases hc1 k j h with h1 | h1
    · exact honly.2 k j h1 hne
    · exact hw3' k j h1 hne

/-- The store with job `j1` and pool row `i1` holds no private key. -/
theorem warmStore_keysCleared : KeysCleared warmStore := by
  refine ⟨?_, ?_⟩
  · intro k p h
    rw [(warmStore_pool k p h).2]
    rfl
  · intro jid j h _
    rw [(warmStore_jobs jid j h).2]
    rfl

/-- The only Job row of `keyedStore` is `keyedJob`. -/
theorem keyedStore_jobs (jid : String) (j : State) (h : keyedStore.jobs jid = some j) :
    jid = createdID ∧ j = keyedJob := by
  by_cases hk : jid = createdID
  · simp only [keyedStore, hk, if_true, Option.some.injEq] at h
    exact ⟨hk, h.symm⟩
  · simp [keyedStore, hk] at h

/-- The store holding the MUST_LAUNCH job `keyedJob` and its private key has no key in a
PoolInstance row or in a Job row past the launch. -/
theorem keyedStore_keysCleared : KeysCleared keyedStore := by
  refine ⟨?_, ?_⟩
  · intro k p h
    cases h
  · intro jid j h hp
    rw [(keyedStore_jobs jid j h).2] at hp
    exact absurd hp mustLaunch_not_pastLaunch

/-- The only private key of `keyedStore` is in a MUST_LAUNCH job. -/
theorem keyedStore_keyOnly : KeyOnlyInMustLaunch keyedStore := by
  refine ⟨?_, ?_⟩
  · intro k p h
    cases h
  · intro jid j h _
    rw [(keyedStore_jobs jid j h).2]
    rfl

/-- C5 at concrete inputs. The NEW step of the job `Create` saved stores the MUST_LAUNCH job
`keyedJob` with the private key 45, 49; in the store holding that job the launch step
writes the job as LAUNCHING with the key cleared and the certificate and auth code kept, and
the predicates hold before and after. The predicate also survives job `j1` adopting the
pool row `i1`. -/
theorem private_key_cleared_after_launch_witness :
    processJobTxn calmEnv createdStore createdID emptyPoolScratch
      = .ok (keyStep, createdStore.commit keyStep) ∧
    (createdStore.commit keyStep).jobs createdID = some keyedJob ∧
    keyedStore.jobs createdID = some keyedJob ∧
    keyedJob.Status = StatusMustLaunchInstance ∧ keyedJob.Instance.PrivateKey = [45, 49] ∧
    KeysCleared keyedStore ∧ KeyOnlyInMustLaunch keyedStore ∧
    processJobTxn calmEnv keyedStore createdID emptyPoolScratch
      = .ok (launchStep, keyedStore.commit launchStep) ∧
    (∃ j, (keyedStore.commit launchStep).jobs createdID = some j ∧
      j.Status = StatusLaunchingInstance ∧ j.Instance.PrivateKey = [] ∧
      j.Instance.Certificate = [45, 48] ∧ j.Instance.AuthCode = createdID) ∧
    KeysCleared (keyedStore.commit launchStep) ∧
    (∀ k j, Entity.job k j ∈ launchStep.puts → pastLaunch j.Status →
      j.Instance.PrivateKey = []) ∧
    KeyOnlyInMustLaunch (keyedStore.commit launchStep) ∧
    KeysCleared warmStore ∧
    processJobTxn calmEnv warmStore "j1" warmScratch
      = .ok (adoptStep, warmStore.commit adoptStep) ∧
    KeysCleared (warmStore.commit adoptStep) :=
  ⟨rfl, rfl, rfl, rfl, rfl, keyedStore_keysCleared, keyedStore_keyOnly, rfl,
    ⟨_, rfl, rfl, rfl, rfl, rfl⟩,
    (private_key_cleared_after_launch calmEnv keyedStore (keyedStore.commit launchStep)
      createdID emptyPoolScratch launchStep keyedStore_keysCleared rfl).1,
    (private_key_cleared_after_launch calmEnv keyedStore (keyedStore.commit launchStep)
      createdID emptyPoolScratch launchStep keyedStore_keysCleared rfl).2.2.1,
    ((private_key_cleared_after_launch calmEnv keyedStore (keyedStore.commit launchStep)
      createdID emptyPoolScratch launchStep keyedStore_keysCleared rfl).2.2.2
        keyedStore_keyOnly).1,
    warmStore_keysCleared, rfl,
    (private_key_cleared_after_launch calmEnv warmStore (warmStore.commit adoptStep) "j1"
      warmScratch adoptStep warmStore_keysCleared rfl).1⟩

/-! ## C6: the output reference is set exactly in the output-ready statuses -/

/-- A path returned by `storage.WriteFile` is not empty. -/
theorem WriteFile_ne_empty (env : Env) (filename : String) (data : List Nat) (path : String)
    (h : WriteFile env filename data = .ok path) : path ≠ "" := by
  unfold WriteFile at h
  cases hf : env.gcsWriteFault filename data with
  | some e => simp [hf] at h
  | none =>
    simp only [hf, Except.ok.injEq] at h
    intro hp
    have hlen : path.length = 0 := by rw [hp]; rfl
    rw [← h] at hlen
    simp only [String.length_append] at hlen
    have h4 : "/gs/".length = 4 := rfl
    omega

/-- `State.doTask` keeps the scratchpad such that a finished dream has an output path. -/
theorem doTask_dream_output (env : Env) (s : State) (task : Task) (ts ts1 : taskState)
    (err : Option Error) (hd : s.doTask env task ts = (ts1, err))
    (h : ts.DreamDone = true → ts.DreamOutputData ≠ "") :
    ts1.DreamDone = true → ts1.DreamOutputData ≠ "" := by
  cases task with
  | TaskNone => simp only [State.doTask, Prod.mk.injEq] at hd; rw [← hd.1]; exact h
  | TaskHaltProcessing => simp only [State.doTask, Prod.mk.injEq] at hd; rw [← hd.1]; exact h
  | TaskGetPoolInstances =>
    simp only [State.doTask] at hd
    cases he : (getCandidatePoolInstances env ts.PoolInstancesRetrievedBefore).2 with
    | some e => simp only [he, Prod.mk.injEq] at hd; rw [← hd.1]; exact h
    | none => simp only [he, Prod.mk.injEq] at hd; rw [← hd.1]; exact h
  | TaskCheckLiveness =>
    have hloop : ∀ (fuel i : Nat),
        (livenessLoop env s fuel i ts).1.DreamDone = ts.DreamDone ∧
        (livenessLoop env s fuel i ts).1.DreamOutputData = ts.DreamOutputData := by
      intro fuel
      induction fuel with
      | zero => intro i; exact ⟨rfl, rfl⟩
      | succ n ih =>
        intro i
        simp only [livenessLoop]
        cases s.Instance.get env i "dream" with
        | error e => exact ih (i + 1)
        | ok resp => exact ⟨rfl, rfl⟩
    obtain ⟨h1, h2⟩ := hloop 6 0
    simp only [State.doTask] at hd
    split at hd
    · split at hd
      · simp only [Prod.mk.injEq] at hd
        rw [← hd.1]
        show (livenessLoop env s 6 0 ts).1.DreamDone = true →
          (livenessLoop env s 6 0 ts).1.DreamOutputData ≠ ""
        rw [h1, h2]; exact h
      · simp only [Prod.mk.injEq] at hd
        rw [← hd.1, h1, h2]; exact h
    · simp only [Prod.mk.injEq] at hd
      rw [← hd.1, h1, h2]; exact h
  | TaskDream =>
    simp only [State.doTask] at hd
    cases hr : env.readFile s.InputData with
    | error e => simp only [hr, Prod.mk.injEq] at hd; rw [← hd.1]; exact h
    | ok inputData =>
      simp only [hr] at hd
      cases hpost : s.Instance.postFile env ("dream?auth_code=" ++ s.Instance.AuthCode) "image"
          inputData with
      | error e => simp only [hpost, Prod.mk.injEq] at hd; rw [← hd.1]; exact h
      | ok resp =>
        simp only [hpost] at hd
        by_cases hcode : resp.StatusCode = 200
        · simp only [hcode, ne_eq, not_true_eq_false, if_false] at hd
          cases hb : resp.Body with
          | error e => simp only [hb, Prod.mk.injEq] at hd; rw [← hd.1]; exact h
          | ok resultData =>
            simp only [hb] at hd
            cases hw : WriteFile env ("job/" ++ s.ID ++ "/output") resultData with
            | error e => simp only [hw, Prod.mk.injEq] at hd; rw [← hd.1]; exact h
            | ok outputDataPath =>
              simp only [hw, Prod.mk.injEq] at hd
              rw [← hd.1]
              intro _
              exact WriteFile_ne_empty env _ _ _ hw
        · simp only [ne_eq, hcode, not_false_eq_true, if_true, Prod.mk.injEq] at hd
          rw [← hd.1]; exact h

/-- In every scratchpad that `processJob` can hold, a finished dream has an output path. -/
theorem scratch_dream_output (ts : taskState) (h : ScratchReachable ts) :
    ts.DreamDone = true → ts.DreamOutputData ≠ "" := by
  induction h with
  | zero => intro hd; exact absurd hd (by decide)
  | task env s task ts ts1 _ hd ih => exact doTask_dream_output env s task ts ts1 none hd ih

/-- `Status.OutputReady` is true exactly for FINISHED_WITH_INSTANCE and DONE. -/
theorem outputReady_iff (st : Status) :
    Status.OutputReady st = true ↔ (st = StatusFinishedWithInstance ∨ st = StatusDone) := by
  unfold Status.OutputReady
  by_cases h1 : st = StatusFinishedWithInstance
  · simp [h1]
  · by_cases h2 : st = StatusDone
    · simp [h2]
    · simp [h1, h2]

/-- A step that keeps the output reference and moves between statuses that are not
output-ready keeps `OutputMatchesStatus`. -/
theorem outputMatches_not_ready (s s1 : State) (h : OutputMatchesStatus s)
    (hout : s1.OutputData = s.OutputData)
    (hs : ¬ (s.Status = StatusFinishedWithInstance ∨ s.Status = StatusDone))
    (hs1 : ¬ (s1.Status = StatusFinishedWithInstance ∨ s1.Status = StatusDone)) :
    OutputMatchesStatus s1 := by
  unfold OutputMatchesStatus at *
  rw [hout]
  constructor
  · intro hne
    exact absurd (h.mp hne) hs
  · intro hst
    exact absurd hst hs1

/-- A successful step with a scratchpad in which a finished dream has an output path keeps
`OutputMatchesStatus`. -/
theorem step_outputMatches (env : Env) (pool : String → Option PoolInstance) (s : State)
    (ts : taskState) (r : StepResult) (hproc : s.process env pool ts = .ok r)
    (hts : ts.DreamDone = true → ts.DreamOutputData ≠ "") (h : OutputMatchesStatus s) :
    OutputMatchesStatus r.state := by
  have hshape := process_ok_shape env pool s ts r hproc
  cases hshape with
  | halt _ => exact h
  | getPool _ _ => exact h
  | checkLiveness _ _ => exact h
  | dream _ _ => exact h
  | unknown => exact h
  | mustLaunch hs =>
    refine outputMatches_not_ready s _ h rfl ?_ ?_
    · rw [hs]; decide
    · show ¬ (StatusMustLaunchInstance = StatusFinishedWithInstance ∨
        StatusMustLaunchInstance = StatusDone)
      decide
  | adopt hs =>
    refine outputMatches_not_ready s _ h rfl ?_ ?_
    · rw [hs]; decide
    · show ¬ (StatusHaveInstance = StatusFinishedWithInstance ∨ StatusHaveInstance = StatusDone)
      decide
  | allMiss hs =>
    refine outputMatches_not_ready s _ h rfl ?_ ?_
    · rw [hs]; decide
    · show ¬ (StatusHaveInstance = StatusFinishedWithInstance ∨ StatusHaveInstance = StatusDone)
      decide
  | launch hs =>
    refine outputMatches_not_ready s _ h rfl ?_ ?_
    · rw [hs]; decide
    · show ¬ (StatusLaunchingInstance = StatusFinishedWithInstance ∨
        StatusLaunchingInstance = StatusDone)
      decide
  | failed hs =>
    refine outputMatches_not_ready s _ h rfl ?_ ?_
    · rw [hs]; decide
    · show ¬ (StatusFailed = StatusFinishedWithInstance ∨ StatusFailed = StatusDone)
      decide
  | live hs =>
    refine outputMatches_not_ready s _ h rfl ?_ ?_
    · rw [hs]; decide
    · show ¬ (StatusHaveInstance = StatusFinishedWithInstance ∨ StatusHaveInstance = StatusDone)
      decide
  | finished hs hd =>
    show ts.DreamOutputData ≠ "" ↔
      (StatusFinishedWithInstance = StatusFinishedWithInstance ∨
        StatusFinishedWithInstance = StatusDone)
    exact ⟨fun _ => Or.inl rfl, fun _ => hts hd⟩
  | done hs =>
    show s.OutputData ≠ "" ↔
      (StatusDone = StatusFinishedWithInstance ∨ StatusDone = StatusDone)
    exact ⟨fun _ => Or.inr rfl, fun _ => h.mpr (Or.inl hs)⟩

/-- Any sequence of steps with such scratchpads keeps `OutputMatchesStatus`. -/
theorem runSteps_outputMatches (inputs : List StepInput) :
    ∀ s : State, OutputMatchesStatus s →
      (∀ x ∈ inputs, x.ts.DreamDone = true → x.ts.DreamOutputData ≠ "") →
      OutputMatchesStatus (runSteps s inputs).1 := by
  induction inputs with
  | nil => intro s h _; exact h
  | cons x rest ih =>
    intro s h hts
    have hrest : ∀ y ∈ rest, y.ts.DreamDone = true → y.ts.DreamOutputData ≠ "" :=
      fun y hy => hts y (List.mem_cons_of_mem _ hy)
    simp only [runSteps]
    cases hp : s.process x.env x.pool x.ts with
    | error e => exact ih s h hrest
    | ok r =>
      exact ih r.state
        (step_outputMatches x.env x.pool s x.ts r hp (hts x (List.mem_cons_self _ _)) h) hrest

/-- C6: a job saved by `Create` (its put succeeding) has status NEW and an empty output
reference, and after any
sequence of `State.process` transactions whose scratchpads are ones `State.doTask` produces
(failed transactions being rolled back), its persisted OutputData is non-empty exactly when
its status is FINISHED_WITH_INSTANCE or DONE, which is exactly when `Status.OutputReady`
returns true. -/
theorem output_set_iff_output_ready (env : Env) (db db0 : Datastore) (inputData id : String)
    (inputs : List StepInput) (hcreate : Create env db inputData = .ok (id, db0))
    (hput : env.putFault = none) (hts : ∀ x ∈ inputs, ScratchReachable x.ts) :
    ∃ s0, db0.jobs id = some s0 ∧ s0.Status = StatusNew ∧ s0.OutputData = "" ∧
      ((runSteps s0 inputs).1.OutputData ≠ "" ↔
        ((runSteps s0 inputs).1.Status = StatusFinishedWithInstance ∨
          (runSteps s0 inputs).1.Status = StatusDone)) ∧
      ((runSteps s0 inputs).1.OutputData ≠ "" ↔
        Status.OutputReady (runSteps s0 inputs).1.Status = true) := by
  unfold Create at hcreate
  cases hg : generateRandStr env 64 with
  | error e => simp [hg] at hcreate
  | ok newID =>
    cases hf : env.putFault with
    | some e => rw [hf] at hput; cases hput
    | none =>
      simp only [hg, hf, Except.ok.injEq, Prod.mk.injEq] at hcreate
      obtain ⟨h1, h2⟩ := hcreate
      subst h1
      subst h2
      have h0 : OutputMatchesStatus
          { ID := newID, Status := StatusNew, InputData := inputData, OutputData := "",
            Instance := Instance.zero } := by
        unfold OutputMatchesStatus
        constructor
        · intro hne; exact absurd rfl hne
        · intro hst
          rcases hst with h | h
          · exact absurd (show StatusNew = StatusFinishedWithInstance from h) (by decide)
          · exact absurd (show StatusNew = StatusDone from h) (by decide)
      have hrun := runSteps_outputMatches inputs _ h0
        (fun x hx => scratch_dream_output x.ts (hts x hx))
      refine ⟨_, ?_, rfl, rfl, hrun, ?_⟩
      · show (if newID = newID then some _ else db.jobs newID) = some _
        rw [if_pos rfl]
      · rw [outputReady_iff]
        exact hrun

/-- Every scratchpad that `processJob` hands to `doTask`, started from a scratchpad
`processJob` can hold, is one it can hold. -/
theorem processJob_scratchpads_reachable (envs : Nat → Env) (jobID : String) (fuel : Nat) :
    ∀ (i : Nat) (ts : taskState) (db : Datastore) (run : JobRun),
      ScratchReachable ts → processJob envs jobID fuel i ts db = some run →
      ∀ t ∈ run.scratchpads, ScratchReachable t := by
  induction fuel with
  | zero =>
    intro i ts db run _ h
    simp [processJob] at h
  | succ n ih =>
    intro i ts db run hr h
    simp only [processJob] at h
    cases htxn : processJobTxn (envs i) db jobID ts with
    | error e =>
      simp only [htxn, Option.some.injEq] at h
      rw [← h]
      exact fun t ht => absurd ht (List.not_mem_nil t)
    | ok rdb =>
      obtain ⟨r, db1⟩ := rdb
      have hsingle : ∀ t ∈ [ts], ScratchReachable t := by
        intro t ht
        rw [List.mem_singleton.mp ht]
        exact hr
      simp only [htxn] at h
      cases hd : r.state.doTask (envs i) r.task ts with
      | mk ts1 err =>
        simp only [hd] at h
        cases err with
        | some e =>
          simp only [Option.some.injEq] at h
          rw [← h]
          exact hsingle
        | none =>
          by_cases hh : r.task = Task.TaskHaltProcessing
          · simp only [if_pos hh, Option.some.injEq] at h
            rw [← h]
            exact hsingle
          · simp only [if_neg hh] at h
            cases hrec : processJob envs jobID n (i + 1) ts1 db1 with
            | none => simp [hrec] at h
            | some run1 =>
              simp only [hrec, Option.map_some', Option.some.injEq] at h
              have hr1 : ScratchReachable ts1 :=
                ScratchReachable.task (envs i) r.state r.task ts ts1 hr hd
              rw [← h]
              intro t ht
              have ht' : t ∈ ts :: run1.scratchpads := ht
              rcases List.mem_cons.mp ht' with h1 | h1
              · rw [h1]
                exact hr
              · exact ih (i + 1) ts1 db1 run1 hr1 hrec t h1

/-- The scratchpads of the cold start are ones `State.doTask` produces. -/
theorem coldInputs_reachable : ∀ x ∈ coldInputs, ScratchReachable x.ts := by
  intro x hx
  unfold coldInputs at hx
  cases hrun : coldRun with
  | none =>
    rw [hrun] at hx
    exact absurd hx (List.not_mem_nil x)
  | some run =>
    rw [hrun] at hx
    obtain ⟨t, ht, hxt⟩ := List.mem_map.mp hx
    rw [← hxt]
    exact processJob_scratchpads_reachable (fun _ => calmEnv) createdID 9 0 taskState.zero
      createdStore run ScratchReachable.zero hrun t ht

/-- The scratchpads of the first transactions of the cold start are ones `State.doTask`
produces. -/
theorem coldInputs_take_reachable (n : Nat) :
    ∀ x ∈ coldInputs.take n, ScratchReachable x.ts :=
  fun x hx => coldInputs_reachable x (List.mem_of_mem_take hx)

/-- C6 at a concrete input: the job `Create` saved in the empty datastore, stepped through
the nine transactions of its cold start. After six of them it is HAVE_INSTANCE with no
output reference; after seven it is FINISHED_WITH_INSTANCE and after all nine DONE, both
with the output reference that `storage.WriteFile` returned. -/
theorem output_set_iff_output_ready_witness :
    Create calmEnv Datastore.empty "in" = .ok (createdID, createdStore) ∧
    calmEnv.putFault = none ∧
    (∀ x ∈ coldInputs, ScratchReachable x.ts) ∧
    coldInputs.length = 9 ∧
    createdStore.jobs createdID = some createdJob ∧
    (runSteps createdJob (coldInputs.take 6)).1.Status = StatusHaveInstance ∧
    (runSteps createdJob (coldInputs.take 6)).1.OutputData = "" ∧
    Status.OutputReady StatusHaveInstance = false ∧
    (runSteps createdJob (coldInputs.take 7)).1.Status = StatusFinishedWithInstance ∧
    (runSteps createdJob (coldInputs.take 7)).1.OutputData
      = "/gs/bucket/job/" ++ createdID ++ "/output" ∧
    Status.OutputReady StatusFinishedWithInstance = true ∧
    (runSteps createdJob coldInputs).1.Status = StatusDone ∧
    (runSteps createdJob coldInputs).1.OutputData
      = "/gs/bucket/job/" ++ createdID ++ "/output" ∧
    Status.OutputReady StatusDone = true ∧
    (∃ s0, createdStore.jobs createdID = some s0 ∧ s0.Status = StatusNew ∧
      s0.OutputData = "" ∧
      ((runSteps s0 (coldInputs.take 7)).1.OutputData ≠ "" ↔
        ((runSteps s0 (coldInputs.take 7)).1.Status = StatusFinishedWithInstance ∨
          (runSteps s0 (coldInputs.take 7)).1.Status = StatusDone)) ∧
      ((runSteps s0 (coldInputs.take 7)).1.OutputData ≠ "" ↔
        Status.OutputReady (runSteps s0 (coldInputs.take 7)).1.Status = true)) ∧
    ∃ s0, createdStore.jobs createdID = some s0 ∧ s0.Status = StatusNew ∧ s0.OutputData = "" ∧
      ((runSteps s0 coldInputs).1.OutputData ≠ "" ↔
        ((runSteps s0 coldInputs).1.Status = StatusFinishedWithInstance ∨
          (runSteps s0 coldInputs).1.Status = StatusDone)) ∧
      ((runSteps s0 coldInputs).1.OutputData ≠ "" ↔
        Status.OutputReady (runSteps s0 coldInputs).1.Status = true) :=
  ⟨rfl, rfl, coldInputs_reachable, rfl, rfl, rfl, rfl, rfl, rfl, rfl, rfl, rfl, rfl, rfl,
    output_set_iff_output_ready calmEnv Datastore.empty createdStore "in" createdID
      (coldInputs.take 7) rfl rfl (coldInputs_take_reachable 7),
    output_set_iff_output_ready calmEnv Datastore.empty createdStore "in" createdID
      coldInputs rfl rfl coldInputs_reachable⟩

/-! ## C7 and C8: the per-candidate transaction of the shrinker -/

/-- C7: when the candidate's PoolInstance row has `launchTime > now − 50 min`, `now` being
the clock read inside the transaction, the per-candidate transaction of `ShrinkPool` deletes
nothing and enqueues nothing, whatever the row's `poolAddTime` and the query bound: the pool
and the queue are as before and the row is still there. -/
theorem shrink_spares_recent_launch (env : Env) (maxPoolAddTime : Time) (db : Datastore)
    (candidateKey : String) (p : PoolInstance) (hrow : db.pool candidateKey = some p)
    (hyoung : p.Instance.LaunchTime > env.now - 50 * Minute) :
    (∀ r, shrinkCandidate env maxPoolAddTime db.pool candidateKey = .ok r →
      r.deletes = [] ∧ r.calls = []) ∧
    (shrinkTxn env maxPoolAddTime db candidateKey).pool = db.pool ∧
    (shrinkTxn env maxPoolAddTime db candidateKey).pool candidateKey = some p ∧
    (shrinkTxn env maxPoolAddTime db candidateKey).queue = db.queue := by
  have hlt : env.now + -(Minute * 50) < p.Instance.LaunchTime := by
    have : env.now - 50 * Minute < p.Instance.LaunchTime := hyoung
    linarith
  have hcand : shrinkCandidate env maxPoolAddTime db.pool candidateKey
        = .ok { deletes := [], calls := [] } ∨
      ∃ e, shrinkCandidate env maxPoolAddTime db.pool candidateKey = .error e := by
    unfold shrinkCandidate getPoolInstance
    cases hf : env.getFault 0 with
    | some e =>
      by_cases he : e = Error.noSuchEntity
      · left; simp [he]
      · right; exact ⟨e, by simp [he]⟩
    | none =>
      simp only [hrow]
      by_cases hadd : maxPoolAddTime < p.PoolAddTime
      · left; simp [hadd]
      · left; simp [hadd, hlt]
  have htxn : (shrinkTxn env maxPoolAddTime db candidateKey).pool = db.pool ∧
      (shrinkTxn env maxPoolAddTime db candidateKey).queue = db.queue := by
    unfold shrinkTxn
    rcases hcand with h | ⟨e, h⟩
    · rw [h]; simp
    · rw [h]; exact ⟨rfl, rfl⟩
  refine ⟨?_, htxn.1, ?_, htxn.2⟩
  · intro r hr
    rcases hcand with h | ⟨e, h⟩
    · rw [h] at hr
      cases hr
      exact ⟨rfl, rfl⟩
    · rw [h] at hr
      cases hr
  · rw [htxn.1]; exact hrow

/-- C7 at scenario S5 of the specification: a row added 20 minutes and launched 40 minutes
before the clock reading is left in the pool and nothing is enqueued. -/
theorem shrink_spares_recent_launch_witness :
    (∀ r, shrinkCandidate lateEnv (lateEnv.now - 15 * Minute)
        (poolOf (lateEnv.now - 20 * Minute) (lateEnv.now - 40 * Minute)).pool "i5" = .ok r →
      r.deletes = [] ∧ r.calls = []) ∧
    (shrinkTxn lateEnv (lateEnv.now - 15 * Minute)
        (poolOf (lateEnv.now - 20 * Minute) (lateEnv.now - 40 * Minute)) "i5").pool
      = (poolOf (lateEnv.now - 20 * Minute) (lateEnv.now - 40 * Minute)).pool ∧
    (shrinkTxn lateEnv (lateEnv.now - 15 * Minute)
        (poolOf (lateEnv.now - 20 * Minute) (lateEnv.now - 40 * Minute)) "i5").pool "i5"
      = some (poolRow (lateEnv.now - 20 * Minute) (lateEnv.now - 40 * Minute)) ∧
    (shrinkTxn lateEnv (lateEnv.now - 15 * Minute)
        (poolOf (lateEnv.now - 20 * Minute) (lateEnv.now - 40 * Minute)) "i5").queue
      = (poolOf (lateEnv.now - 20 * Minute) (lateEnv.now - 40 * Minute)).queue :=
  shrink_spares_recent_launch lateEnv (lateEnv.now - 15 * Minute)
    (poolOf (lateEnv.now - 20 * Minute) (lateEnv.now - 40 * Minute)) "i5" _ rfl (by decide)

/-- C8 as stated fails at the boundary: with the clock at 100 minutes, a row added 20 minutes
ago and launched exactly 50 minutes ago is deleted and its termination enqueued, although
`launchTime < now − 50 min` does not hold. -/
theorem shrink_strict_bound_counterexample :
    ¬ (((shrinkTxn lateEnv (lateEnv.now - 15 * Minute)
            (poolOf (lateEnv.now - 20 * Minute) (lateEnv.now - 50 * Minute)) "i5").pool "i5"
          = none ∧
        (shrinkTxn lateEnv (lateEnv.now - 15 * Minute)
            (poolOf (lateEnv.now - 20 * Minute) (lateEnv.now - 50 * Minute)) "i5").queue
          = ["i5"]) ↔
      ∃ p, (poolOf (lateEnv.now - 20 * Minute) (lateEnv.now - 50 * Minute)).pool "i5" = some p ∧
        p.PoolAddTime < lateEnv.now - 15 * Minute ∧
        p.Instance.LaunchTime < lateEnv.now - 50 * Minute) := by
  intro h
  obtain ⟨p, hp, _, hlt⟩ := h.mp ⟨rfl, rfl⟩
  have hp' : p = poolRow (lateEnv.now - 20 * Minute) (lateEnv.now - 50 * Minute) := by
    have : some (poolRow (lateEnv.now - 20 * Minute) (lateEnv.now - 50 * Minute)) = some p := hp
    exact (Option.some.inj this).symm
  rw [hp'] at hlt
  exact absurd hlt (by decide)

/-- C8 (amended): the per-candidate transaction of `ShrinkPool` deletes the candidate's
PoolInstance row and enqueues `terminateInstance` for its instance id exactly when the row is
still present, the datastore read and delete succeed, `poolAddTime ≤ maxPoolAddTime` (the
query bound, clock − 15 min) and `launchTime ≤ now − 50 min`, neither inequality strict; in
every other case the pool and the queue are unchanged. So the row is deleted if and only if
a terminate call for its id is enqueued. -/
theorem shrink_deletes_iff (env : Env) (maxPoolAddTime : Time) (db : Datastore)
    (candidateKey : String) :
    (∃ p, db.pool candidateKey = some p ∧ env.getFault 0 = none ∧ env.deleteFault = none ∧
        p.PoolAddTime ≤ maxPoolAddTime ∧ p.Instance.LaunchTime ≤ env.now - 50 * Minute ∧
        (shrinkTxn env maxPoolAddTime db candidateKey).pool
          = (fun k => if k = candidateKey then none else db.pool k) ∧
        (shrinkTxn env maxPoolAddTime db candidateKey).queue = db.queue ++ [p.Instance.ID]) ∨
    ((¬ ∃ p, db.pool candidateKey = some p ∧ env.getFault 0 = none ∧ env.deleteFault = none ∧
        p.PoolAddTime ≤ maxPoolAddTime ∧ p.Instance.LaunchTime ≤ env.now - 50 * Minute) ∧
      (shrinkTxn env maxPoolAddTime db candidateKey).pool = db.pool ∧
      (shrinkTxn env maxPoolAddTime db candidateKey).queue = db.queue) := by
  cases hf : env.getFault 0 with
  | some e =>
    right
    refine ⟨?_, ?_⟩
    · rintro ⟨p, _, h, _⟩
      cases h
    · unfold shrinkTxn shrinkCandidate getPoolInstance
      by_cases he : e = Error.noSuchEntity
      · simp [hf, he]
      · simp [hf, he]
  | none =>
    cases hrow : db.pool candidateKey with
    | none =>
      right
      refine ⟨?_, ?_⟩
      · rintro ⟨p, h, _⟩
        cases h
      · unfold shrinkTxn shrinkCandidate getPoolInstance
        simp [hf, hrow]
    | some p =>
      by_cases hadd : maxPoolAddTime < p.PoolAddTime
      · right
        refine ⟨?_, ?_⟩
        · rintro ⟨q, hq, _, _, hle, _⟩
          cases hq
          exact absurd hadd (not_lt.mpr hle)
        · unfold shrinkTxn shrinkCandidate getPoolInstance
          simp [hf, hrow, hadd]
      · by_cases hl : env.now + -(Minute * 50) < p.Instance.LaunchTime
        · right
          refine ⟨?_, ?_⟩
          · rintro ⟨q, hq, _, _, _, hle⟩
            cases hq
            have : p.Instance.LaunchTime ≤ env.now - 50 * Minute := hle
            linarith
          · unfold shrinkTxn shrinkCandidate getPoolInstance
            simp [hf, hrow, hadd, hl]
        · cases hd : env.deleteFault with
          | some e =>
            right
            refine ⟨?_, ?_⟩
            · rintro ⟨q, _, _, h, _⟩
              cases h
            · unfold shrinkTxn shrinkCandidate getPoolInstance
              simp [hf, hrow, hadd, hl, hd]
          | none =>
            left
            refine ⟨p, rfl, rfl, rfl, not_lt.mp hadd, ?_, ?_⟩
            · have := not_lt.mp hl
              linarith
            · unfold shrinkTxn shrinkCandidate getPoolInstance
              simp [hf, hrow, hadd, hl, hd, Datastore.delete]

/-! ## C9: candidate selection -/

/-- On results ordered by add time, newest first, the counted prefix is exactly the results
not older than the bound. -/
theorem take_candidateCount (minAddTime : Time) (l : List (String × Time))
    (hsorted : l.Pairwise (fun a b => b.2 ≤ a.2)) :
    l.take (candidateCount minAddTime l) = l.filter (fun r => decide (minAddTime ≤ r.2)) := by
  induction l with
  | nil => rfl
  | cons v rest ih =>
    have hrest := List.Pairwise.of_cons hsorted
    have hle : ∀ b ∈ rest, b.2 ≤ v.2 := fun b hb => List.rel_of_pairwise_cons hsorted hb
    by_cases hv : v.2 < minAddTime
    · have hnil : rest.filter (fun r => decide (minAddTime ≤ r.2)) = [] := by
        rw [List.filter_eq_nil_iff]
        intro b hb
        have := hle b hb
        simp only [decide_eq_true_eq, not_le]
        exact lt_of_le_of_lt this hv
      have hvn : ¬ minAddTime ≤ v.2 := not_le.mpr hv
      simp [candidateCount, hv, List.filter_cons, hvn, hnil]
    · have hvn : minAddTime ≤ v.2 := not_lt.mp hv
      simp [candidateCount, hv, List.filter_cons, hvn, ih hrest]

/-- C9: when the query returns results ordered by `poolAddTime` descending,
`getCandidatePoolInstances` returns without error, in query order, the keys of exactly the
results whose `poolAddTime ≥ first.poolAddTime − Δ`, with Δ = 5 s, or 25 s on retry; the
returned list is a prefix of the keys of the query results, starts with the first result's
key when there is one, and is the empty (non-nil) list when the query returns nothing. The
query's limit of 100 plays no part. -/
theorem candidates_are_window_prefix (env : Env) (retry : Bool)
    (results : List (String × Time)) (hq : env.queryNewest = .ok results)
    (hsorted : results.Pairwise (fun a b => b.2 ≤ a.2)) :
    ∃ keys, getCandidatePoolInstances env retry = (some keys, none) ∧
      keys <+: results.map Prod.fst ∧
      (results = [] → keys = []) ∧
      (∀ first rest, results = first :: rest →
        keys = ((first :: rest).filter
                  (fun r => decide (first.2 - windowDelta retry ≤ r.2))).map Prod.fst ∧
        keys.head? = some first.1) := by
  cases results with
  | nil =>
    refine ⟨[], ?_, List.nil_prefix, fun _ => rfl, ?_⟩
    · simp [getCandidatePoolInstances, hq]
    · intro first rest h
      cases h
  | cons f rs =>
    have hdelta : (if retry then 5 * Second * 5 else 5 * Second) = windowDelta retry := by
      cases retry <;> simp [windowDelta, Second]
    have hpos : 0 < windowDelta retry := by
      cases retry <;> simp [windowDelta, Second]
    have htake := take_candidateCount (f.2 - windowDelta retry) (f :: rs) hsorted
    refine ⟨((f :: rs).take (candidateCount (f.2 - windowDelta retry) (f :: rs))).map Prod.fst,
      ?_, (List.take_prefix _ _).map Prod.fst, ?_, ?_⟩
    · simp only [getCandidatePoolInstances, hq, hdelta]
    · intro h
      cases h
    · intro first rest h
      cases h
      rw [htake]
      refine ⟨rfl, ?_⟩
      have hf : f.2 - windowDelta retry ≤ f.2 := by linarith
      have hfil : (f :: rs).filter (fun r => decide (f.2 - windowDelta retry ≤ r.2))
          = f :: rs.filter (fun r => decide (f.2 - windowDelta retry ≤ r.2)) :=
        List.filter_cons_of_pos (decide_eq_true hf)
      rw [hfil]
      rfl

/-- C9 at a concrete input: of results added at 10 s, 7 s and 1 s the first two lie in the
5 s window. -/
theorem candidates_are_window_prefix_witness :
    recentQuery.Pairwise (fun a b => b.2 ≤ a.2) ∧
    getCandidatePoolInstances queryEnv false = (some ["a", "b"], none) ∧
    ∃ keys, getCandidatePoolInstances queryEnv false = (some keys, none) ∧
      keys <+: recentQuery.map Prod.fst ∧
      (recentQuery = [] → keys = []) ∧
      (∀ first rest, recentQuery = first :: rest →
        keys = ((first :: rest).filter
                  (fun r => decide (first.2 - windowDelta false ≤ r.2))).map Prod.fst ∧
        keys.head? = some first.1) :=
  ⟨by decide, by decide,
    candidates_are_window_prefix queryEnv false recentQuery rfl (by decide)⟩

/-! ## C10: the liveness task -/

/-- The liveness loop issues at most as many probes as it has iterations. -/
theorem livenessLoop_count_le (env : Env) (s : State) (ts : taskState) (fuel : Nat) :
    ∀ i, (livenessLoop env s fuel i ts).2 ≤ fuel := by
  induction fuel with
  | zero => intro i; exact Nat.le_refl 0
  | succ n ih =>
    intro i
    simp only [livenessLoop]
    cases s.Instance.get env i "dream" with
    | error e => exact Nat.succ_le_succ (ih (i + 1))
    | ok resp => exact Nat.succ_le_succ (Nat.zero_le n)

/-- When every probe fails, the loop leaves the scratchpad alone and uses all iterations. -/
theorem livenessLoop_all_fail (env : Env) (s : State) (ts : taskState) (fuel : Nat) :
    ∀ i, (∀ j, j < fuel → ∃ e, s.Instance.get env (i + j) "dream" = .error e) →
      livenessLoop env s fuel i ts = (ts, fuel) := by
  induction fuel with
  | zero => intro i _; rfl
  | succ n ih =>
    intro i h
    obtain ⟨e, he⟩ := h 0 (Nat.succ_pos n)
    have hrest := ih (i + 1) (fun j hj => by
      have := h (j + 1) (Nat.succ_lt_succ hj)
      rwa [Nat.add_assoc, Nat.add_comm 1 j])
    simp only [Nat.add_zero] at he
    simp only [livenessLoop, he, hrest]

/-- The loop stops at the first probe that returns and records its result. -/
theorem livenessLoop_first_return (env : Env) (s : State) (ts : taskState)
    (resp : HttpResponse) (fuel : Nat) :
    ∀ i k, k < fuel →
      (∀ j, j < k → ∃ e, s.Instance.get env (i + j) "dream" = .error e) →
      s.Instance.get env (i + k) "dream" = .ok resp →
      livenessLoop env s fuel i ts =
        ({ ts with LivenessChecked := true, LivenessCheckSuccess := true,
                   LivenessCheckPublicIP := hostWithoutPort resp.RequestHost }, k + 1) := by
  induction fuel with
  | zero => intro i k hk; exact absurd hk (Nat.not_lt_zero k)
  | succ n ih =>
    intro i k hk hfail hok
    cases k with
    | zero =>
      simp only [Nat.add_zero] at hok
      simp only [livenessLoop, hok]
    | succ m =>
      obtain ⟨e, he⟩ := hfail 0 (Nat.succ_pos m)
      simp only [Nat.add_zero] at he
      have hrest := ih (i + 1) m (Nat.lt_of_succ_lt_succ hk)
        (fun j hj => by
          have := hfail (j + 1) (Nat.succ_lt_succ hj)
          rwa [Nat.add_assoc, Nat.add_comm 1 j])
        (by rwa [Nat.add_assoc, Nat.add_comm 1 m])
      simp only [livenessLoop, he, hrest]

/-- The part of `ip:8080` before the colon is `ip`, for an address without a colon. -/
theorem hostWithoutPort_ip (ip : String) (h : ':' ∉ ip.toList) :
    hostWithoutPort (ip ++ ":8080") = ip := by
  have hlist : ∀ l : List Char, ':' ∉ l →
      (l ++ ":8080".toList).takeWhile (fun c => decide (c ≠ ':')) = l := by
    intro l
    induction l with
    | nil => intro _; rfl
    | cons c rest ih =>
      intro hc
      have hne : c ≠ ':' := fun e => hc (e ▸ List.mem_cons_self _ _)
      have hrest : ':' ∉ rest := fun hm => hc (List.mem_cons_of_mem _ hm)
      simp only [List.cons_append, List.takeWhile_cons, hne, ne_eq, not_false_eq_true,
        decide_True, if_true, ih hrest]
  unfold hostWithoutPort
  have happ : (ip ++ ":8080").toList = ip.toList ++ ":8080".toList := String.data_append _ _
  rw [happ, hlist ip.toList h]
  rfl

/-- `State.doTask` keeps the scratchpad such that a successful liveness check is a finished
one. -/
theorem doTask_liveness_flags (env : Env) (s : State) (task : Task) (ts ts1 : taskState)
    (err : Option Error) (hd : s.doTask env task ts = (ts1, err))
    (h : ts.LivenessCheckSuccess = true → ts.LivenessChecked = true) :
    ts1.LivenessCheckSuccess = true → ts1.LivenessChecked = true := by
  cases task with
  | TaskNone => simp only [State.doTask, Prod.mk.injEq] at hd; rw [← hd.1]; exact h
  | TaskHaltProcessing => simp only [State.doTask, Prod.mk.injEq] at hd; rw [← hd.1]; exact h
  | TaskGetPoolInstances =>
    simp only [State.doTask] at hd
    cases he : (getCandidatePoolInstances env ts.PoolInstancesRetrievedBefore).2 with
    | some e => simp only [he, Prod.mk.injEq] at hd; rw [← hd.1]; exact h
    | none => simp only [he, Prod.mk.injEq] at hd; rw [← hd.1]; exact h
  | TaskCheckLiveness =>
    have hloop : ∀ (fuel i : Nat),
        (livenessLoop env s fuel i ts).1.LivenessCheckSuccess = true →
        (livenessLoop env s fuel i ts).1.LivenessChecked = true := by
      intro fuel
      induction fuel with
      | zero => intro i; exact h
      | succ n ih =>
        intro i
        simp only [livenessLoop]
        cases s.Instance.get env i "dream" with
        | error e => exact ih (i + 1)
        | ok resp => exact fun _ => rfl
    simp only [State.doTask] at hd
    split at hd
    · split at hd
      · simp only [Prod.mk.injEq] at hd
        rw [← hd.1]
        exact fun _ => rfl
      · simp only [Prod.mk.injEq] at hd
        rw [← hd.1]; exact hloop 6 0
    · simp only [Prod.mk.injEq] at hd
      rw [← hd.1]; exact hloop 6 0
  | TaskDream =>
    simp only [State.doTask] at hd
    cases hr : env.readFile s.InputData with
    | error e => simp only [hr, Prod.mk.injEq] at hd; rw [← hd.1]; exact h
    | ok inputData =>
      simp only [hr] at hd
      cases hpost : s.Instance.postFile env ("dream?auth_code=" ++ s.Instance.AuthCode) "image"
          inputData with
      | error e => simp only [hpost, Prod.mk.injEq] at hd; rw [← hd.1]; exact h
      | ok resp =>
        simp only [hpost] at hd
        by_cases hcode : resp.StatusCode = 200
        · simp only [hcode, ne_eq, not_true_eq_false, if_false] at hd
          cases hb : resp.Body with
          | error e => simp only [hb, Prod.mk.injEq] at hd; rw [← hd.1]; exact h
          | ok resultData =>
            simp only [hb] at hd
            cases hw : WriteFile env ("job/" ++ s.ID ++ "/output") resultData with
            | error e => simp only [hw, Prod.mk.injEq] at hd; rw [← hd.1]; exact h
            | ok outputDataPath =>
              simp only [hw, Prod.mk.injEq] at hd
              rw [← hd.1]
              exact h
        · simp only [ne_eq, hcode, not_false_eq_true, if_true, Prod.mk.injEq] at hd
          rw [← hd.1]; exact h

/-- In every scratchpad that `processJob` can hold, a successful liveness check is a
finished one. -/
theorem scratch_liveness_flags (ts : taskState) (h : ScratchReachable ts) :
    ts.LivenessCheckSuccess = true → ts.LivenessChecked = true := by
  induction h with
  | zero => intro hd; exact absurd hd (by decide)
  | task env s task ts ts1 _ hd ih => exact doTask_liveness_flags env s task ts ts1 none hd ih

/-- In every scratchpad that `processJob` can hold, liveness that is not yet checked has not
succeeded either. -/
theorem scratch_unchecked_not_success (ts : taskState) (h : ScratchReachable ts)
    (hc : ts.LivenessChecked = false) : ts.LivenessCheckSuccess = false := by
  have hflags := scratch_liveness_flags ts h
  cases hs : ts.LivenessCheckSuccess with
  | false => rfl
  | true =>
    rw [hflags hs] at hc
    exact absurd hc (by decide)

/-- A probe that returns has resolved an address and requested `/dream` from its port
8080. -/
theorem get_ok_probe (env : Env) (k : Nat) (i : Instance) (path : String)
    (resp : HttpResponse) (h : i.get env k path = .ok resp) :
    ∃ ip, i.publicIP env k = .ok ip ∧
      env.httpGet k ("https://" ++ ip ++ ":8080/" ++ path) = .ok resp := by
  unfold Instance.get at h
  cases hip : i.publicIP env k with
  | error e => simp [hip] at h
  | ok ip =>
    simp only [hip] at h
    cases hc : i.httpClient env with
    | error e => simp [hc] at h
    | ok u =>
      simp only [hc] at h
      exact ⟨ip, rfl, h⟩

/-- C10: on a scratchpad of `processJob` in which liveness is not yet checked,
`State.doTask(CHECK_LIVENESS)` issues at most 6 probes and stops at the first that returns.
If probe `k` is the first to return, `k + 1` probes are issued and the task succeeds with
LivenessChecked = true, LivenessCheckSuccess = true and, recorded as the IP, the host
(without its port) of the request that obtained the response; the probe resolved an address
`ip` with `Instance.publicIP` and requested `https://ip:8080/dream`, and when the response
was obtained by that request (host `ip:8080`, no redirect followed) the recorded IP is the
probed `ip`. If all 6 fail and `now − launchTime > 30 min`, the task succeeds with
LivenessChecked = true and LivenessCheckSuccess = false. If all 6 fail and
`now − launchTime ≤ 30 min`, it returns an error and leaves the scratchpad, so
LivenessChecked = false. -/
theorem liveness_check_outcomes (env : Env) (s : State) (ts : taskState)
    (hr : ScratchReachable ts) (hc : ts.LivenessChecked = false) :
    (livenessLoop env s 6 0 ts).2 ≤ 6 ∧
    (∀ k resp, k < 6 →
      (∀ j, j < k → ∃ e, s.Instance.get env j "dream" = .error e) →
      s.Instance.get env k "dream" = .ok resp →
      (livenessLoop env s 6 0 ts).2 = k + 1 ∧
      s.doTask env Task.TaskCheckLiveness ts
        = ({ ts with LivenessChecked := true, LivenessCheckSuccess := true,
                     LivenessCheckPublicIP := hostWithoutPort resp.RequestHost }, none) ∧
      ∃ ip, s.Instance.publicIP env k = .ok ip ∧
        env.httpGet k ("https://" ++ ip ++ ":8080/" ++ "dream") = .ok resp ∧
        (resp.RequestHost = ip ++ ":8080" → ':' ∉ ip.toList →
          s.doTask env Task.TaskCheckLiveness ts
            = ({ ts with LivenessChecked := true, LivenessCheckSuccess := true,
                         LivenessCheckPublicIP := ip }, none))) ∧
    ((∀ j, j < 6 → ∃ e, s.Instance.get env j "dream" = .error e) →
      (livenessLoop env s 6 0 ts).2 = 6 ∧
      (env.now - s.Instance.LaunchTime > 30 * Minute →
        s.doTask env Task.TaskCheckLiveness ts = ({ ts with LivenessChecked := true }, none) ∧
        ts.LivenessCheckSuccess = false) ∧
      (env.now - s.Instance.LaunchTime ≤ 30 * Minute →
        (∃ e, s.doTask env Task.TaskCheckLiveness ts = (ts, some e)) ∧
        ts.LivenessChecked = false)) := by
  have hs : ts.LivenessCheckSuccess = false := scratch_unchecked_not_success ts hr hc
  refine ⟨livenessLoop_count_le env s ts 6 0, ?_, ?_⟩
  · intro k resp hk hfail hok
    have hloop := livenessLoop_first_return env s ts resp 6 0 k hk
      (fun j hj => by rw [Nat.zero_add]; exact hfail j hj) (by rw [Nat.zero_add]; exact hok)
    have htask : s.doTask env Task.TaskCheckLiveness ts
        = ({ ts with LivenessChecked := true, LivenessCheckSuccess := true,
                     LivenessCheckPublicIP := hostWithoutPort resp.RequestHost }, none) := by
      simp [State.doTask, hloop]
    obtain ⟨ip, hip, hget⟩ := get_ok_probe env k s.Instance "dream" resp hok
    refine ⟨by rw [hloop], htask, ip, hip, hget, ?_⟩
    intro hhost hcolon
    rw [htask, hhost, hostWithoutPort_ip ip hcolon]
  · intro hfail
    have hloop := livenessLoop_all_fail env s ts 6 0
      (fun j hj => by rw [Nat.zero_add]; exact hfail j hj)
    refine ⟨by rw [hloop], ?_, ?_⟩
    · intro hold
      have hlt : s.Instance.LaunchTime < env.now + (-30) * Minute := by
        have : env.now - s.Instance.LaunchTime > 30 * Minute := hold
        linarith
      refine ⟨?_, hs⟩
      simp [State.doTask, hloop, hs]
      linarith
    · intro hyoung
      have hnlt : ¬ s.Instance.LaunchTime < env.now + (-30) * Minute := by
        have : env.now - s.Instance.LaunchTime ≤ 30 * Minute := hyoung
        intro hlt
        linarith
      refine ⟨⟨Error.other "Gave up liveness checks, try again later.", ?_⟩, hc⟩
      simp [State.doTask, hloop, hs]
      linarith

/-- Counterexample to C10 as stated: the probe of instance `i` resolves 10.0.0.1 and
requests `https://10.0.0.1:8080/dream`; the worker redirects to 203.0.113.9, the client
follows, and the first probe returns. The task succeeds after one probe and records
203.0.113.9, which is not the probed IP. -/
theorem liveness_records_redirect_target_counterexample :
    ScratchReachable taskState.zero ∧ taskState.zero.LivenessChecked = false ∧
    launchedJob.Instance.publicIP redirectEnv 0 = .ok "10.0.0.1" ∧
    (∃ resp, launchedJob.Instance.get redirectEnv 0 "dream" = .ok resp ∧
      resp.RequestHost = "203.0.113.9:8080") ∧
    (livenessLoop redirectEnv launchedJob 6 0 taskState.zero).2 = 1 ∧
    launchedJob.doTask redirectEnv Task.TaskCheckLiveness taskState.zero
      = ({ taskState.zero with LivenessChecked := true, LivenessCheckSuccess := true,
                               LivenessCheckPublicIP := "203.0.113.9" }, none) ∧
    "203.0.113.9" ≠ "10.0.0.1" :=
  ⟨ScratchReachable.zero, rfl, rfl, ⟨_, rfl, rfl⟩, rfl, rfl, by decide⟩

/-- C10 at concrete inputs, for the job `j` launched at time 0: a worker that refuses two
probes and answers the third (three probes, the probed IP 10.0.0.1 recorded); a worker that
never answers, probed at 100 minutes (checked, not successful); and the same worker probed
at 10 minutes (an error, the scratchpad unchanged). -/
theorem liveness_check_outcomes_witness :
    ScratchReachable taskState.zero ∧ taskState.zero.LivenessChecked = false ∧
    launchedJob.Instance.publicIP slowWorkerEnv 2 = .ok "10.0.0.1" ∧
    (livenessLoop slowWorkerEnv launchedJob 6 0 taskState.zero).2 = 3 ∧
    launchedJob.doTask slowWorkerEnv Task.TaskCheckLiveness taskState.zero
      = ({ taskState.zero with LivenessChecked := true, LivenessCheckSuccess := true,
                               LivenessCheckPublicIP := "10.0.0.1" }, none) ∧
    launchedJob.doTask deadWorkerEnv Task.TaskCheckLiveness taskState.zero
      = ({ taskState.zero with LivenessChecked := true }, none) ∧
    ∃ e, launchedJob.doTask youngDeadEnv Task.TaskCheckLiveness taskState.zero
      = (taskState.zero, some e) := by
  have hslow := (liveness_check_outcomes slowWorkerEnv launchedJob taskState.zero
    ScratchReachable.zero rfl).2.1 2
    { StatusCode := 200, Status := "200 OK", RequestHost := "10.0.0.1:8080", Body := .ok [] }
    (by decide)
    (fun j hj => by
      have hj' : j = 0 ∨ j = 1 := by omega
      rcases hj' with h | h <;> rw [h] <;> exact ⟨_, rfl⟩)
    rfl
  obtain ⟨hcount, _, ip, hip, _, hrec⟩ := hslow
  have hip' : ip = "10.0.0.1" :=
    (Except.ok.inj (hip.symm.trans
      (show launchedJob.Instance.publicIP slowWorkerEnv 2 = .ok "10.0.0.1" from rfl)))
  have hdead := (liveness_check_outcomes deadWorkerEnv launchedJob taskState.zero
    ScratchReachable.zero rfl).2.2 (fun _ _ => ⟨_, rfl⟩)
  have hyoung := (liveness_check_outcomes youngDeadEnv launchedJob taskState.zero
    ScratchReachable.zero rfl).2.2 (fun _ _ => ⟨_, rfl⟩)
  refine ⟨ScratchReachable.zero, rfl, rfl, hcount, ?_, (hdead.2.1 (by decide)).1,
    (hyoung.2.2 (by decide)).1⟩
  rw [hip'] at hrec
  exact hrec rfl (by decide)

/-! ## C11: a LAUNCHING job after the liveness check -/

/-- C11: for a LAUNCHING job, when the final `PutMulti` succeeds: with LivenessChecked = true
and LivenessCheckSuccess = false, `State.process` sets the status to FAILED, calls
`terminateInstanceDelay` exactly once, with the job's instance id, and writes no
PoolInstance row; with LivenessChecked = true and LivenessCheckSuccess = true it sets the
status to HAVE_INSTANCE and `Instance.IP` to the scratchpad's resolved IP and enqueues
nothing; with LivenessChecked = false it returns CHECK_LIVENESS and writes nothing. -/
theorem launching_job_after_liveness (env : Env) (pool : String → Option PoolInstance)
    (s : State) (ts : taskState) (hs : s.Status = StatusLaunchingInstance)
    (hput : env.putFault = none) :
    (ts.LivenessChecked = true → ts.LivenessCheckSuccess = false →
      ∃ r, s.process env pool ts = .ok r ∧ r.task = Task.TaskNone ∧
        r.state = { s with Status := StatusFailed } ∧
        r.calls = [s.Instance.ID] ∧ r.deletes = [] ∧
        r.puts.filterMap Entity.asPoolInstance = [] ∧
        r.puts = [Entity.jobLog s.ID { NewStatus := StatusFailed,
                                       PrevStatus := StatusLaunchingInstance, Time := env.now },
                  Entity.job s.ID r.state]) ∧
    (ts.LivenessChecked = true → ts.LivenessCheckSuccess = true →
      ∃ r, s.process env pool ts = .ok r ∧ r.task = Task.TaskNone ∧
        r.state = { s with Status := StatusHaveInstance,
                           Instance := { s.Instance with IP := ts.LivenessCheckPublicIP } } ∧
        r.calls = [] ∧ r.deletes = [] ∧
        r.puts.filterMap Entity.asPoolInstance = []) ∧
    (ts.LivenessChecked = false →
      s.process env pool ts
        = .ok { task := Task.TaskCheckLiveness, state := s, deletes := [], puts := [],
                calls := [] }) := by
  refine ⟨?_, ?_, ?_⟩
  · intro hc hl
    simp [State.process, hs, hc, hl, hput, State.changeStatus, State.putAll,
      Entity.asPoolInstance, StatusLaunchingInstance, StatusDone, StatusFailed, StatusNew,
      StatusMustLaunchInstance]
  · intro hc hl
    simp [State.process, hs, hc, hl, hput, State.changeStatus, State.putAll,
      Entity.asPoolInstance, StatusLaunchingInstance, StatusDone, StatusFailed, StatusNew,
      StatusMustLaunchInstance]
  · intro hc
    simp [State.process, hs, hc, State.yield, StatusLaunchingInstance, StatusDone,
      StatusFailed, StatusNew, StatusMustLaunchInstance]

/-- C11 at a concrete input: a LAUNCHING job whose liveness check gave up. -/
theorem launching_job_after_liveness_witness :
    ∃ r, (jobAt "j" StatusLaunchingInstance).process calmEnv (fun _ => none)
        { taskState.zero with LivenessChecked := true } = .ok r ∧
      r.task = Task.TaskNone ∧
      r.state = { jobAt "j" StatusLaunchingInstance with Status := StatusFailed } ∧
      r.calls = [(jobAt "j" StatusLaunchingInstance).Instance.ID] ∧ r.deletes = [] ∧
      r.puts.filterMap Entity.asPoolInstance = [] ∧
      r.puts = [Entity.jobLog (jobAt "j" StatusLaunchingInstance).ID
                  { NewStatus := StatusFailed, PrevStatus := StatusLaunchingInstance,
                    Time := calmEnv.now },
                Entity.job (jobAt "j" StatusLaunchingInstance).ID r.state] :=
  (launching_job_after_liveness calmEnv (fun _ => none) (jobAt "j" StatusLaunchingInstance)
    { taskState.zero with LivenessChecked := true } rfl rfl).1 rfl rfl

/-! ## C17: status descriptions -/

/-- C17 (as the code behaves): `Status.Description` returns "Status is unknown." for
MUST_LAUNCH and for FINISHED_WITH_INSTANCE, not the messages of LAUNCHING
("Launching dream server...") and DONE ("Finished."): their `case` clauses are empty and Go
does not fall through. The other five statuses get their own message. -/
theorem description_of_empty_cases :
    Status.Description StatusMustLaunchInstance = "Status is unknown." ∧
    Status.Description StatusFinishedWithInstance = "Status is unknown." ∧
    Status.Description StatusNew = "Looking for free dream server..." ∧
    Status.Description StatusLaunchingInstance = "Launching dream server..." ∧
    Status.Description StatusHaveInstance = "Dreaming..." ∧
    Status.Description StatusDone = "Finished." ∧
    Status.Description StatusFailed = "Failed to process image." ∧
    Status.Description StatusMustLaunchInstance
      ≠ Status.Description StatusLaunchingInstance ∧
    Status.Description StatusFinishedWithInstance ≠ Status.Description StatusDone := by
  refine ⟨rfl, rfl, rfl, rfl, rfl, rfl, rfl, ?_, ?_⟩ <;> decide

/-! ## C13: random tokens -/

/-- Every character of the URL alphabet is URL-safe. -/
theorem urlAlphabet_safe : ∀ c ∈ urlAlphabet, isUrlSafeChar c = true := by
  decide

/-- A character picked from the URL alphabet is URL-safe. -/
theorem base64Char_url_safe (v : Nat) : isUrlSafeChar (base64Char urlAlphabet v) = true := by
  have hlen : urlAlphabet.length = 64 := rfl
  have hlt : v % 64 < urlAlphabet.length := by rw [hlen]; exact Nat.mod_lt _ (by decide)
  unfold base64Char
  rw [List.getD_eq_getElem _ _ hlt]
  exact urlAlphabet_safe _ (List.getElem_mem _)

/-- The encoding is at least as long as its input. -/
theorem encodeBase64_length_ge (alphabet : List Char) :
    ∀ bytes : List Nat, bytes.length ≤ (encodeBase64 alphabet bytes).length
  | [] => Nat.le_refl 0
  | [_] => by simp [encodeBase64]
  | [_, _] => by simp [encodeBase64]
  | _ :: _ :: _ :: rest => by
    have ih := encodeBase64_length_ge alphabet rest
    simp only [encodeBase64, List.length_cons, List.length_append, List.length_nil]
    omega

/-- The padding of the encoding starts after more characters than the input has bytes: the
first `bytes.length + 1` characters of the URL encoding are URL-safe. -/
theorem encodeBase64_take_safe :
    ∀ (bytes : List Nat) (m : Nat), m ≤ bytes.length + 1 →
      ∀ c ∈ (encodeBase64 urlAlphabet bytes).take m, isUrlSafeChar c = true
  | [], m, _, c, hc => by simp [encodeBase64] at hc
  | [a], m, hm, c, hc => by
    have hpre := (List.take_prefix_take_left (encodeBase64 urlAlphabet [a]) hm).subset hc
    simp only [encodeBase64, List.length_cons, List.length_nil, List.take_succ_cons,
      List.take_zero, List.mem_cons, List.mem_singleton, List.not_mem_nil, or_false] at hpre
    rcases hpre with h | h <;> rw [h] <;> exact base64Char_url_safe _
  | [a, b], m, hm, c, hc => by
    have hpre := (List.take_prefix_take_left (encodeBase64 urlAlphabet [a, b]) hm).subset hc
    simp only [encodeBase64, List.length_cons, List.length_nil, List.take_succ_cons,
      List.take_zero, List.mem_cons, List.mem_singleton, List.not_mem_nil, or_false] at hpre
    rcases hpre with h | h | h <;> rw [h] <;> exact base64Char_url_safe _
  | a :: b :: d :: rest, m, hm, c, hc => by
    simp only [encodeBase64, List.take_append_eq_append_take, List.mem_append] at hc
    rcases hc with h | h
    · have hmem := List.mem_of_mem_take h
      simp only [List.mem_cons, List.mem_singleton, List.not_mem_nil, or_false] at hmem
      rcases hmem with h1 | h1 | h1 | h1 <;> rw [h1] <;> exact base64Char_url_safe _
    · refine encodeBase64_take_safe rest _ ?_ c h
      simp only [List.length_cons, List.length_nil] at hm ⊢
      omega

/-- A successful `generateRandStr(n)` returns exactly `n` URL-safe characters. -/
theorem generateRandStr_safe (env : Env) (n : Nat) (str : String)
    (h : generateRandStr env n = .ok str) :
    str.length = n ∧ (∀ c ∈ str.toList, isUrlSafeChar c = true) ∧ '=' ∉ str.toList := by
  unfold generateRandStr at h
  cases hf : env.randReadFault with
  | some e => simp [hf] at h
  | none =>
    simp only [hf, Except.ok.injEq] at h
    have hbytes : ((List.range n).map (fun k => env.randByte k % 256)).length = n := by
      simp
    have hsafe : ∀ c ∈ str.toList, isUrlSafeChar c = true := by
      intro c hc
      rw [← h] at hc
      refine encodeBase64_take_safe ((List.range n).map (fun k => env.randByte k % 256)) n ?_ c hc
      rw [hbytes]
      exact Nat.le_succ n
    refine ⟨?_, hsafe, ?_⟩
    · rw [← h]
      show ((encodeBase64 urlAlphabet _).take n).length = n
      rw [List.length_take]
      have := encodeBase64_length_ge urlAlphabet
        ((List.range n).map (fun k => env.randByte k % 256))
      rw [hbytes] at this
      exact Nat.min_eq_left this
    · intro hmem
      have := hsafe '=' hmem
      exact absurd this (by decide)

/-- C13: for every length `n` and every outcome of the random source, a successful
`generateRandStr(n)` returns a string of exactly `n` characters, each from A–Z, a–z, 0–9,
`-`, `_` and none the padding character `=`; in particular the job id returned by `Create`
and the authCode that `State.process` stores when it moves a NEW job to MUST_LAUNCH are
exactly 64 such characters. -/
theorem random_token_url_safe (env : Env) (n : Nat) (str : String)
    (h : generateRandStr env n = .ok str) :
    (str.length = n ∧ (∀ c ∈ str.toList, isUrlSafeChar c = true) ∧ '=' ∉ str.toList) ∧
    (∀ (e : Env) (db db0 : Datastore) (inputData id : String),
      Create e db inputData = .ok (id, db0) →
      id.length = 64 ∧ (∀ c ∈ id.toList, isUrlSafeChar c = true) ∧ '=' ∉ id.toList) ∧
    (∀ (e : Env) (pool : String → Option PoolInstance) (s : State) (ts : taskState)
        (r : StepResult),
      s.Status = StatusNew → r.state.Status = StatusMustLaunchInstance →
      s.process e pool ts = .ok r →
      r.state.Instance.AuthCode.length = 64 ∧
      (∀ c ∈ r.state.Instance.AuthCode.toList, isUrlSafeChar c = true) ∧
      '=' ∉ r.state.Instance.AuthCode.toList) := by
  refine ⟨generateRandStr_safe env n str h, ?_, ?_⟩
  · intro e db db0 inputData id hc
    unfold Create at hc
    cases hg : generateRandStr e 64 with
    | error err => simp [hg] at hc
    | ok newID =>
      have hid : newID = id := by
        cases hf : e.putFault with
        | some err =>
          simp only [hg, hf, Except.ok.injEq, Prod.mk.injEq] at hc
          exact hc.1
        | none =>
          simp only [hg, hf, Except.ok.injEq, Prod.mk.injEq] at hc
          exact hc.1
      rw [← hid]
      exact generateRandStr_safe e 64 newID hg
  · intro e pool s ts r hs hr hp
    have hshape := process_ok_shape e pool s ts r hp
    cases hshape with
    | mustLaunch _ _ cert privKey authCode hc ha => exact generateRandStr_safe e 64 authCode ha
    | halt h =>
      rw [hs] at h
      rcases h with h | h <;> exact absurd h (by decide)
    | getPool _ _ =>
      rw [hs] at hr
      exact absurd hr (by decide)
    | adopt _ =>
      exact absurd (show StatusHaveInstance = StatusMustLaunchInstance from hr) (by decide)
    | allMiss _ =>
      exact absurd (show StatusHaveInstance = StatusMustLaunchInstance from hr) (by decide)
    | launch h => rw [hs] at h; exact absurd h (by decide)
    | checkLiveness h => rw [hs] at h; exact absurd h (by decide)
    | failed h => rw [hs] at h; exact absurd h (by decide)
    | live h => rw [hs] at h; exact absurd h (by decide)
    | dream h => rw [hs] at h; exact absurd h (by decide)
    | finished h => rw [hs] at h; exact absurd h (by decide)
    | done h => rw [hs] at h; exact absurd h (by decide)
    | unknown h0 => exact absurd hs h0

/-- C13 at a concrete input: 64 characters from the zero bytes that `calmEnv` supplies. -/
theorem random_token_url_safe_witness :
    generateRandStr calmEnv 64 = .ok createdID ∧
    createdID.length = 64 ∧ (∀ c ∈ createdID.toList, isUrlSafeChar c = true) ∧
      '=' ∉ createdID.toList :=
  ⟨rfl, (random_token_url_safe calmEnv 64 createdID rfl).1⟩

/-! ## C12: the launch request -/

/-- C12: for a MUST_LAUNCH job row (`json.Marshal` of the user-data struct succeeding with
`json`), `State.process` builds one `RunInstances` request, whose client token is the job's
id and whose UserData is the standard base64 of the JSON made from the fields `auth_code`,
`ssl_certificate`, `ssl_private_key` holding the AuthCode, Certificate and PrivateKey of the
job row; any other delivery in which `json.Marshal` is the same function builds the same
client token and UserData. If the provider answers with an id (and the `PutMulti`
succeeds), the job becomes LAUNCHING with that `Instance.ID`, AuthCode and Certificate
unchanged and the private key cleared. If the provider answers with an error, the step
fails with it, the transaction writes nothing and `processJob` returns the error with the
datastore, hence the MUST_LAUNCH row and its credentials, unchanged. -/
theorem launch_request_idempotent (env : Env) (pool : String → Option PoolInstance)
    (s : State) (ts : taskState) (json : List Nat)
    (hs : s.Status = StatusMustLaunchInstance)
    (hj : env.jsonMarshal (userDataFields s.Instance) = .ok json) :
    ∃ params, s.Instance.launchParams env s.ID = .ok params ∧
      params.ClientToken = s.ID ∧
      params.UserData = String.mk (encodeBase64 stdAlphabet json) ∧
      userDataFields s.Instance
        = [("auth_code", JsonField.str s.Instance.AuthCode),
           ("ssl_certificate", JsonField.bytes s.Instance.Certificate),
           ("ssl_private_key", JsonField.bytes s.Instance.PrivateKey)] ∧
      params.MinCount = 1 ∧ params.MaxCount = 1 ∧
      (∀ (env2 : Env) (params2 : RunInstancesInput), env2.jsonMarshal = env.jsonMarshal →
        s.Instance.launchParams env2 s.ID = .ok params2 →
        params2.ClientToken = params.ClientToken ∧ params2.UserData = params.UserData) ∧
      (∀ id, env.runInstances params.ClientToken params.UserData = .ok id →
        env.putFault = none →
        ∃ r, s.process env pool ts = .ok r ∧ r.task = Task.TaskNone ∧
          r.state.Status = StatusLaunchingInstance ∧ r.state.Instance.ID = id ∧
          r.state.Instance.AuthCode = s.Instance.AuthCode ∧
          r.state.Instance.Certificate = s.Instance.Certificate ∧
          r.state.Instance.PrivateKey = [] ∧
          Entity.job s.ID r.state ∈ r.puts) ∧
      (∀ e, env.runInstances params.ClientToken params.UserData = .error e →
        s.process env pool ts = .error e ∧
        ∀ (db : Datastore) (jid : String), db.jobs jid = some s → env.getJobFault = none →
          processJobTxn env db jid ts = .error e ∧
          ∀ (envs : Nat → Env) (fuel i : Nat), envs i = env →
            ∃ run, processJob envs jid (fuel + 1) i ts db = some run ∧
              run.err = some e ∧ run.db = db ∧ run.db.jobs jid = some s) := by
  have hparams : s.Instance.launchParams env s.ID
      = .ok { ClientToken := s.ID, ImageID := env.dreamServerAmi,
              InstanceType := env.dreamServerInstanceType, MinCount := 1, MaxCount := 1,
              UserData := String.mk (encodeBase64 stdAlphabet json),
              SecurityGroups := [env.awsSecurityGroup] } := by
    simp only [Instance.launchParams, hj]
  refine ⟨_, hparams, rfl, rfl, rfl, rfl, rfl, ?_, ?_, ?_⟩
  · intro env2 params2 hsame h2
    have hj2 : env2.jsonMarshal (userDataFields s.Instance) = .ok json := by rw [hsame, hj]
    simp only [Instance.launchParams, hj2, Except.ok.injEq] at h2
    rw [← h2]
    exact ⟨rfl, rfl⟩
  · intro id hrun hput
    have hrun' : env.runInstances s.ID (String.mk (encodeBase64 stdAlphabet json)) = .ok id :=
      hrun
    simp [State.process, hs, Instance.launch, hparams, hrun', hput, State.changeStatus,
      State.putAll, StatusMustLaunchInstance, StatusDone, StatusFailed, StatusNew,
      StatusLaunchingInstance]
  · intro e hrun
    have hrun' : env.runInstances s.ID (String.mk (encodeBase64 stdAlphabet json))
        = .error e := hrun
    have hproc : ∀ pl : String → Option PoolInstance, s.process env pl ts = .error e := by
      intro pl
      simp [State.process, hs, Instance.launch, hparams, hrun', StatusMustLaunchInstance,
        StatusDone, StatusFailed, StatusNew]
    refine ⟨hproc pool, ?_⟩
    intro db jid hjob hfault
    have htxn : processJobTxn env db jid ts = .error e := by
      simp [processJobTxn, hfault, hjob, hproc]
    refine ⟨htxn, ?_⟩
    intro envs fuel i henv
    refine ⟨{ err := some e, db := db, ts := ts, transactions := 1, tasks := [],
              scratchpads := [] }, ?_, rfl,
      rfl, hjob⟩
    simp [processJob, henv, htxn]

/-- C12 at a concrete input: the MUST_LAUNCH job `j` with auth code `code`, certificate bytes
1, 2 and private-key byte 3, in an environment whose `json.Marshal` renders the struct as
Go does. The request carries the client token `j` and the base64 of
the JSON object with `auth_code`, `ssl_certificate` (`AQI=`) and `ssl_private_key` (`Aw==`);
a delivery at another time builds the same request, a job with another key another
UserData; the provider answering `j`, the job becomes LAUNCHING with that id, its auth code
and certificate kept and its key cleared; the provider refusing, the step fails. -/
theorem launch_request_idempotent_witness :
    credJob.Status = StatusMustLaunchInstance ∧
    marshalEnv.jsonMarshal (userDataFields credJob.Instance)
      = .ok (("\x7b\x22auth_code\x22:\x22code\x22,\x22ssl_certificate\x22:\x22AQI=\x22," ++
          "\x22ssl_private_key\x22:\x22Aw==\x22\x7d").toList.map Char.toNat) ∧
    credJob.Instance.launchParams marshalEnv "j"
      = .ok { ClientToken := "j", ImageID := "ami", InstanceType := "g2", MinCount := 1,
              MaxCount := 1, SecurityGroups := ["sg"],
              UserData := "eyJhdXRoX2NvZGUiOiJjb2RlIiwic3NsX2NlcnRpZmljYXRlIjoiQVFJPSIsIn" ++
                "NzbF9wcml2YXRlX2tleSI6IkF3PT0ifQ==" } ∧
    credJob.Instance.launchParams { marshalEnv with now := 100 * Minute } "j"
      = credJob.Instance.launchParams marshalEnv "j" ∧
    otherKeyJob.Instance.launchParams marshalEnv "j"
      = .ok { ClientToken := "j", ImageID := "ami", InstanceType := "g2", MinCount := 1,
              MaxCount := 1, SecurityGroups := ["sg"],
              UserData := "eyJhdXRoX2NvZGUiOiJjb2RlIiwic3NsX2NlcnRpZmljYXRlIjoiQVFJPSIsIn" ++
                "NzbF9wcml2YXRlX2tleSI6IkJBPT0ifQ==" } ∧
    credJob.process refusingEnv (fun _ => none) taskState.zero
      = .error (Error.other "RequestLimitExceeded") ∧
    ∃ params, credJob.Instance.launchParams marshalEnv credJob.ID = .ok params ∧
      params.ClientToken = credJob.ID ∧
      params.UserData
        = String.mk (encodeBase64 stdAlphabet (plainJson (userDataFields credJob.Instance))) ∧
      ∃ r, credJob.process marshalEnv (fun _ => none) taskState.zero = .ok r ∧
        r.task = Task.TaskNone ∧ r.state.Status = StatusLaunchingInstance ∧
        r.state.Instance.ID = "j" ∧ r.state.Instance.AuthCode = "code" ∧
        r.state.Instance.Certificate = [1, 2] ∧ r.state.Instance.PrivateKey = [] ∧
        Entity.job "j" r.state ∈ r.puts :=
  ⟨rfl, rfl, rfl, rfl, rfl, rfl,
    match launch_request_idempotent marshalEnv (fun _ => none) credJob taskState.zero
        (plainJson (userDataFields credJob.Instance)) rfl rfl with
    | ⟨params, h1, h2, h3, _, _, _, _, h8, _⟩ =>
      ⟨params, h1, h2, h3, h8 "j" (by rw [h2]; rfl) rfl⟩⟩

/-! ## C16: the candidate query runs at most once per invocation -/

/-- `State.process` asks for the candidate list only while the scratchpad has none. -/
theorem process_getPool_only_unset (env : Env) (pool : String → Option PoolInstance)
    (s : State) (ts : taskState) (r : StepResult) (h : s.process env pool ts = .ok r)
    (hg : r.task = Task.TaskGetPoolInstances) : ts.PoolInstances = none := by
  have hshape := process_ok_shape env pool s ts r h
  cases hshape with
  | getPool _ hk => exact hk
  | halt _ => cases hg
  | checkLiveness _ _ => cases hg
  | dream _ _ => cases hg
  | unknown => cases hg
  | mustLaunch => cases hg
  | adopt => cases hg
  | allMiss => cases hg
  | launch => cases hg
  | failed => cases hg
  | live => cases hg
  | finished => cases hg
  | done => cases hg

/-- The liveness loop leaves the candidate fields of the scratchpad alone. -/
theorem livenessLoop_keeps_candidates (env : Env) (s : State) (ts : taskState) (fuel : Nat) :
    ∀ i, (livenessLoop env s fuel i ts).1.PoolInstances = ts.PoolInstances ∧
      (livenessLoop env s fuel i ts).1.PoolInstancesRetrievedBefore
        = ts.PoolInstancesRetrievedBefore := by
  induction fuel with
  | zero => intro i; exact ⟨rfl, rfl⟩
  | succ n ih =>
    intro i
    simp only [livenessLoop]
    cases s.Instance.get env i "dream" with
    | error e => exact ih (i + 1)
    | ok resp => exact ⟨rfl, rfl⟩

/-- Only the GET_POOL_INSTANCES task touches the candidate fields of the scratchpad. -/
theorem doTask_keeps_candidates (env : Env) (s : State) (task : Task) (ts : taskState)
    (hne : task ≠ Task.TaskGetPoolInstances) :
    (s.doTask env task ts).1.PoolInstances = ts.PoolInstances ∧
    (s.doTask env task ts).1.PoolInstancesRetrievedBefore
      = ts.PoolInstancesRetrievedBefore := by
  cases task with
  | TaskNone => exact ⟨rfl, rfl⟩
  | TaskHaltProcessing => exact ⟨rfl, rfl⟩
  | TaskGetPoolInstances => exact absurd rfl hne
  | TaskCheckLiveness =>
    obtain ⟨h1, h2⟩ := livenessLoop_keeps_candidates env s ts 6 0
    simp only [State.doTask]
    split
    · split
      · exact ⟨h1, h2⟩
      · exact ⟨h1, h2⟩
    · exact ⟨h1, h2⟩
  | TaskDream =>
    simp only [State.doTask]
    cases env.readFile s.InputData with
    | error e => exact ⟨rfl, rfl⟩
    | ok inputData =>
      simp only
      cases s.Instance.postFile env ("dream?auth_code=" ++ s.Instance.AuthCode) "image"
          inputData with
      | error e => exact ⟨rfl, rfl⟩
      | ok resp =>
        simp only
        split
        · exact ⟨rfl, rfl⟩
        · cases resp.Body with
          | error e => exact ⟨rfl, rfl⟩
          | ok resultData =>
            simp only
            cases WriteFile env ("job/" ++ s.ID ++ "/output") resultData with
            | error e => exact ⟨rfl, rfl⟩
            | ok outputDataPath => exact ⟨rfl, rfl⟩

/-- A successful GET_POOL_INSTANCES task leaves a candidate list that is set. -/
theorem doTask_getPool_sets (env : Env) (s : State) (ts ts1 : taskState)
    (h : s.doTask env Task.TaskGetPoolInstances ts = (ts1, none)) :
    ∃ keys, ts1.PoolInstances = some keys := by
  simp only [State.doTask] at h
  unfold getCandidatePoolInstances at h
  cases hq : env.queryNewest with
  | error e => simp [hq] at h
  | ok results =>
    cases results with
    | nil =>
      simp only [hq, Prod.mk.injEq] at h
      exact ⟨[], by rw [← h.1]⟩
    | cons first rest =>
      simp only [hq, Prod.mk.injEq] at h
      exact ⟨_, by rw [← h.1]⟩

/-- The GET_POOL_INSTANCES case of `State.doTask` calls `getCandidatePoolInstances` with the
scratchpad's `PoolInstancesRetrievedBefore` as `retry` and stores what it returns. -/
theorem doTask_getPool_call (env : Env) (s : State) (ts : taskState) :
    s.doTask env Task.TaskGetPoolInstances ts
      = applyCandidates ts (getCandidatePoolInstances env ts.PoolInstancesRetrievedBefore) := by
  simp only [State.doTask, applyCandidates]

/-- The facts of `processJob_query_once` for a run that handed one task to `doTask`. -/
theorem single_task_query_once (task : Task) (ts : taskState)
    (hhead : task = Task.TaskGetPoolInstances →
      ts.PoolInstances = none ∧ ts.PoolInstancesRetrievedBefore = false) :
    [ts].length = [task].length ∧
    (∀ p ∈ [task].zip [ts], p.1 = Task.TaskGetPoolInstances →
      p.2.PoolInstances = none ∧ p.2.PoolInstancesRetrievedBefore = false) ∧
    [task].count Task.TaskGetPoolInstances ≤ 1 ∧
    (ts.PoolInstances ≠ none → [task].count Task.TaskGetPoolInstances = 0) := by
  refine ⟨rfl, ?_, ?_, ?_⟩
  · intro p hp hg
    simp only [List.zip_cons_cons, List.zip_nil_right, List.mem_singleton] at hp
    rw [hp] at hg ⊢
    exact hhead hg
  · exact (List.count_le_length _ _).trans (Nat.le_refl 1)
  · intro hset
    refine List.count_eq_zero.mpr (fun hm => ?_)
    exact hset (hhead (List.mem_singleton.mp hm).symm).1

/-- From a scratchpad whose candidate list is unset only if the query has not run, one
`processJob` invocation hands GET_POOL_INSTANCES to `doTask` at most once, only with a
scratchpad whose candidate list is unset and whose `PoolInstancesRetrievedBefore` is false,
and not at all once the list is set. -/
theorem processJob_query_once (envs : Nat → Env) (jobID : String) (fuel : Nat) :
    ∀ (i : Nat) (ts : taskState) (db : Datastore) (run : JobRun),
      (ts.PoolInstances = none → ts.PoolInstancesRetrievedBefore = false) →
      processJob envs jobID fuel i ts db = some run →
      run.scratchpads.length = run.tasks.length ∧
      (∀ p ∈ run.tasks.zip run.scratchpads, p.1 = Task.TaskGetPoolInstances →
        p.2.PoolInstances = none ∧ p.2.PoolInstancesRetrievedBefore = false) ∧
      run.tasks.count Task.TaskGetPoolInstances ≤ 1 ∧
      (ts.PoolInstances ≠ none → run.tasks.count Task.TaskGetPoolInstances = 0) := by
  induction fuel with
  | zero =>
    intro i ts db run _ h
    simp [processJob] at h
  | succ n ih =>
    intro i ts db run hinv h
    simp only [processJob] at h
    cases htxn : processJobTxn (envs i) db jobID ts with
    | error e =>
      simp only [htxn, Option.some.injEq] at h
      rw [← h]
      exact ⟨rfl, fun p hp => absurd hp (List.not_mem_nil p), Nat.zero_le 1, fun _ => rfl⟩
    | ok rdb =>
      obtain ⟨r, db1⟩ := rdb
      obtain ⟨s, _, hproc, _⟩ := processJobTxn_ok (envs i) db db1 jobID ts r htxn
      have hhead : r.task = Task.TaskGetPoolInstances →
          ts.PoolInstances = none ∧ ts.PoolInstancesRetrievedBefore = false := by
        intro hg
        have h1 := process_getPool_only_unset (envs i) db.pool s ts r hproc hg
        exact ⟨h1, hinv h1⟩
      simp only [htxn] at h
      cases hd : r.state.doTask (envs i) r.task ts with
      | mk ts1 err =>
        simp only [hd] at h
        cases err with
        | some e =>
          simp only [Option.some.injEq] at h
          rw [← h]
          exact single_task_query_once r.task ts hhead
        | none =>
          by_cases hh : r.task = Task.TaskHaltProcessing
          · simp only [if_pos hh, Option.some.injEq] at h
            rw [← h]
            exact single_task_query_once r.task ts hhead
          · simp only [if_neg hh] at h
            cases hrec : processJob envs jobID n (i + 1) ts1 db1 with
            | none => simp [hrec] at h
            | some run1 =>
              simp only [hrec, Option.map_some', Option.some.injEq] at h
              have hinv1 : ts1.PoolInstances = none →
                  ts1.PoolInstancesRetrievedBefore = false := by
                intro hnone
                by_cases hg : r.task = Task.TaskGetPoolInstances
                · rw [hg] at hd
                  obtain ⟨keys, hkeys⟩ := doTask_getPool_sets (envs i) r.state ts ts1 hd
                  rw [hkeys] at hnone
                  cases hnone
                · obtain ⟨hk1, hk2⟩ := doTask_keeps_candidates (envs i) r.state r.task ts hg
                  rw [hd] at hk1 hk2
                  have hk1' : ts1.PoolInstances = ts.PoolInstances := hk1
                  have hk2' : ts1.PoolInstancesRetrievedBefore
                      = ts.PoolInstancesRetrievedBefore := hk2
                  rw [hk2']
                  exact hinv (hk1' ▸ hnone)
              obtain ⟨hlen, hzip, hcount, hzero⟩ := ih (i + 1) ts1 db1 run1 hinv1 hrec
              rw [← h]
              refine ⟨?_, ?_, ?_, ?_⟩
              · show (ts :: run1.scratchpads).length = (r.task :: run1.tasks).length
                rw [List.length_cons, List.length_cons, hlen]
              · intro p hp hg
                have hp' : p ∈ (r.task, ts) :: run1.tasks.zip run1.scratchpads := hp
                rcases List.mem_cons.mp hp' with hp1 | hp1
                · rw [hp1] at hg ⊢
                  exact hhead hg
                · exact hzip p hp1 hg
              · show (r.task :: run1.tasks).count Task.TaskGetPoolInstances ≤ 1
                by_cases hg : r.task = Task.TaskGetPoolInstances
                · have hset : ts1.PoolInstances ≠ none := by
                    rw [hg] at hd
                    obtain ⟨keys, hkeys⟩ := doTask_getPool_sets (envs i) r.state ts ts1 hd
                    rw [hkeys]
                    exact fun hc => by cases hc
                  rw [hg, List.count_cons_self, hzero hset]
                · rw [List.count_cons_of_ne (Ne.symm hg)]
                  exact hcount
              · intro hset
                show (r.task :: run1.tasks).count Task.TaskGetPoolInstances = 0
                have hg : r.task ≠ Task.TaskGetPoolInstances := fun hg => hset (hhead hg).1
                obtain ⟨hk1, _⟩ := doTask_keeps_candidates (envs i) r.state r.task ts hg
                rw [hd] at hk1
                have hk1' : ts1.PoolInstances = ts.PoolInstances := hk1
                rw [List.count_cons_of_ne (Ne.symm hg)]
                exact hzero (by rw [hk1']; exact hset)

/-- C16: in one `processJob` invocation (which starts from the zero scratchpad), the
GET_POOL_INSTANCES task is handed to `doTask` at most once, so performed at most once
successfully; `doTask` passes the scratchpad's `PoolInstancesRetrievedBefore` as `retry`,
and at every GET_POOL_INSTANCES task of the run that flag is false, so the call it makes is
`getCandidatePoolInstances(c, false)` and the 25 s window is never used; a successful task
leaves the candidate list set (`some`, never the unset value), and with the list set
`State.process` does not emit GET_POOL_INSTANCES. -/
theorem candidate_query_never_retried (envs : Nat → Env) (jobID : String) (fuel : Nat)
    (db : Datastore) (run : JobRun)
    (hrun : processJob envs jobID fuel 0 taskState.zero db = some run) :
    run.tasks.count Task.TaskGetPoolInstances ≤ 1 ∧
    run.scratchpads.length = run.tasks.length ∧
    (∀ p ∈ run.tasks.zip run.scratchpads, p.1 = Task.TaskGetPoolInstances →
      p.2.PoolInstancesRetrievedBefore = false ∧
      ∀ (env : Env) (s : State),
        s.doTask env Task.TaskGetPoolInstances p.2
          = applyCandidates p.2 (getCandidatePoolInstances env false)) ∧
    (∀ (env : Env) (s : State) (ts : taskState),
      s.doTask env Task.TaskGetPoolInstances ts
        = applyCandidates ts
            (getCandidatePoolInstances env ts.PoolInstancesRetrievedBefore)) ∧
    (∀ (env : Env) (s : State) (ts ts1 : taskState),
      s.doTask env Task.TaskGetPoolInstances ts = (ts1, none) →
      ∃ keys, ts1.PoolInstances = some keys) ∧
    (∀ (env : Env) (pool : String → Option PoolInstance) (s : State) (ts : taskState)
        (r : StepResult),
      ts.PoolInstances ≠ none → s.process env pool ts = .ok r →
      r.task ≠ Task.TaskGetPoolInstances) := by
  obtain ⟨hlen, hzip, hcount, _⟩ :=
    processJob_query_once envs jobID fuel 0 taskState.zero db run (fun _ => rfl) hrun
  refine ⟨hcount, hlen, ?_, doTask_getPool_call, doTask_getPool_sets, ?_⟩
  · intro p hp hg
    have hfalse := (hzip p hp hg).2
    refine ⟨hfalse, fun env s => ?_⟩
    rw [doTask_getPool_call, hfalse]
  · intro env pool s ts r hset hproc hg
    exact hset (process_getPool_only_unset env pool s ts r hproc hg)

/-- C16 at a concrete input: the cold start of the job that `Create` saved, driven to DONE
in `calmEnv`: nine transactions, one candidate query, made from the zero scratchpad, whose
`PoolInstancesRetrievedBefore` is false. -/
theorem candidate_query_never_retried_witness :
    ∃ run, processJob (fun _ => calmEnv) createdID 9 0 taskState.zero createdStore = some run ∧
      run.err = none ∧ run.transactions = 9 ∧
      run.tasks = [Task.TaskGetPoolInstances, Task.TaskNone, Task.TaskNone,
        Task.TaskCheckLiveness, Task.TaskNone, Task.TaskDream, Task.TaskNone, Task.TaskNone,
        Task.TaskHaltProcessing] ∧
      run.scratchpads.head? = some taskState.zero ∧
      run.tasks.count Task.TaskGetPoolInstances ≤ 1 ∧
      ∀ p ∈ run.tasks.zip run.scratchpads, p.1 = Task.TaskGetPoolInstances →
        p.2.PoolInstancesRetrievedBefore = false ∧
        ∀ (env : Env) (s : State),
          s.doTask env Task.TaskGetPoolInstances p.2
            = applyCandidates p.2 (getCandidatePoolInstances env false) :=
  ⟨_, rfl, rfl, rfl, rfl, rfl,
    (candidate_query_never_retried (fun _ => calmEnv) createdID 9 createdStore _ rfl).1,
    (candidate_query_never_retried (fun _ => calmEnv) createdID 9 createdStore _ rfl).2.2.1⟩

/-! ## C15: stray uploads -/

/-- The block's `err` stays nil through the delete loop, whatever the deletes return. -/
theorem deleteLoop_nil (deleteObject : String → Option Error) (junk : List String) :
    deleteLoop deleteObject junk none = none := by
  induction junk with
  | nil => rfl
  | cons j rest ih => simp only [deleteLoop, ih]

/-- C15 (as the code behaves): when the upload parses, the storage context is obtained and a
file was uploaded, `HandleUpload` calls `storage.DeleteObject` on exactly the blobs other
than the first one of the field `file`, on all of them whatever the calls return, and then
returns the uploaded file's object name with a nil error even when deletes failed: the
failure of a delete is never stored (the test is `err != nil` on the block's `err`, which
is nil) and never returned. -/
theorem upload_delete_errors_dropped (env : UploadEnv) (parsed : ParsedUpload)
    (first : String) (rest : List String) (hparse : env.parseUpload = .ok parsed)
    (hctx : env.gcsContextFault = none)
    (hfile : blobsOf parsed.blobs "file" = first :: rest) :
    (HandleUpload env).deleteAttempts = junkList parsed.blobs ∧
    (HandleUpload env).err = none ∧
    (HandleUpload env).storageName = first ∧
    (HandleUpload env).other = some parsed.other ∧
    deleteLoop env.deleteObject (junkList parsed.blobs) none = none := by
  refine ⟨?_, ?_, ?_, ?_, deleteLoop_nil _ _⟩
  all_goals
    unfold HandleUpload
    simp only [hparse, hctx]
    by_cases hlen : (junkList parsed.blobs).length > 0
    · simp only [hlen, if_true, uploadFinish, hfile]
    · have hnil : junkList parsed.blobs = [] := by
        apply List.length_eq_zero.mp
        omega
      simp [hnil, uploadFinish, hfile]

/-- C15 at a concrete input: the file `upload/f0` and a stray blob `upload/j0` whose
deletion fails; the delete is attempted and the file name returned without error. -/
theorem upload_delete_errors_dropped_witness :
    strayUpload.deleteObject "upload/j0" = some (Error.other "delete failed") ∧
    HandleUpload strayUpload
      = { storageName := "upload/f0", other := some [], err := none,
          deleteAttempts := ["upload/j0"] } ∧
    (HandleUpload strayUpload).err = none :=
  ⟨rfl, by decide,
    (upload_delete_errors_dropped strayUpload
      { blobs := [("file", ["upload/f0"]), ("extra", ["upload/j0"])], other := [] }
      "upload/f0" [] rfl rfl (by decide)).2.1⟩

/-! ## C14: the batches of a sweep -/

/-- A key of the table is found by `lookup`, with the row of some table entry. -/
theorem lookup_of_key (table : PoolTable) (key : String)
    (h : key ∈ table.map (fun row => row.1)) :
    ∃ row ∈ table, table.lookup key = some row.2 := by
  obtain ⟨row0, hrow0, hkey⟩ := List.mem_map.mp h
  unfold PoolTable.lookup
  cases hfind : table.find? (fun row => decide (row.1 = key)) with
  | none =>
    have := List.find?_eq_none.mp hfind row0 hrow0
    simp [hkey] at this
  | some row => exact ⟨row, List.mem_of_find?_eq_some hfind, rfl⟩

/-- A transaction on a candidate whose row was launched less than 50 minutes ago changes
neither the store nor `err`. -/
theorem shrinkTxnTable_spared (env : Env) (maxPoolAddTime : Time) (st : SweepStore)
    (key : String) (p : PoolInstance) (hrow : st.table.lookup key = some p)
    (hget : env.getFault 0 = none)
    (hyoung : env.now + -(Minute * 50) < p.Instance.LaunchTime) :
    shrinkTxnTable env maxPoolAddTime st key = (st, none) := by
  unfold shrinkTxnTable shrinkCandidate shrinkCapturedErr getPoolInstance
  by_cases hadd : maxPoolAddTime < p.PoolAddTime
  · simp [hget, hrow, hadd]
  · simp [hget, hrow, hadd, hyoung]

/-- A batch of such candidates changes neither the store nor `err`. -/
theorem shrinkBatchTable_spared (env : Nat → Env) (maxPoolAddTime : Time) (st : SweepStore)
    (hget : ∀ k, (env k).getFault 0 = none)
    (hyoung : ∀ row ∈ st.table, ∀ k, (env k).now + -(Minute * 50) < row.2.Instance.LaunchTime)
    (keys : List String) :
    ∀ k, (∀ key ∈ keys, key ∈ st.table.map (fun row => row.1)) →
      shrinkBatchTable env maxPoolAddTime k st none keys = (st, none) := by
  induction keys with
  | nil => intro k _; rfl
  | cons key rest ih =>
    intro k hkeys
    obtain ⟨row, hmem, hlook⟩ := lookup_of_key st.table key (hkeys key (List.mem_cons_self _ _))
    have htxn := shrinkTxnTable_spared (env k) maxPoolAddTime st key row.2 hlook (hget k)
      (hyoung row hmem k)
    simp only [shrinkBatchTable, htxn]
    exact ih (k + 1) (fun key2 h2 => hkeys key2 (List.mem_cons_of_mem _ h2))

/-- C14 (as the code behaves): the derived query of `q.Start(*cursor)` is dropped, so every
batch is queried from the start of the index. With at least 1000 rows, all of them
candidates of every batch and none of them deleted (each launched less than 50 minutes
before the clock of its transaction), and no datastore failure, every batch visits the same
first 1000 keys again and `ShrinkPool` has not returned after any number of batches; the
store is unchanged. -/
theorem shrinkPool_repeats_first_batch (batchEnv : Nat → Env) (txnEnv : Nat → Nat → Env)
    (queryFault : Nat → Option Error) (st : SweepStore)
    (hq : ∀ b, queryFault b = none) (hget : ∀ b k, (txnEnv b k).getFault 0 = none)
    (hcand : ∀ row ∈ st.table, ∀ b, row.2.PoolAddTime < (batchEnv b).now + -(Minute * 15))
    (hyoung : ∀ row ∈ st.table, ∀ b k,
      (txnEnv b k).now + -(Minute * 50) < row.2.Instance.LaunchTime)
    (hlen : 1000 ≤ st.table.length) (fuel : Nat) :
    ∀ (b : Nat) (cursor : Option Nat),
      (ShrinkPool batchEnv txnEnv queryFault fuel b cursor none st).returned = none ∧
      (ShrinkPool batchEnv txnEnv queryFault fuel b cursor none st).store = st ∧
      (ShrinkPool batchEnv txnEnv queryFault fuel b cursor none st).batches
        = List.replicate fuel ((st.table.map (fun row => row.1)).take 1000) := by
  induction fuel with
  | zero => intro b cursor; exact ⟨rfl, rfl, rfl⟩
  | succ n ih =>
    intro b cursor
    have hrun : ((NewQuery "PoolInstance").Filter ((batchEnv b).now + -(Minute * 15))).KeysOnly.run
        st.table = st.table.map (fun row => row.1) := by
      have hfilter : st.table.filter (fun row =>
          decide (row.2.PoolAddTime < (batchEnv b).now + -(Minute * 15))) = st.table :=
        List.filter_eq_self.mpr (fun row hrow => decide_eq_true (hcand row hrow b))
      simp only [Query.run, NewQuery, Query.Filter, Query.KeysOnly, hfilter]
    have hlen' : 1000 ≤ (st.table.map (fun row => row.1)).length := by
      rw [List.length_map]; exact hlen
    have hbatch := shrinkBatchTable_spared (txnEnv b) ((batchEnv b).now + -(Minute * 15)) st
      (hget b) (fun row hrow k => hyoung row hrow b k)
      ((st.table.map (fun row => row.1)).take 1000) 0
      (fun key hkey => List.mem_of_mem_take hkey)
    obtain ⟨h1, h2, h3⟩ := ih (b + 1) (some 1000)
    simp only [ShrinkPool, hq, hrun, hlen', if_true, hbatch]
    exact ⟨h1, h2, by rw [h3]; rfl⟩

/-- The rows of `crowdedStore` are the rows `idleRow`. -/
theorem crowdedStore_rows (row : String × PoolInstance) (h : row ∈ crowdedStore.table) :
    ∃ i, row.2 = idleRow i := by
  simp only [crowdedStore] at h
  unfold crowdedTable at h
  obtain ⟨i, _, hi⟩ := List.mem_map.mp h
  exact ⟨i, by rw [← hi]⟩

/-- C14 at a concrete input: 1000 rows added 30 and launched 40 minutes before the clock
reading of 100 minutes; after three batches `ShrinkPool` has not returned and each batch
held the same 1000 keys. -/
theorem shrinkPool_repeats_first_batch_witness :
    1000 ≤ crowdedStore.table.length ∧
    (ShrinkPool (fun _ => lateEnv) (fun _ _ => lateEnv) (fun _ => none) 3 0 none none
        crowdedStore).returned = none ∧
    (ShrinkPool (fun _ => lateEnv) (fun _ _ => lateEnv) (fun _ => none) 3 0 none none
        crowdedStore).batches
      = List.replicate 3 ((crowdedStore.table.map (fun row => row.1)).take 1000) :=
  have hlen : 1000 ≤ crowdedStore.table.length := by
    simp only [crowdedStore]
    unfold crowdedTable
    rw [List.length_map, List.length_range]
  have hthm := shrinkPool_repeats_first_batch (fun _ => lateEnv) (fun _ _ => lateEnv)
    (fun _ => none) crowdedStore (fun _ => rfl) (fun _ _ => rfl)
    (fun row hrow _ => by
      obtain ⟨i, hi⟩ := crowdedStore_rows row hrow
      rw [hi]
      show 70 * Minute < lateEnv.now + -(Minute * 15)
      decide)
    (fun row hrow _ _ => by
      obtain ⟨i, hi⟩ := crowdedStore_rows row hrow
      rw [hi]
      show lateEnv.now + -(Minute * 50) < 60 * Minute
      decide)
    hlen 3 0 none
  ⟨hlen, hthm.1, hthm.2.2⟩

end Dreampics
